import Mathlib

/-!
# AppDynamics operator: reconciliation engine

A shallow embedding of the reconciliation logic of
`pkg/controller/adam/adam_controller.go` and
`pkg/controller/clustercollector/{clusterCollector,collector_controller}.go`.

Go strings are `String`, Go slices are `List`, Go maps are association lists.
A Go function that mutates an object through a pointer returns the mutated
object next to its results.  A Go function that can panic (index out of range)
returns `Option`, with `none` for the panic.
-/

/-! ## Data model (`pkg/apis/appdynamics/v1alpha1`, `k8s.io/api`) -/

/-- The `corev1.ResourceRequirements` of a container. -/
structure ResourceRequirements where
  Limits : List (String × String)
  Requests : List (String × String)
deriving DecidableEq, Inhabited

/-- The fields of `AgentStatus` (the agent's self-reported state). -/
structure AgentStatus where
  NsToMonitor : List String
  NsToMonitorExclude : List String
  NodesToMonitor : List String
  NodesToMonitorExclude : List String
  NsToInstrument : List String
  NsToInstrumentExclude : List String
  InstrumentMatchString : List String
deriving DecidableEq, Inhabited

/-- The fields of `AdamSpec` that the controller reads or writes. -/
structure AdamSpec where
  Image : String
  ControllerUrl : String
  Account : String
  GlobalAccount : String
  AppName : String
  EventServiceUrl : String
  SystemSSLCert : String
  AgentSSLCert : String
  AgentSSLStoreName : String
  CustomSSLConfigMap : String
  Resources : ResourceRequirements
deriving DecidableEq, Inhabited

/-- The `AdamStatus` of the custom resource. -/
structure AdamStatus where
  LastUpdateTime : Nat
  State : AgentStatus
deriving DecidableEq, Inhabited

/-- The `Adam` custom resource (the desired state of the primary agent). -/
structure Adam where
  Name : String
  Namespace : String
  Spec : AdamSpec
  Status : AdamStatus
deriving DecidableEq, Inhabited

/-- The fields of the property bag `AppDBag` that the controller reads or writes. -/
structure AppDBag where
  SecretVersion : String
  ControllerUrl : String
  Account : String
  GlobalAccount : String
  AppName : String
  EventServiceUrl : String
  SystemSSLCert : String
  AgentSSLCert : String
  AgentServerPort : Int
  InstrumentationUpdated : Bool
deriving DecidableEq, Inhabited

/-- A `corev1.Secret`. -/
structure Secret where
  Name : String
  Namespace : String
  SecretType : String
  ResourceVersion : String
  StringData : List (String × String)
  Data : List (String × String)
deriving DecidableEq, Inhabited

/-- A `corev1.EnvVar`: a literal-free variable that refers either to a key of a
secret (`SecretKeyRef`: secret name and key) or to a field of the pod (`FieldRef`). -/
structure EnvVar where
  Name : String
  SecretKeyRef : Option (String × String)
  FieldPath : Option String
deriving DecidableEq, Inhabited

/-- A `corev1.VolumeMount`. -/
structure VolumeMount where
  Name : String
  MountPath : String
  SubPath : String
deriving DecidableEq, Inhabited

/-- A `corev1.Volume` backed by a ConfigMap. -/
structure Volume where
  Name : String
  ConfigMapName : String
deriving DecidableEq, Inhabited

/-- A `corev1.Container` of a pod template. -/
structure Container where
  Name : String
  Image : String
  ImagePullPolicy : String
  Resources : ResourceRequirements
  Env : List EnvVar
  Ports : List (String × Int)
  VolumeMounts : List VolumeMount
deriving DecidableEq, Inhabited

/-- An `appsv1.Deployment`.  `Labels` is the selector and pod-template label set,
`Containers` is `Spec.Template.Spec.Containers`, `Owner` is the controller reference. -/
structure Deployment where
  Name : String
  Namespace : String
  Annotations : List (String × String)
  Owner : Option String
  Replicas : Int
  Labels : List (String × String)
  ServiceAccountName : String
  Containers : List Container
  Volumes : List Volume
deriving DecidableEq, Inhabited

/-- A `corev1.ConfigMap`. -/
structure ConfigMap where
  Name : String
  Namespace : String
  Data : List (String × String)
deriving DecidableEq, Inhabited

/-- A `corev1.Service` with its ports as `(name, port)` pairs. -/
structure Service where
  Name : String
  Namespace : String
  Labels : List (String × String)
  Selector : List (String × String)
  Ports : List (String × Int)
deriving DecidableEq, Inhabited

/-- A `corev1.Pod`, as far as listing and deleting are concerned. -/
structure Pod where
  Name : String
  Namespace : String
  Labels : List (String × String)
deriving DecidableEq, Inhabited

/-- The `SystemConfigs` of a `ClustercollectorSpec`, as `ensureInfraAgentConfig` reads it. -/
structure SystemConfigs where
  CollectorLibSocketUrl : String
  CollectorLibPort : String
  HttpClientTimeOut : Int
  HttpBasicAuthEnabled : Bool
  ConfigChangeScanPeriod : Int
  ConfigStaleGracePeriod : Int
  DebugPort : String
  ClientLibSendUrl : String
  ClientLibRecvUrl : String
  LogLevel : String
  DebugEnabled : Bool
deriving DecidableEq, Inhabited

/-- The `HostCollector` section of a `ClustercollectorSpec`. -/
structure HostCollectorSpec where
  ContainerMetricExporterAddress : String
  ContainerCollectorPath : String
  ContainerCollectorDependency : String
  ServerCollectorPath : String
  ServerCollectorDependency : String
  LogLevel : String
deriving DecidableEq, Inhabited

/-- The fields of `ClustercollectorSpec` that the collector controller reads. -/
structure ClustercollectorSpec where
  Image : String
  ServiceAccountName : String
  Resources : ResourceRequirements
  ControllerUrl : String
  Account : String
  AccessSecret : String
  ClusterName : String
  NsToMonitorRegex : String
  NsToExcludeRegex : String
  ClusterMonEnabled : Bool
  LogLevel : String
  ExporterAddress : String
  ExporterPort : Int
  SystemConfigs : SystemConfigs
  HostCollector : HostCollectorSpec
deriving DecidableEq, Inhabited

/-- The `Clustercollector` custom resource (the desired state of the collector family). -/
structure Clustercollector where
  Name : String
  Namespace : String
  Spec : ClustercollectorSpec
  LastUpdateTime : Nat
deriving DecidableEq, Inhabited

/-! ## The orchestration API

The controller-runtime client is an external collaborator.  It is modelled as a
store of objects per kind, addressed by namespace and name, with the five
operations the controllers use.  Every call is appended to `trace`; the call
whose position in the trace is listed in `faults` fails with an error that is
not `NotFound`, so that any pattern of API failures can be injected. -/

/-- The errors the controllers distinguish: `errors.IsNotFound` holds of `notFound`
only; `api` is any other failure of an API call; `msg` is an error built by
`fmt.Errorf`, identified by the constant part of its format string. -/
inductive Error where
  | notFound
  | alreadyExists
  | api
  | msg (text : String)
deriving DecidableEq, Inhabited

/-- The object kinds the controllers touch. -/
inductive Kind where
  | adam
  | deployment
  | secret
  | configMap
  | service
  | pod
  | clustercollector
deriving DecidableEq, Inhabited

/-- An API object of any kind. -/
inductive Obj where
  | adam (o : Adam)
  | deployment (o : Deployment)
  | secret (o : Secret)
  | configMap (o : ConfigMap)
  | service (o : Service)
  | pod (o : Pod)
  | clustercollector (o : Clustercollector)
deriving DecidableEq, Inhabited

/-- One call on the client.  `statusUpdate` is `client.Status().Update`. -/
inductive Call where
  | get (kind : Kind) (ns name : String)
  | list (ns : String) (selector : List (String × String))
  | create (o : Obj)
  | update (o : Obj)
  | statusUpdate (o : Obj)
  | delete (o : Obj)
deriving DecidableEq, Inhabited

/-- The outcome of the HTTP exchange with the agent's `/status` endpoint:
the request cannot be built or sent, the body cannot be read, or a body arrives. -/
inductive HttpReply where
  | requestFailed
  | bodyUnreadable
  | body (text : String)
deriving DecidableEq, Inhabited

/-- The cluster as one reconciliation pass sees it. -/
structure World where
  adams : List Adam
  deployments : List Deployment
  secrets : List Secret
  configMaps : List ConfigMap
  services : List Service
  pods : List Pod
  clustercollectors : List Clustercollector
  agentReply : HttpReply
  now : Nat
  faults : List Nat
  trace : List Call
deriving Inhabited

/-- Whether a call is a write (anything but `get` and `list`). -/
def Call.isWrite : Call → Bool
  | .get _ _ _ => false
  | .list _ _ => false
  | _ => true

/-- Whether a call deletes an object. -/
def Call.isDelete : Call → Bool
  | .delete _ => true
  | _ => false

/-- The writes among the calls issued so far. -/
def World.writes (w : World) : List Call := w.trace.filter Call.isWrite

/-- Record a call in the trace. -/
def World.issue (w : World) (c : Call) : World := { w with trace := w.trace ++ [c] }

/-- Whether the next call is one of the injected failures. -/
def World.faulty (w : World) : Bool := decide (w.trace.length ∈ w.faults)

/-- What the client needs to know of a kind of object: its kind, its key, and
where the world keeps the objects of that kind. -/
class ApiObject (α : Type) where
  kind : Kind
  ns : α → String
  name : α → String
  toObj : α → Obj
  all : World → List α
  put : World → List α → World

instance : ApiObject Adam where
  kind := Kind.adam
  ns := Adam.Namespace
  name := Adam.Name
  toObj := Obj.adam
  all := World.adams
  put := fun w l => { w with adams := l }

instance : ApiObject Deployment where
  kind := Kind.deployment
  ns := Deployment.Namespace
  name := Deployment.Name
  toObj := Obj.deployment
  all := World.deployments
  put := fun w l => { w with deployments := l }

instance : ApiObject Secret where
  kind := Kind.secret
  ns := Secret.Namespace
  name := Secret.Name
  toObj := Obj.secret
  all := World.secrets
  put := fun w l => { w with secrets := l }

instance : ApiObject ConfigMap where
  kind := Kind.configMap
  ns := ConfigMap.Namespace
  name := ConfigMap.Name
  toObj := Obj.configMap
  all := World.configMaps
  put := fun w l => { w with configMaps := l }

instance : ApiObject Service where
  kind := Kind.service
  ns := Service.Namespace
  name := Service.Name
  toObj := Obj.service
  all := World.services
  put := fun w l => { w with services := l }

instance : ApiObject Pod where
  kind := Kind.pod
  ns := Pod.Namespace
  name := Pod.Name
  toObj := Obj.pod
  all := World.pods
  put := fun w l => { w with pods := l }

instance : ApiObject Clustercollector where
  kind := Kind.clustercollector
  ns := Clustercollector.Namespace
  name := Clustercollector.Name
  toObj := Obj.clustercollector
  all := World.clustercollectors
  put := fun w l => { w with clustercollectors := l }

/-- Whether an object has the given namespace and name. -/
def hasKey {α : Type} [ApiObject α] (ns name : String) (o : α) : Bool :=
  decide (ApiObject.ns o = ns ∧ ApiObject.name o = name)

/-- The stored object with the given key, if any. -/
def World.lookup {α : Type} [ApiObject α] (w : World) (ns name : String) : Option α :=
  (ApiObject.all w : List α).find? (hasKey ns name)

/-- The call `client.Get`: the stored object, `NotFound` when there is none. -/
def clientGet {α : Type} [ApiObject α] (ns name : String) (w : World) :
    Except Error α × World :=
  let w1 := w.issue (Call.get (ApiObject.kind α) ns name)
  if w.faulty then (Except.error Error.api, w1)
  else
    match (w.lookup ns name : Option α) with
    | some o => (Except.ok o, w1)
    | none => (Except.error Error.notFound, w1)

/-- The call `client.Create`: stores a new object, fails when its key is taken. -/
def clientCreate {α : Type} [ApiObject α] (o : α) (w : World) : Option Error × World :=
  let w1 := w.issue (Call.create (ApiObject.toObj o))
  if w.faulty then (some Error.api, w1)
  else
    match (w.lookup (ApiObject.ns o) (ApiObject.name o) : Option α) with
    | some _ => (some Error.alreadyExists, w1)
    | none => (none, ApiObject.put w1 ((ApiObject.all w1 : List α) ++ [o]))

/-- Replace the stored object that has the key of `o` by `o`. -/
def replaceObj {α : Type} [ApiObject α] (o : α) (l : List α) : List α :=
  l.map (fun x => if hasKey (ApiObject.ns o) (ApiObject.name o) x then o else x)

/-- The call `client.Update`: whole-object replace of an existing object. -/
def clientUpdate {α : Type} [ApiObject α] (o : α) (w : World) : Option Error × World :=
  let w1 := w.issue (Call.update (ApiObject.toObj o))
  if w.faulty then (some Error.api, w1)
  else
    match (w.lookup (ApiObject.ns o) (ApiObject.name o) : Option α) with
    | none => (some Error.notFound, w1)
    | some _ => (none, ApiObject.put w1 (replaceObj o (ApiObject.all w1 : List α)))

/-- The call `client.Status().Update`, a whole-object replace like `clientUpdate`. -/
def clientStatusUpdate {α : Type} [ApiObject α] (o : α) (w : World) : Option Error × World :=
  let w1 := w.issue (Call.statusUpdate (ApiObject.toObj o))
  if w.faulty then (some Error.api, w1)
  else
    match (w.lookup (ApiObject.ns o) (ApiObject.name o) : Option α) with
    | none => (some Error.notFound, w1)
    | some _ => (none, ApiObject.put w1 (replaceObj o (ApiObject.all w1 : List α)))

/-- The call `client.Delete`: removes the stored object with the key of `o`. -/
def clientDelete {α : Type} [ApiObject α] (o : α) (w : World) : Option Error × World :=
  let w1 := w.issue (Call.delete (ApiObject.toObj o))
  if w.faulty then (some Error.api, w1)
  else
    match (w.lookup (ApiObject.ns o) (ApiObject.name o) : Option α) with
    | none => (some Error.notFound, w1)
    | some _ =>
      (none, ApiObject.put w1
        ((ApiObject.all w1 : List α).filter (fun x => !hasKey (ApiObject.ns o) (ApiObject.name o) x)))

/-- Whether a label set satisfies a selector built by `labels.SelectorFromSet`:
every pair of the selector is among the labels. -/
def matchesSelector (selector labels : List (String × String)) : Bool :=
  selector.all (fun kv => labels.contains kv)

/-- The call `client.List` on pods with a namespace and a label selector. -/
def clientListPods (ns : String) (selector : List (String × String)) (w : World) :
    Except Error (List Pod) × World :=
  let w1 := w.issue (Call.list ns selector)
  if w.faulty then (Except.error Error.api, w1)
  else
    (Except.ok (w.pods.filter (fun p => decide (p.Namespace = ns) && matchesSelector selector p.Labels)),
      w1)

/-- The value of a Go map at a key, the zero value `""` when the key is absent. -/
def mapGet (m : List (String × String)) (key : String) : String :=
  match m.find? (fun kv => kv.1 = key) with
  | some kv => kv.2
  | none => ""

/-- Whether a Go map has a key (the `_, ok := m[key]` idiom). -/
def mapHas (m : List (String × String)) (key : String) : Bool :=
  m.any (fun kv => kv.1 = key)

/-- A `reconcile.Request`. -/
structure Request where
  Namespace : String
  Name : String
deriving DecidableEq, Inhabited

/-- A `reconcile.Result`; `RequeueAfter` is in seconds, `0` when it is not set. -/
structure Result where
  Requeue : Bool
  RequeueAfter : Nat
deriving DecidableEq, Inhabited

/-- The empty result `reconcile.Result{}`: no requeue is requested. -/
def Result.empty : Result := { Requeue := false, RequeueAfter := 0 }

/-- The parts of the primary agent's controller that are not in the two controller
files: `resolve` is `GetDefaultProperties()` followed by `reconcileBag(bag, clusterAgent,
secret)`; `marshal` and `unmarshal` are `json.Marshal` and `json.Unmarshal` on a
property bag, `unmarshal text base` decoding `text` over the bag `base` the pointer
refers to (the zero bag for a nil pointer): it is `some bag` when the call returns no
error and leaves the pointer at `bag`, and `none` when the call returns an error or
when `text` is the document `null`, which the library accepts and which sets the
pointer to nil; `nullDocument` tells these two apart; `unmarshalStatus` is
`json.Unmarshal` on an `AgentStatus`. -/
structure Env where
  resolve : Adam → Secret → AppDBag
  marshal : AppDBag → Option String
  unmarshal : String → AppDBag → Option AppDBag
  nullDocument : String → Bool
  unmarshalStatus : String → Option AgentStatus

/-- The zero value of `AppDBag`, which `json.Unmarshal` allocates for a nil pointer. -/
def AppDBag.zero : AppDBag :=
  { SecretVersion := "", ControllerUrl := "", Account := "", GlobalAccount := "",
    AppName := "", EventServiceUrl := "", SystemSSLCert := "", AgentSSLCert := "",
    AgentServerPort := 0, InstrumentationUpdated := false }

/-- The zero value of `corev1.Service`. -/
def Service.zero : Service :=
  { Name := "", Namespace := "", Labels := [], Selector := [], Ports := [] }

/-- The zero value of `corev1.ConfigMap`. -/
def ConfigMap.zero : ConfigMap := { Name := "", Namespace := "", Data := [] }

/-- The result `reconcile.Result{RequeueAfter: 60 * time.Second}`. -/
def Result.after60 : Result := { Requeue := false, RequeueAfter := 60 }

namespace adam

/-- The constant `AGENT_SECRET_NAME`. -/
def AGENT_SECRET_NAME : String := "cluster-agent-secret"

/-- The constant `AGENt_CONFIG_NAME`. -/
def AGENt_CONFIG_NAME : String := "adam-config"

/-- The constant `AGENT_SSL_CRED_STORE_NAME`. -/
def AGENT_SSL_CRED_STORE_NAME : String := "appd-agent-ssl-store"

/-- The label set `labelsForClusteragent` (lines 716-718). -/
def labelsForClusteragent (clusterAgent : Adam) : List (String × String) :=
  [("name", "clusterAgent"), ("clusterAgent_cr", clusterAgent.Name)]

/-! ## Drift classifier -/

/-- The checks of `hasBreakingChanges` that come after the image check (lines 276-314):
the credential revision, the controller endpoint, then six guarded fields. -/
def restartChecks (clusterAgent : Adam) (bag : AppDBag) (secret : Secret) : Bool × Bool :=
  let killPod := false
  let updateDeployment := false
  if bag.SecretVersion ≠ secret.ResourceVersion then (true, updateDeployment)
  else if clusterAgent.Spec.ControllerUrl ≠ bag.ControllerUrl then (true, updateDeployment)
  else if clusterAgent.Spec.Account ≠ "" ∧ clusterAgent.Spec.Account ≠ bag.Account then
    (true, updateDeployment)
  else if clusterAgent.Spec.GlobalAccount ≠ "" ∧
      clusterAgent.Spec.GlobalAccount ≠ bag.GlobalAccount then (true, updateDeployment)
  else if clusterAgent.Spec.AppName ≠ "" ∧ clusterAgent.Spec.AppName ≠ bag.AppName then
    (true, updateDeployment)
  else if clusterAgent.Spec.EventServiceUrl ≠ "" ∧
      clusterAgent.Spec.EventServiceUrl ≠ bag.EventServiceUrl then (true, updateDeployment)
  else if clusterAgent.Spec.SystemSSLCert ≠ "" ∧
      clusterAgent.Spec.SystemSSLCert ≠ bag.SystemSSLCert then (true, updateDeployment)
  else if clusterAgent.Spec.AgentSSLCert ≠ "" ∧
      clusterAgent.Spec.AgentSSLCert ≠ bag.AgentSSLCert then (true, updateDeployment)
  else (killPod, updateDeployment)

/-- The classifier `hasBreakingChanges` (lines 264-315).  The result is
`((breaking, updateDeployment), existingDeployment)`, the deployment being returned
because the image check writes the desired image into its first container.
`none` is the index-out-of-range panic of `Containers[0]` on a deployment without
containers, which Go reaches only when the desired image is non-empty. -/
def hasBreakingChanges (clusterAgent : Adam) (bag : AppDBag) (existingDeployment : Deployment)
    (secret : Secret) : Option ((Bool × Bool) × Deployment) :=
  if clusterAgent.Spec.Image ≠ "" then
    match existingDeployment.Containers with
    | [] => none
    | c :: rest =>
      if c.Image ≠ clusterAgent.Spec.Image then
        some ((false, true),
          { existingDeployment with
            Containers := { c with Image := clusterAgent.Spec.Image } :: rest })
      else some (restartChecks clusterAgent bag secret, existingDeployment)
  else some (restartChecks clusterAgent bag secret, existingDeployment)

/-- The three verdicts of the classifier as pairs `(breaking, updateDeployment)`. -/
def NoChange : Bool × Bool := (false, false)

/-- The verdict `(false, true)`: update the deployment in place. -/
def InPlaceUpdate : Bool × Bool := (false, true)

/-- The verdict `(true, false)`: delete a pod to force a restart. -/
def Restart : Bool × Bool := (true, false)

/-- The desired image is empty, or the live deployment's first container runs it. -/
def imageInSync (clusterAgent : Adam) (existingDeployment : Deployment) : Prop :=
  clusterAgent.Spec.Image = "" ∨
    ∃ c rest, existingDeployment.Containers = c :: rest ∧ c.Image = clusterAgent.Spec.Image

/-! ## Dependent resources -/

/-- The status query `getAgentState` (lines 231-262). -/
def getAgentState (env : Env) (_clusterAgent : Adam) (_updatedBag : AppDBag) (w : World) :
    Except Error AgentStatus :=
  match w.agentReply with
  | HttpReply.requestFailed => Except.error (Error.msg "Unable to get status from agent.")
  | HttpReply.bodyUnreadable => Except.error (Error.msg "Unable to get status from agent.")
  | HttpReply.body text =>
    match env.unmarshalStatus text with
    | none => Except.error (Error.msg "Unable to deserialize status from agent.")
    | some agentStatus => Except.ok agentStatus

/-- The first half of `updateStatus` (lines 208-215): the custom resource with the
time of the update and, when the status query succeeds, the state it returned. -/
def refreshStatus (env : Env) (clusterAgent : Adam) (updatedBag : AppDBag) (w : World) : Adam :=
  let stamped : Adam :=
    { clusterAgent with Status := { clusterAgent.Status with LastUpdateTime := w.now } }
  match getAgentState env stamped updatedBag w with
  | Except.error _ => stamped
  | Except.ok agentStatus => { stamped with Status := { stamped.Status with State := agentStatus } }

/-- The status refresh `updateStatus` (lines 207-229); the custom resource is returned
as the function leaves it. -/
def updateStatus (env : Env) (clusterAgent : Adam) (updatedBag : AppDBag) (w : World) :
    (Option Error × Adam) × World :=
  let clusterAgent1 := refreshStatus env clusterAgent updatedBag w
  match clientUpdate clusterAgent1 w with
  | (some _, w1) =>
    ((some (Error.msg "Unable to update clusteragent instance."), clusterAgent1), w1)
  | (none, w1) =>
    match clientStatusUpdate clusterAgent1 w1 with
    | (err, w2) => ((err, clusterAgent1), w2)

/-- The credential object `ensureSecret` creates when there is none (lines 325-336). -/
def emptySecret (clusterAgent : Adam) : Secret :=
  { Name := AGENT_SECRET_NAME, Namespace := clusterAgent.Namespace, SecretType := "Opaque",
    ResourceVersion := "",
    StringData := [("api-user", ""), ("controller-key", ""), ("event-key", "")],
    Data := [] }

/-- The operation `ensureSecret` (lines 317-355). -/
def ensureSecret (clusterAgent : Adam) (w : World) : Except Error Secret × World :=
  match (clientGet clusterAgent.Namespace AGENT_SECRET_NAME w : Except Error Secret × World) with
  | (Except.ok secret, w1) => (Except.ok secret, w1)
  | (Except.error err, w1) =>
    if err = Error.notFound then
      match clientCreate (emptySecret clusterAgent) w1 with
      | (some _, w2) => (Except.error (Error.msg "Unable to get secret for cluster-agent."), w2)
      | (none, w2) =>
        match (clientGet clusterAgent.Namespace AGENT_SECRET_NAME w2 :
            Except Error Secret × World) with
        | (Except.error _, w3) =>
          (Except.error (Error.msg "Unable to get secret for cluster-agent."), w3)
        | (Except.ok secret, w3) => (Except.ok secret, w3)
    else (Except.error (Error.msg "Unable to get secret for cluster-agent."), w1)

/-- The service `ensureAgentService` creates when there is none (lines 367-387). -/
def newAgentService (clusterAgent : Adam) (bag : AppDBag) : Service :=
  { Name := clusterAgent.Name, Namespace := clusterAgent.Namespace,
    Labels := labelsForClusteragent clusterAgent,
    Selector := labelsForClusteragent clusterAgent,
    Ports := [("web-port", bag.AgentServerPort)] }

/-- The operation `ensureAgentService` (lines 357-394).  After a creation the function
returns its outer variable `svc`, which the failed `Get` left at its zero value
(the created object is bound to an inner variable of the same name). -/
def ensureAgentService (clusterAgent : Adam) (bag : AppDBag) (w : World) :
    Except Error Service × World :=
  match (clientGet clusterAgent.Namespace clusterAgent.Name w : Except Error Service × World) with
  | (Except.ok svc, w1) => (Except.ok svc, w1)
  | (Except.error err, w1) =>
    if err ≠ Error.notFound then
      (Except.error (Error.msg "Unable to get service for cluster-agent."), w1)
    else
      match clientCreate (newAgentService clusterAgent bag) w1 with
      | (some _, w2) => (Except.error (Error.msg "Failed to create cluster agent service:"), w2)
      | (none, w2) => (Except.ok Service.zero, w2)

/-- The cleanup `cleanUp` (lines 396-418); `none` is the nil pointer. -/
def cleanUp (clusterAgent : Option Adam) (w : World) : World :=
  let ns : String :=
    match clusterAgent with
    | some a => a.Namespace
    | none => "appdynamics"
  match (clientGet ns "adam-config" w : Except Error ConfigMap × World) with
  | (Except.error _, w1) => w1
  | (Except.ok cm, w1) => (clientDelete cm w1).2

/-- The bundle writer `updateMap` (lines 533-560).  The ConfigMap is returned as the
function leaves it: its `Data` is replaced once the bag is serialized. -/
def updateMap (env : Env) (cm : ConfigMap) (clusterAgent : Adam) (secret : Secret)
    (create : Bool) (w : World) : (Except Error AppDBag × ConfigMap) × World :=
  let resolved := env.resolve clusterAgent secret
  let bag : AppDBag := if create then { resolved with InstrumentationUpdated := false } else resolved
  match env.marshal bag with
  | none =>
    ((Except.error (Error.msg "Enable to create configMap. Cannot serialize the config Bag."),
      cm), w)
  | some data =>
    let cm1 : ConfigMap := { cm with Data := [("adam-config.json", data)] }
    match (if create then clientCreate cm1 w else clientUpdate cm1 w) with
    | (some _, w1) => ((Except.error (Error.msg "Failed to save configMap adam-config."), cm1), w1)
    | (none, w1) => ((Except.ok bag, cm1), w1)

/-- The deserialization block of `ensureConfigMap` (lines 437-445): decode the bundle's
text over `base`, then stamp the bag with the secret's resource version.  `none` is
the nil-pointer panic of line 444, reached when the text is the document `null`:
`json.Unmarshal` then returns no error and leaves the pointer nil. -/
def readBag (env : Env) (cm : ConfigMap) (base : AppDBag) (secret : Secret) :
    Option (Except Error AppDBag) :=
  match env.unmarshal (mapGet cm.Data "adam-config.json") base with
  | some bag => some (Except.ok { bag with SecretVersion := secret.ResourceVersion })
  | none =>
    if env.nullDocument (mapGet cm.Data "adam-config.json") then none
    else some (Except.error (Error.msg "Enable to retrieve the configMap. Cannot deserialize."))

/-- The operation `ensureConfigMap` (lines 420-449).  When the bundle is not found it is
created by `updateMap` with the literal `true`; the error variable is then nil, so the
deserialization block runs in that case too, over the bag `updateMap` returned.  The
first component is `none` when the deserialization block panics. -/
def ensureConfigMap (env : Env) (clusterAgent : Adam) (secret : Secret) (_create : Bool)
    (w : World) : Option (Except Error (ConfigMap × AppDBag)) × World :=
  match (clientGet clusterAgent.Namespace "adam-config" w : Except Error ConfigMap × World) with
  | (Except.ok cm, w1) =>
    match readBag env cm AppDBag.zero secret with
    | none => (none, w1)
    | some (Except.error e) => (some (Except.error e), w1)
    | some (Except.ok bag) => (some (Except.ok (cm, bag)), w1)
  | (Except.error err, w1) =>
    if err ≠ Error.notFound then
      (some (Except.error (Error.msg "Failed to load configMap adam-config.")), w1)
    else
      let cm0 : ConfigMap :=
        { ConfigMap.zero with Name := "adam-config", Namespace := clusterAgent.Namespace }
      match updateMap env cm0 clusterAgent secret true w1 with
      | ((Except.error e, _), w2) => (some (Except.error e), w2)
      | ((Except.ok created, cm), w2) =>
        match readBag env cm created secret with
        | none => (none, w2)
        | some (Except.error e) => (some (Except.error e), w2)
        | some (Except.ok bag) => (some (Except.ok (cm, bag)), w2)

/-- The check `ensureSSLConfig` (lines 451-531). -/
def ensureSSLConfig (clusterAgent : Adam) (w : World) : Option Error × World :=
  if clusterAgent.Spec.AgentSSLStoreName = "" then (none, w)
  else
    match (clientGet clusterAgent.Namespace AGENT_SSL_CRED_STORE_NAME w :
        Except Error ConfigMap × World) with
    | (Except.ok _, w1) => (none, w1)
    | (Except.error err, w1) =>
      if err = Error.notFound then
        (some (Error.msg "Custom SSL store is requested, but the expected configMap not found."),
          w1)
      else (some (Error.msg "Unable to validate the expected configMap."), w1)

/-- The environment variable that reads a key of the agent's secret. -/
def secretEnvVar (name key : String) : EnvVar :=
  { Name := name, SecretKeyRef := some (AGENT_SECRET_NAME, key), FieldPath := none }

/-- The constructor `newAgentDeployment` (lines 562-694).  The custom resource is
returned too: the function writes the default image and the default name of the
SSL ConfigMap into its spec. -/
def newAgentDeployment (clusterAgent : Adam) (secret : Secret) (bag : AppDBag) :
    Deployment × Adam :=
  let ca1 : Adam :=
    if clusterAgent.Spec.Image = "" then
      { clusterAgent with Spec := { clusterAgent.Spec with Image := "appdynamics/cluster-agent:latest" } }
    else clusterAgent
  let ls := labelsForClusteragent ca1
  let env0 : List EnvVar :=
    [ secretEnvVar "APPDYNAMICS_REST_API_CREDENTIALS" "api-user",
      { Name := "APPDYNAMICS_AGENT_NAMESPACE", SecretKeyRef := none,
        FieldPath := some "metadata.namespace" } ]
  let env1 : List EnvVar :=
    if mapHas secret.Data "controller-key" then
      env0 ++ [secretEnvVar "APPDYNAMICS_AGENT_ACCOUNT_ACCESS_KEY" "controller-key"]
    else env0
  let env2 : List EnvVar :=
    if mapHas secret.Data "event-key" then
      env1 ++ [secretEnvVar "APPDYNAMICS_EVENT_ACCESS_KEY" "event-key"]
    else env1
  let ca2 : Adam :=
    if ca1.Spec.AgentSSLCert ≠ "" ∧ ca1.Spec.CustomSSLConfigMap = "" then
      { ca1 with Spec := { ca1.Spec with CustomSSLConfigMap := "cluster-agent-ssl-config" } }
    else ca1
  let mounts0 : List VolumeMount :=
    [{ Name := "agent-config", MountPath := "/opt/appdynamics/config/", SubPath := "" }]
  let mounts : List VolumeMount :=
    if ca1.Spec.AgentSSLCert ≠ "" then
      mounts0 ++ [{ Name := "agent-ssl-config",
                    MountPath := "/opt/appdynamics/ssl/" ++ ca1.Spec.AgentSSLCert,
                    SubPath := ca1.Spec.AgentSSLCert }]
    else mounts0
  let volumes0 : List Volume := [{ Name := "agent-config", ConfigMapName := "adam-config" }]
  let volumes : List Volume :=
    if ca1.Spec.AgentSSLCert ≠ "" then
      volumes0 ++ [{ Name := "agent-ssl-config", ConfigMapName := ca2.Spec.CustomSSLConfigMap }]
    else volumes0
  let dep : Deployment :=
    { Name := ca1.Name, Namespace := ca1.Namespace, Annotations := [],
      Owner := some ca1.Name, Replicas := 1, Labels := ls,
      ServiceAccountName := "appdynamics-operator",
      Containers :=
        [{ Name := "cluster-agent", Image := ca1.Spec.Image, ImagePullPolicy := "Always",
           Resources := ca1.Spec.Resources, Env := env2,
           Ports := [("web-port", bag.AgentServerPort)], VolumeMounts := mounts }],
      Volumes := volumes }
  (dep, ca2)

/-- The forced restart `restartAgent` (lines 696-714). -/
def restartAgent (clusterAgent : Adam) (w : World) : Option Error × World :=
  match clientListPods clusterAgent.Namespace (labelsForClusteragent clusterAgent) w with
  | (Except.error _, w1) => (some (Error.msg "Unable to retrieve cluster-agent pod."), w1)
  | (Except.ok [], w1) => (some (Error.msg "Unable to retrieve cluster-agent pod."), w1)
  | (Except.ok (pod :: _), w1) =>
    match clientDelete pod w1 with
    | (some _, w2) => (some (Error.msg "Unable to delete cluster-agent pod."), w2)
    | (none, w2) => (none, w2)

/-! ## The reconciliation pass -/

/-- The branch of `Reconcile` for a missing Deployment (lines 111-143).  `none` is the
panic of the deserialization block of `ensureConfigMap`. -/
def reconcileMissing (env : Env) (clusterAgent : Adam) (w : World) :
    Option (Result × Option Error) × World :=
  let w0 := cleanUp (some clusterAgent) w
  match ensureSecret clusterAgent w0 with
  | (Except.error esecret, w1) => (some (Result.empty, some esecret), w1)
  | (Except.ok secret, w1) =>
    match ensureConfigMap env clusterAgent secret true w1 with
    | (none, w2) => (none, w2)
    | (some (Except.error econfig), w2) => (some (Result.empty, some econfig), w2)
    | (some (Except.ok (_, updatedBag)), w2) =>
      match ensureAgentService clusterAgent updatedBag w2 with
      | (Except.error esvc, w3) => (some (Result.empty, some esvc), w3)
      | (Except.ok _, w3) =>
        match newAgentDeployment clusterAgent secret updatedBag with
        | (dep, clusterAgent1) =>
          match clientCreate dep w3 with
          | (some err, w4) => (some (Result.empty, some err), w4)
          | (none, w4) =>
            (some (Result.empty, none), (updateStatus env clusterAgent1 updatedBag w4).2)

/-- The branch of `Reconcile` for an existing Deployment (lines 149-204).  `none` is
the panic of the deserialization block of `ensureConfigMap` or of the classifier on a
deployment without containers. -/
def reconcileExisting (env : Env) (clusterAgent : Adam) (existingDeployment : Deployment)
    (w : World) : Option (Result × Option Error) × World :=
  match ensureSecret clusterAgent w with
  | (Except.error errsecret, w1) => (some (Result.empty, some errsecret), w1)
  | (Except.ok secret, w1) =>
    match ensureConfigMap env clusterAgent secret false w1 with
    | (none, w2) => (none, w2)
    | (some (Except.error econfig), w2) => (some (Result.empty, some econfig), w2)
    | (some (Except.ok (cm, bag)), w2) =>
      match hasBreakingChanges clusterAgent bag existingDeployment secret with
      | none => (none, w2)
      | some ((breaking, updateDeployment), patched) =>
        match updateMap env cm clusterAgent secret false w2 with
        | ((Except.error errMap, _), w3) => (some (Result.empty, some errMap), w3)
        | ((Except.ok updatedBag, _), w3) =>
          if breaking then
            match restartAgent clusterAgent w3 with
            | (some errRestart, w4) => (some (Result.empty, some errRestart), w4)
            | (none, w4) => (some (Result.after60, none), w4)
          else if updateDeployment then
            match clientUpdate patched w3 with
            | (some err, w4) => (some (Result.empty, some err), w4)
            | (none, w4) => (some (Result.after60, none), w4)
          else
            (some (Result.empty, none), (updateStatus env clusterAgent updatedBag w3).2)

/-- The pass `Reconcile` of the primary agent (lines 88-205).  The first component is
`(result, error)`, or `none` when the pass panics. -/
def Reconcile (env : Env) (request : Request) (w : World) :
    Option (Result × Option Error) × World :=
  match (clientGet request.Namespace request.Name w : Except Error Adam × World) with
  | (Except.error err, w1) =>
    if err = Error.notFound then (some (Result.empty, none), cleanUp none w1)
    else (some (Result.empty, some err), w1)
  | (Except.ok clusterAgent, w1) =>
    match (clientGet clusterAgent.Namespace clusterAgent.Name w1 :
        Except Error Deployment × World) with
    | (Except.error err, w2) =>
      if err = Error.notFound then reconcileMissing env clusterAgent w2
      else (some (Result.empty, some err), w2)
    | (Except.ok existingDeployment, w2) =>
      reconcileExisting env clusterAgent existingDeployment w2

end adam

namespace clustercollector

/-- The constant `OLD_SPEC`. -/
def OLD_SPEC : String := "cluster-collector-spec"

/-- The constant `ClUSTER_MON_CONFIG_MAP_NAME`. -/
def ClUSTER_MON_CONFIG_MAP_NAME : String := "cluster-collector-config"

/-- The constant `INFRA_AGENT_CONFIG_MAP_NAME`. -/
def INFRA_AGENT_CONFIG_MAP_NAME : String := "infra-agent-config"

/-- The constant `INFRA_AGENT_NAME`. -/
def INFRA_AGENT_NAME : String := "Infra Structure Agent"

/-- The constant `CLUSTER_COLLECTOR`. -/
def CLUSTER_COLLECTOR : String := "Cluster Monitor"

/-- The constant `TYPE_COLLECTOR`. -/
def TYPE_COLLECTOR : String := "Collector"

/-- The constant `CLUSTER_COLLECTOR_PATH`. -/
def CLUSTER_COLLECTOR_PATH : String := "./collectors/cluster-collector-linux-amd64"

/-- The constant `CONTAINER_MON`. -/
def CONTAINER_MON : String := "Container Monitor"

/-- The constant `CONTAINER_MON_CONFIG_MAP_NAME`. -/
def CONTAINER_MON_CONFIG_MAP_NAME : String := "container-collector-config"

/-- The constant `SERVER_MON`. -/
def SERVER_MON : String := "Server Monitor"

/-- The constant `SERVER_MON_CONFIG_MAP_NAME`. -/
def SERVER_MON_CONFIG_MAP_NAME : String := "server-collector-config"

/-- The constant `CLUSTER_MON_VOLUME_NAME`. -/
def CLUSTER_MON_VOLUME_NAME : String := "clustermon-config"

/-- The constant `CLUSTER_MON_CONFIG_FILE_NAME`. -/
def CLUSTER_MON_CONFIG_FILE_NAME : String := "clustermon.conf"

/-- The state of a `clusterCollectorController`: the custom resource and the
Deployment it manages (the client is the world). -/
structure clusterCollectorController where
  clusterCollector : Clustercollector
  deployment : Deployment
deriving DecidableEq, Inhabited

/-- The interface `IClusterController` over a controller state `σ`.  Every operation
returns the state as it leaves it; `Init` and `Update` return `(flag, error)`.
`Owned` is `Get()` followed by `controllerutil.SetControllerReference` on the object
`Get()` points to, and `Collector` reads the custom resource the controller shares
with its caller. -/
structure IClusterController (σ : Type) where
  Init : σ → World → ((Bool × Option Error) × σ) × World
  Create : σ → World → (Option Error × σ) × World
  Update : σ → World → ((Bool × Option Error) × σ) × World
  Owned : Clustercollector → σ → σ
  Collector : σ → Clustercollector

/-- The parts of the collector controller that are not in the two collector files:
the classifier `hasBreakingChanges` of this package (verdict and patched Deployment),
the status refresh `updateStatus`, the serializer of the spec that
`saveOrUpdateCollectorSpecAnnotation` stores, the three `set...Defaults` functions
taken together, `validateUrl` (host, port, TLS flag), `createConfigMap`, five
constants, and the host collector controller with its constructor
`NewHostCollectorController`. -/
structure Env where
  hasBreakingChanges : Clustercollector → Deployment → (Bool × Bool) × Deployment
  updateStatus : Clustercollector → World → (Option Error × Clustercollector) × World
  marshalSpec : ClustercollectorSpec → String
  setDefaults : Clustercollector → Clustercollector
  validateUrl : String → Except Error (String × Nat × String)
  createConfigMap : ConfigMap → World → Option Error × World
  COLLECTOR_PATH : String
  INFRA_AGENT_VOLUME_NAME : String
  INFRA_AGENT_HOME_PATH : String
  INFRA_AGENT_CONFIG_FILE_NAME : String
  CONTAINER_MON_CONFIG_FILE_NAME : String
  SERVER_MON_CONFIG_FILE_NAME : String
  HostState : Type
  NewHostCollectorController : Clustercollector → HostState
  hostController : IClusterController HostState

/-- The label set `labelsForClusterCollector` (clusterCollector.go, lines 223-225). -/
def labelsForClusterCollector (clusterCollector : Clustercollector) : List (String × String) :=
  [("name", "clusterCollector"), ("clusterCollector_cr", clusterCollector.Name)]

/-- Set a key of a Go map, replacing the value when the key is present. -/
def mapSet (m : List (String × String)) (key value : String) : List (String × String) :=
  if mapHas m key then m.map (fun kv => if kv.1 = key then (key, value) else kv)
  else m ++ [(key, value)]

/-- Modelled from the spec: `saveOrUpdateCollectorSpecAnnotation` is not in the two
collector files.  The spec has it persist the intended desired spec as an annotation
on the workload object; the annotation's key is the constant `OLD_SPEC`. -/
def saveOrUpdateCollectorSpecAnnotation (env : Env) (deployment : Deployment)
    (clusterCollector : Clustercollector) : Deployment :=
  { deployment with
    Annotations := mapSet deployment.Annotations OLD_SPEC (env.marshalSpec clusterCollector.Spec) }

/-- The constructor `NewClusterCollectorController` (clusterCollector.go, lines 28-35). -/
def NewClusterCollectorController (clusterCollector : Clustercollector) :
    clusterCollectorController :=
  { clusterCollector := clusterCollector,
    deployment :=
      { Name := "", Namespace := "", Annotations := [], Owner := none, Replicas := 0,
        Labels := [], ServiceAccountName := "", Containers := [], Volumes := [] } }

/-- The constructor `newCollectorDeployment` (clusterCollector.go, lines 134-221). -/
def clusterCollectorController.newCollectorDeployment (env : Env)
    (c : clusterCollectorController) : Option Error × clusterCollectorController :=
  let ls := labelsForClusterCollector c.clusterCollector
  let dep : Deployment :=
    { Name := c.clusterCollector.Name, Namespace := c.clusterCollector.Namespace,
      Annotations := [], Owner := none, Replicas := 1, Labels := ls,
      ServiceAccountName := c.clusterCollector.Spec.ServiceAccountName,
      Containers :=
        [{ Name := "cluster-collector", Image := c.clusterCollector.Spec.Image,
           ImagePullPolicy := "Always", Resources := c.clusterCollector.Spec.Resources,
           Env :=
             [{ Name := "APPDYNAMICS_AGENT_NAMESPACE", SecretKeyRef := none,
                FieldPath := some "metadata.namespace" },
              { Name := "NODE_NAME", SecretKeyRef := none, FieldPath := some "spec.nodeName" }],
           Ports := [],
           VolumeMounts :=
             [{ Name := CLUSTER_MON_VOLUME_NAME,
                MountPath := env.COLLECTOR_PATH ++ "/" ++ CLUSTER_MON_CONFIG_FILE_NAME,
                SubPath := CLUSTER_MON_CONFIG_FILE_NAME },
              { Name := env.INFRA_AGENT_VOLUME_NAME,
                MountPath := env.INFRA_AGENT_HOME_PATH ++ "/" ++ env.INFRA_AGENT_CONFIG_FILE_NAME,
                SubPath := env.INFRA_AGENT_CONFIG_FILE_NAME }] }],
      Volumes :=
        [{ Name := CLUSTER_MON_VOLUME_NAME, ConfigMapName := ClUSTER_MON_CONFIG_MAP_NAME },
         { Name := env.INFRA_AGENT_VOLUME_NAME, ConfigMapName := INFRA_AGENT_CONFIG_MAP_NAME }] }
  (none, { c with deployment := saveOrUpdateCollectorSpecAnnotation env dep c.clusterCollector })

/-- The method `Init` (clusterCollector.go, lines 37-51), with `initialiseDeployment`
(lines 128-132) inlined: a `Get` of the Deployment named after the custom resource. -/
def clusterCollectorController.Init (env : Env) (c : clusterCollectorController) (w : World) :
    ((Bool × Option Error) × clusterCollectorController) × World :=
  match (clientGet c.clusterCollector.Namespace c.clusterCollector.Name w :
      Except Error Deployment × World) with
  | (Except.ok dep, w1) => (((false, none), { c with deployment := dep }), w1)
  | (Except.error err, w1) =>
    if err = Error.notFound then
      match c.newCollectorDeployment env with
      | (e, c1) => (((true, e), c1), w1)
    else (((false, some err), c), w1)

/-- The method `Create` (clusterCollector.go, lines 53-63). -/
def clusterCollectorController.Create (env : Env) (c : clusterCollectorController) (w : World) :
    (Option Error × clusterCollectorController) × World :=
  match clientCreate c.deployment w with
  | (some err, w1) => ((some err, c), w1)
  | (none, w1) =>
    match env.updateStatus c.clusterCollector w1 with
    | ((_, cc), w2) => ((none, { c with clusterCollector := cc }), w2)

/-- The method `RestartCollector` (clusterCollector.go, lines 107-126). -/
def clusterCollectorController.RestartCollector (c : clusterCollectorController) (w : World) :
    Option Error × World :=
  match clientListPods c.clusterCollector.Namespace
      (labelsForClusterCollector c.clusterCollector) w with
  | (Except.error _, w1) => (some (Error.msg "Unable to retrieve cluster-collector pod."), w1)
  | (Except.ok [], w1) => (some (Error.msg "Unable to retrieve cluster-collector pod."), w1)
  | (Except.ok (pod :: _), w1) =>
    match clientDelete pod w1 with
    | (some _, w2) => (some (Error.msg "Unable to delete cluster-collector pod."), w2)
    | (none, w2) => (none, w2)

/-- The method `Update` (clusterCollector.go, lines 65-105); the result is
`(reQueue, error)`. -/
def clusterCollectorController.Update (env : Env) (c : clusterCollectorController) (w : World) :
    ((Bool × Option Error) × clusterCollectorController) × World :=
  match env.hasBreakingChanges c.clusterCollector c.deployment with
  | ((breaking, updateDeployment), patched) =>
    let c0 : clusterCollectorController := { c with deployment := patched }
    let reQueue := false
    if breaking then
      let c1 : clusterCollectorController :=
        { c0 with deployment :=
            saveOrUpdateCollectorSpecAnnotation env c0.deployment c0.clusterCollector }
      match clientUpdate c1.deployment w with
      | (some errUpdate, w1) => (((reQueue, some errUpdate), c1), w1)
      | (none, w1) =>
        match c1.RestartCollector w1 with
        | (some errRestart, w2) => (((reQueue, some errRestart), c1), w2)
        | (none, w2) => (((true, none), c1), w2)
    else if updateDeployment then
      match clientUpdate c0.deployment w with
      | (some err, w1) => (((reQueue, some err), c0), w1)
      | (none, w1) => (((true, none), c0), w1)
    else
      match env.updateStatus c0.clusterCollector w with
      | ((_, cc), w1) => (((reQueue, none), { c0 with clusterCollector := cc }), w1)

/-- The cluster collector controller as an `IClusterController`. -/
def clusterController (env : Env) : IClusterController clusterCollectorController :=
  { Init := clusterCollectorController.Init env,
    Create := clusterCollectorController.Create env,
    Update := clusterCollectorController.Update env,
    Owned := fun owner c => { c with deployment := { c.deployment with Owner := some owner.Name } },
    Collector := fun c => c.clusterCollector }

/-- The driver `ensureClusterCollectors` (collector_controller.go, lines 135-162); the
result is `(reQueue, error)`. -/
def ensureClusterCollectors {σ : Type} (clusterCollectorCtrl : IClusterController σ) (c : σ)
    (clusterCollector : Clustercollector) (w : World) : ((Bool × Option Error) × σ) × World :=
  match clusterCollectorCtrl.Init c w with
  | (((newDeploymentCreated, err), c1), w1) =>
    let c2 := clusterCollectorCtrl.Owned clusterCollector c1
    match err with
    | some e => (((false, some e), c2), w1)
    | none =>
      if newDeploymentCreated = true then
        match clusterCollectorCtrl.Create c2 w1 with
        | ((some e, c3), w2) => (((false, some e), c3), w2)
        | ((none, c3), w2) => (((false, none), c3), w2)
      else
        match clusterCollectorCtrl.Update c2 w1 with
        | (((_, some e), c3), w2) => (((false, some e), c3), w2)
        | (((reQueue, none), c3), w2) => (((reQueue, none), c3), w2)

/-- The separator-based split `strings.Split(s, ":")` on the characters of `s`:
`cur` holds the characters of the segment being read, in reverse. -/
def splitColonAux : List Char → List Char → List String
  | [], cur => [String.mk cur.reverse]
  | ch :: rest, cur =>
    if ch = ':' then String.mk cur.reverse :: splitColonAux rest []
    else splitColonAux rest (ch :: cur)

/-- The call `strings.Split(s, ":")`. -/
def splitColon (s : String) : List String := splitColonAux s.toList []

/-- The version field of the collector bundles (collector_controller.go, lines
229-232, 266-269 and 301-304): `"latest"`, or the second segment of the image. -/
def bundleVersion (image : String) : String :=
  match splitColon image with
  | _ :: second :: _ => second
  | _ => "latest"

/-- The text `fmt.Sprintf` builds from lines of the form `key: value`. -/
def yamlLines (lines : List (String × String)) : String :=
  String.intercalate "\n" (lines.map (fun kv => kv.1 ++ ": " ++ kv.2))

/-- The bundle writer `ensureInfraAgentConfig` (collector_controller.go, lines 187-226). -/
def ensureInfraAgentConfig (env : Env) (clusterCollector : Clustercollector) (w : World) :
    Option Error × World :=
  match env.validateUrl clusterCollector.Spec.ControllerUrl with
  | Except.error errVal => (some errVal, w)
  | Except.ok (controllerDns, port, sslEnabled) =>
    let portVal := toString port
    let sys := clusterCollector.Spec.SystemConfigs
    let yml := yamlLines
      [("name", INFRA_AGENT_NAME ++ " "), ("controller-host", controllerDns),
       ("controller-port", portVal),
       ("controller-account-name", clusterCollector.Spec.Account),
       ("controller-ssl-enabled", sslEnabled), ("enabled", toString true),
       ("controller-access-key", clusterCollector.Spec.AccessSecret),
       ("controller-lib-socket-url", sys.CollectorLibSocketUrl),
       ("collector-lib-port", sys.CollectorLibPort),
       ("http-client-timeout", toString sys.HttpClientTimeOut),
       ("http-client-basic-auth-enabled", toString sys.HttpBasicAuthEnabled),
       ("configuration-change-scan-period", toString sys.ConfigChangeScanPeriod),
       ("configuration-stale-grace-period", toString sys.ConfigStaleGracePeriod),
       ("debug-port", sys.DebugPort), ("client-lib-send-url", sys.ClientLibSendUrl),
       ("client-lib-recv-url", sys.ClientLibRecvUrl), ("log-level", sys.LogLevel),
       ("debug-enabled", toString sys.DebugEnabled)]
    env.createConfigMap
      { Name := INFRA_AGENT_CONFIG_MAP_NAME, Namespace := clusterCollector.Namespace,
        Data := [(env.INFRA_AGENT_CONFIG_FILE_NAME, yml)] } w

/-- The bundle writer `ensureClusterCollectorConfig` (collector_controller.go, lines
228-255). -/
def ensureClusterCollectorConfig (env : Env) (clusterCollector : Clustercollector) (w : World) :
    Option Error × World :=
  let version := bundleVersion clusterCollector.Spec.Image
  let yml := yamlLines
    [("name", CLUSTER_COLLECTOR), ("type", TYPE_COLLECTOR), ("version", version),
     ("clusterName", clusterCollector.Spec.ClusterName),
     ("nsToMonitor", clusterCollector.Spec.NsToMonitorRegex),
     ("nsToExclude", clusterCollector.Spec.NsToExcludeRegex),
     ("clusterMonitoringEnabled", toString clusterCollector.Spec.ClusterMonEnabled),
     ("log-level", clusterCollector.Spec.LogLevel), ("path", CLUSTER_COLLECTOR_PATH),
     ("enabled", toString true), ("exporter-address", clusterCollector.Spec.ExporterAddress),
     ("exporter-port", toString clusterCollector.Spec.ExporterPort)]
  env.createConfigMap
    { Name := ClUSTER_MON_CONFIG_MAP_NAME, Namespace := clusterCollector.Namespace,
      Data := [("clustermon.conf", yml)] } w

/-- The bundle writer `ensureContainerMonConfig` (collector_controller.go, lines 257-292). -/
def ensureContainerMonConfig (env : Env) (clusterCollector : Clustercollector) (w : World) :
    Option Error × World :=
  let hostCollectorConfig := clusterCollector.Spec.HostCollector
  match env.validateUrl hostCollectorConfig.ContainerMetricExporterAddress with
  | Except.error errVal => (some errVal, w)
  | Except.ok (exporterAddr, port, _) =>
    let portVal := toString port
    let version := bundleVersion clusterCollector.Spec.Image
    let yml := yamlLines
      [("name", CONTAINER_MON), ("type", TYPE_COLLECTOR), ("version", version),
       ("path", hostCollectorConfig.ContainerCollectorPath), ("enabled", toString true),
       ("exporter-address", exporterAddr), ("exporter-port", portVal),
       ("privileged", toString false),
       ("dependency", hostCollectorConfig.ContainerCollectorDependency),
       ("install-dependency", toString true), ("log-level", hostCollectorConfig.LogLevel)]
    env.createConfigMap
      { Name := CONTAINER_MON_CONFIG_MAP_NAME, Namespace := clusterCollector.Namespace,
        Data := [(env.CONTAINER_MON_CONFIG_FILE_NAME, yml)] } w

/-- The bundle writer `ensureServerMonConfig` (collector_controller.go, lines 294-327). -/
def ensureServerMonConfig (env : Env) (clusterCollector : Clustercollector) (w : World) :
    Option Error × World :=
  let hostCollectorConfig := clusterCollector.Spec.HostCollector
  match env.validateUrl hostCollectorConfig.ContainerMetricExporterAddress with
  | Except.error errVal => (some errVal, w)
  | Except.ok (exporterAddr, port, _) =>
    let portVal := toString port
    let version := bundleVersion clusterCollector.Spec.Image
    let yml := yamlLines
      [("name", SERVER_MON), ("type", TYPE_COLLECTOR), ("version", version),
       ("path", hostCollectorConfig.ServerCollectorPath), ("enabled", toString true),
       ("exporter-address", exporterAddr), ("exporter-port", portVal),
       ("privileged", toString false),
       ("dependency", hostCollectorConfig.ServerCollectorDependency),
       ("install-dependency", toString true), ("log-level", hostCollectorConfig.LogLevel)]
    env.createConfigMap
      { Name := SERVER_MON_CONFIG_MAP_NAME, Namespace := clusterCollector.Namespace,
        Data := [(env.SERVER_MON_CONFIG_FILE_NAME, yml)] } w

/-- The operation `ensureConfigMap` of the collector (collector_controller.go, lines
164-185); the custom resource is returned with the defaults set. -/
def ensureConfigMap (env : Env) (clusterCollector : Clustercollector) (w : World) :
    (Option Error × Clustercollector) × World :=
  let cc := env.setDefaults clusterCollector
  match ensureClusterCollectorConfig env cc w with
  | (some err, w1) => ((some err, cc), w1)
  | (none, w1) =>
    match ensureInfraAgentConfig env cc w1 with
    | (some err, w2) => ((some err, cc), w2)
    | (none, w2) =>
      match ensureContainerMonConfig env cc w2 with
      | (some err, w3) => ((some err, cc), w3)
      | (none, w3) =>
        match ensureServerMonConfig env cc w3 with
        | (some err, w4) => ((some err, cc), w4)
        | (none, w4) => ((none, cc), w4)

/-- The parts of the host collector that neither the source files nor the spec
describe: the daemon-style workload object with the zero value its controller starts
from, its lookup for a custom resource, its construction, creation and update, its
classifier, the annotation that keeps the desired spec, the forced restart of its
running instances, and the owner link. -/
structure HostParts where
  Workload : Type
  zero : Workload
  get : Clustercollector → World → Except Error Workload × World
  build : Clustercollector → Workload
  create : Workload → World → Option Error × World
  update : Workload → World → Option Error × World
  hasBreakingChanges : Clustercollector → Workload → (Bool × Bool) × Workload
  annotate : Workload → Clustercollector → Workload
  restart : Clustercollector → World → Option Error × World
  own : Clustercollector → Workload → Workload

/-- The state of the host collector controller: the custom resource and the workload
object it manages. -/
structure hostCollectorController (p : HostParts) where
  clusterCollector : Clustercollector
  workload : p.Workload

/-- Modelled from the spec: `hostCollector.go` is not among the source files.  The spec
(section 4.5) has the one-per-node workload go through the same common path as the
other workloads: a missing workload is constructed and created, and the status is
persisted, without a requeue; an existing one is classified; `Restart` saves the
desired spec as an annotation, updates the workload, forces the restart and requeues;
`InPlaceUpdate` updates the workload and requeues; `NoChange` refreshes and persists
the status, and, this being the Collector family, requeues after the fixed delay
too.  `updateStatus` is the status refresh of the package. -/
def hostCollectorFromSpec
    (updateStatus : Clustercollector → World → (Option Error × Clustercollector) × World)
    (p : HostParts) : IClusterController (hostCollectorController p) :=
  { Init := fun c w =>
      match p.get c.clusterCollector w with
      | (Except.ok workload, w1) => (((false, none), { c with workload := workload }), w1)
      | (Except.error err, w1) =>
        if err = Error.notFound then
          (((true, none), { c with workload := p.build c.clusterCollector }), w1)
        else (((false, some err), c), w1),
    Create := fun c w =>
      match p.create c.workload w with
      | (some err, w1) => ((some err, c), w1)
      | (none, w1) =>
        match updateStatus c.clusterCollector w1 with
        | ((_, cc), w2) => ((none, { c with clusterCollector := cc }), w2),
    Update := fun c w =>
      match p.hasBreakingChanges c.clusterCollector c.workload with
      | ((breaking, updateWorkload), patched) =>
        if breaking then
          match p.update (p.annotate patched c.clusterCollector) w with
          | (some errUpdate, w1) =>
            (((false, some errUpdate),
              { c with workload := p.annotate patched c.clusterCollector }), w1)
          | (none, w1) =>
            match p.restart c.clusterCollector w1 with
            | (some errRestart, w2) =>
              (((false, some errRestart),
                { c with workload := p.annotate patched c.clusterCollector }), w2)
            | (none, w2) =>
              (((true, none), { c with workload := p.annotate patched c.clusterCollector }), w2)
        else if updateWorkload then
          match p.update patched w with
          | (some err, w1) => (((false, some err), { c with workload := patched }), w1)
          | (none, w1) => (((true, none), { c with workload := patched }), w1)
        else
          match updateStatus c.clusterCollector w with
          | ((_, cc), w1) => (((true, none), { clusterCollector := cc, workload := patched }), w1),
    Owned := fun owner c => { c with workload := p.own owner c.workload },
    Collector := fun c => c.clusterCollector }

/-- The environment `env` with the host collector controller of the spec over the
parts `p`; its constructor starts from the zero workload. -/
def withHostFromSpec (env : Env) (p : HostParts) : Env :=
  { env with
    HostState := hostCollectorController p,
    NewHostCollectorController := fun clusterCollector =>
      { clusterCollector := clusterCollector, workload := p.zero },
    hostController := hostCollectorFromSpec env.updateStatus p }

/-- The pass `Reconcile` of the collector family (collector_controller.go, lines 96-133). -/
def Reconcile (env : Env) (request : Request) (w : World) : (Result × Option Error) × World :=
  match (clientGet request.Namespace request.Name w : Except Error Clustercollector × World) with
  | (Except.error err, w1) =>
    if err = Error.notFound then ((Result.empty, none), w1)
    else ((Result.empty, some err), w1)
  | (Except.ok clusterCollector, w1) =>
    match ensureConfigMap env clusterCollector w1 with
    | ((some econfig, _), w2) => ((Result.empty, some econfig), w2)
    | ((none, cc), w2) =>
      match ensureClusterCollectors (clusterController env)
          (NewClusterCollectorController cc) cc w2 with
      | (((reQueueClusterCollector, cErr), c1), w3) =>
        let cc1 := (clusterController env).Collector c1
        match ensureClusterCollectors env.hostController
            (env.NewHostCollectorController cc1) cc1 w3 with
        | (((reQueueHostCollector, hErr), _), w4) =>
          if cErr ≠ none ∨ hErr ≠ none then
            ((Result.empty, some (Error.msg "cluster-collector error: , host collector error: ")),
              w4)
          else if reQueueClusterCollector ∨ reQueueHostCollector then
            ((Result.after60, none), w4)
          else ((Result.empty, none), w4)

end clustercollector

/-! ## Predicates used in the statements -/

namespace adam

/-- The disjunction of the eight conditions the classifier tests after the image check. -/
def restartCondition (clusterAgent : Adam) (bag : AppDBag) (secret : Secret) : Prop :=
  bag.SecretVersion ≠ secret.ResourceVersion ∨
  clusterAgent.Spec.ControllerUrl ≠ bag.ControllerUrl ∨
  (clusterAgent.Spec.Account ≠ "" ∧ clusterAgent.Spec.Account ≠ bag.Account) ∨
  (clusterAgent.Spec.GlobalAccount ≠ "" ∧
    clusterAgent.Spec.GlobalAccount ≠ bag.GlobalAccount) ∨
  (clusterAgent.Spec.AppName ≠ "" ∧ clusterAgent.Spec.AppName ≠ bag.AppName) ∨
  (clusterAgent.Spec.EventServiceUrl ≠ "" ∧
    clusterAgent.Spec.EventServiceUrl ≠ bag.EventServiceUrl) ∨
  (clusterAgent.Spec.SystemSSLCert ≠ "" ∧
    clusterAgent.Spec.SystemSSLCert ≠ bag.SystemSSLCert) ∨
  (clusterAgent.Spec.AgentSSLCert ≠ "" ∧ clusterAgent.Spec.AgentSSLCert ≠ bag.AgentSSLCert)

instance (clusterAgent : Adam) (bag : AppDBag) (secret : Secret) :
    Decidable (restartCondition clusterAgent bag secret) := by
  unfold restartCondition
  infer_instance

/-- The snapshot agrees with the desired state on the seven compared fields. -/
def fieldsAgree (clusterAgent : Adam) (bag : AppDBag) : Prop :=
  clusterAgent.Spec.ControllerUrl = bag.ControllerUrl ∧
  (clusterAgent.Spec.Account = "" ∨ clusterAgent.Spec.Account = bag.Account) ∧
  (clusterAgent.Spec.GlobalAccount = "" ∨ clusterAgent.Spec.GlobalAccount = bag.GlobalAccount) ∧
  (clusterAgent.Spec.AppName = "" ∨ clusterAgent.Spec.AppName = bag.AppName) ∧
  (clusterAgent.Spec.EventServiceUrl = "" ∨
    clusterAgent.Spec.EventServiceUrl = bag.EventServiceUrl) ∧
  (clusterAgent.Spec.SystemSSLCert = "" ∨ clusterAgent.Spec.SystemSSLCert = bag.SystemSSLCert) ∧
  (clusterAgent.Spec.AgentSSLCert = "" ∨ clusterAgent.Spec.AgentSSLCert = bag.AgentSSLCert)

/-- The credential object a pass works with: the stored one, or the empty one that
`ensureSecret` creates when there is none. -/
def secretOf (w : World) (clusterAgent : Adam) : Secret :=
  ((w.lookup clusterAgent.Namespace AGENT_SECRET_NAME : Option Secret)).getD
    (emptySecret clusterAgent)

/-- The world at the start of the next pass: the same cluster, no call issued yet. -/
def nextPass (w : World) : World := { w with trace := [] }

instance (clusterAgent : Adam) (bag : AppDBag) : Decidable (fieldsAgree clusterAgent bag) := by
  unfold fieldsAgree
  infer_instance

end adam

/-! ## Sample inputs

A resolver written after the spec, a small serializer, and concrete objects on
which the statements below are evaluated. -/

namespace adam

/-- The overlay of a desired field on a default: the desired value unless it is empty. -/
def overlay (dflt desired : String) : String := if desired ≠ "" then desired else dflt

/-- Modelled from the spec: `GetDefaultProperties` and `reconcileBag` are not in the
controller file.  The spec has the resolver start from a fixed default snapshot,
overlay every non-empty field of the desired state, and stamp the credential revision;
the default snapshot is the parameter `defaults`. -/
def resolveBag (defaults : AppDBag) (clusterAgent : Adam) (secret : Secret) : AppDBag :=
  { defaults with
    SecretVersion := secret.ResourceVersion
    ControllerUrl := overlay defaults.ControllerUrl clusterAgent.Spec.ControllerUrl
    Account := overlay defaults.Account clusterAgent.Spec.Account
    GlobalAccount := overlay defaults.GlobalAccount clusterAgent.Spec.GlobalAccount
    AppName := overlay defaults.AppName clusterAgent.Spec.AppName
    EventServiceUrl := overlay defaults.EventServiceUrl clusterAgent.Spec.EventServiceUrl
    SystemSSLCert := overlay defaults.SystemSSLCert clusterAgent.Spec.SystemSSLCert
    AgentSSLCert := overlay defaults.AgentSSLCert clusterAgent.Spec.AgentSSLCert }

/-- Split a list of characters at every occurrence of `sep`; `cur` holds the
characters of the segment being read, in reverse. -/
def splitOnChar (sep : Char) : List Char → List Char → List String
  | [], cur => [String.mk cur.reverse]
  | ch :: rest, cur =>
    if ch = sep then String.mk cur.reverse :: splitOnChar sep rest []
    else splitOnChar sep rest (ch :: cur)

/-- A sample serializer: the eight string fields of the bag, one per line. -/
def sampleMarshal (b : AppDBag) : Option String :=
  some (String.intercalate "\n"
    [b.SecretVersion, b.ControllerUrl, b.Account, b.GlobalAccount, b.AppName,
     b.EventServiceUrl, b.SystemSSLCert, b.AgentSSLCert])

/-- The sample deserializer: eight lines are read over the bag `base`, whose port and
flag are kept; any other number of lines is an error. -/
def sampleUnmarshal (text : String) (base : AppDBag) : Option AppDBag :=
  match splitOnChar '\n' text.toList [] with
  | [sv, cu, ac, ga, an, es, ss, ag] =>
    some { base with
      SecretVersion := sv, ControllerUrl := cu, Account := ac, GlobalAccount := ga,
      AppName := an, EventServiceUrl := es, SystemSSLCert := ss, AgentSSLCert := ag }
  | _ => none

/-- The sample default snapshot. -/
def sampleDefaults : AppDBag :=
  { AppDBag.zero with AppName := "K8s-Cluster-Agent" }

/-- The sample environment: the resolver of the spec over `sampleDefaults`, the sample
serializer, and a status decoder that rejects every body. -/
def sampleEnv : Env :=
  { resolve := resolveBag sampleDefaults, marshal := sampleMarshal,
    unmarshal := sampleUnmarshal, nullDocument := fun text => text = "null",
    unmarshalStatus := fun _ => none }

/-- A desired state with image `agent:1.1` and agent certificate `certY`. -/
def sampleAgent : Adam :=
  { Name := "agent", Namespace := "appd",
    Spec :=
      { Image := "agent:1.1", ControllerUrl := "http://controller:8090", Account := "customer1",
        GlobalAccount := "", AppName := "", EventServiceUrl := "", SystemSSLCert := "",
        AgentSSLCert := "certY", AgentSSLStoreName := "", CustomSSLConfigMap := "",
        Resources := { Limits := [], Requests := [] } },
    Status :=
      { LastUpdateTime := 0,
        State :=
          { NsToMonitor := [], NsToMonitorExclude := [], NodesToMonitor := [],
            NodesToMonitorExclude := [], NsToInstrument := [], NsToInstrumentExclude := [],
            InstrumentMatchString := [] } } }

/-- The credential object at revision `2`. -/
def sampleSecret : Secret :=
  { Name := "cluster-agent-secret", Namespace := "appd", SecretType := "Opaque",
    ResourceVersion := "2", StringData := [], Data := [] }

/-- A prior snapshot at credential revision `2` with agent certificate `certX`. -/
def sampleBag : AppDBag :=
  { SecretVersion := "2", ControllerUrl := "http://controller:8090", Account := "customer1",
    GlobalAccount := "", AppName := "K8s-Cluster-Agent", EventServiceUrl := "",
    SystemSSLCert := "", AgentSSLCert := "certX", AgentServerPort := 0,
    InstrumentationUpdated := false }

/-- A live container running image `agent:1.0`. -/
def sampleContainer : Container :=
  { Name := "cluster-agent", Image := "agent:1.0", ImagePullPolicy := "Always",
    Resources := { Limits := [], Requests := [] }, Env := [], Ports := [("web-port", 0)],
    VolumeMounts := [] }

/-- A live deployment whose only container is `sampleContainer`. -/
def sampleDeployment : Deployment :=
  { Name := "agent", Namespace := "appd", Annotations := [], Owner := some "agent",
    Replicas := 1, Labels := labelsForClusteragent sampleAgent,
    ServiceAccountName := "appdynamics-operator", Containers := [sampleContainer],
    Volumes := [] }

/-- The deployment `sampleDeployment` with the image of its container replaced. -/
def sampleDeploymentWith (image : String) : Deployment :=
  { sampleDeployment with Containers := [{ sampleContainer with Image := image }] }

/-- The desired state `sampleAgent` with another spec. -/
def sampleAgentWith (spec : AdamSpec) : Adam := { sampleAgent with Spec := spec }

/-- A spec that sets the image only. -/
def imageOnlySpec (image : String) : AdamSpec :=
  { Image := image, ControllerUrl := "", Account := "", GlobalAccount := "", AppName := "",
    EventServiceUrl := "", SystemSSLCert := "", AgentSSLCert := "", AgentSSLStoreName := "",
    CustomSSLConfigMap := "", Resources := { Limits := [], Requests := [] } }

/-- The bundle as a pass of `sampleEnv` leaves it for `sampleAgent`, stamped with
the credential revision `stamp`. -/
def sampleBundle (stamp : String) : ConfigMap :=
  { Name := "adam-config", Namespace := "appd",
    Data := [("adam-config.json",
      String.intercalate "\n"
        [stamp, "http://controller:8090", "customer1", "", "K8s-Cluster-Agent", "", "", "certY"])] }

/-- A pod of the sample workload. -/
def samplePod : Pod :=
  { Name := "agent-7d9f", Namespace := "appd", Labels := labelsForClusteragent sampleAgent }

/-- A steady cluster: the desired state `sampleAgent`, its deployment running the
desired image, the secret at revision `2`, one pod, and the bundle stamped `stamp`.
The status endpoint does not answer and no API call fails. -/
def steadyWorld (stamp : String) : World :=
  { adams := [sampleAgent], deployments := [sampleDeploymentWith "agent:1.1"],
    secrets := [sampleSecret], configMaps := [sampleBundle stamp], services := [],
    pods := [samplePod], clustercollectors := [], agentReply := HttpReply.requestFailed,
    now := 7, faults := [], trace := [] }

/-- The request for the sample desired state. -/
def sampleRequest : Request := { Namespace := "appd", Name := "agent" }

/-- The steady cluster with the text of its bundle replaced by the document `null`. -/
def nullWorld : World :=
  { steadyWorld "2" with
    configMaps :=
      [{ Name := "adam-config", Namespace := "appd", Data := [("adam-config.json", "null")] }] }

end adam

namespace clustercollector

/-- Modelled from the spec: `createConfigMap` is not in the two collector files.  The
spec has a bundle created when it is missing and replaced in full when it is present. -/
def createConfigMapFromSpec (cm : ConfigMap) (w : World) : Option Error × World :=
  match (clientGet cm.Namespace cm.Name w : Except Error ConfigMap × World) with
  | (Except.ok _, w1) => clientUpdate cm w1
  | (Except.error err, w1) =>
    if err = Error.notFound then clientCreate cm w1 else (some err, w1)

/-- Sample parts of the host collector: the workload is kept as a Deployment record
named after the custom resource with the suffix `-host`, the classifier finds no
change, and the forced restart issues no call. -/
def sampleHostParts : HostParts :=
  { Workload := Deployment,
    zero :=
      { Name := "", Namespace := "", Annotations := [], Owner := none, Replicas := 0,
        Labels := [], ServiceAccountName := "", Containers := [], Volumes := [] },
    get := fun clusterCollector w =>
      clientGet clusterCollector.Namespace (clusterCollector.Name ++ "-host") w,
    build := fun clusterCollector =>
      { Name := clusterCollector.Name ++ "-host", Namespace := clusterCollector.Namespace,
        Annotations := [], Owner := none, Replicas := 0,
        Labels := [("name", "hostCollector")],
        ServiceAccountName := clusterCollector.Spec.ServiceAccountName, Containers := [],
        Volumes := [] },
    create := fun workload w => clientCreate workload w,
    update := fun workload w => clientUpdate workload w,
    hasBreakingChanges := fun _ workload => ((false, false), workload),
    annotate := fun workload _ => workload,
    restart := fun _ w => (none, w),
    own := fun owner workload => { workload with Owner := some owner.Name } }

/-- The sample environment of the collector: a classifier that finds no change, a
status refresh that writes nothing, bundles written as the spec describes, and the
host collector controller of the spec over `sampleHostParts`. -/
def sampleEnv : Env :=
  { hasBreakingChanges := fun _ deployment => ((false, false), deployment),
    updateStatus := fun clusterCollector w => ((none, clusterCollector), w),
    marshalSpec := fun spec => spec.Image,
    setDefaults := fun clusterCollector => clusterCollector,
    validateUrl := fun url => Except.ok (url, 8090, "false"),
    createConfigMap := createConfigMapFromSpec,
    COLLECTOR_PATH := "/opt/appdynamics/collectors",
    INFRA_AGENT_VOLUME_NAME := "infra-agent-config",
    INFRA_AGENT_HOME_PATH := "/opt/appdynamics/infra-agent",
    INFRA_AGENT_CONFIG_FILE_NAME := "agent.conf",
    CONTAINER_MON_CONFIG_FILE_NAME := "containermon.conf",
    SERVER_MON_CONFIG_FILE_NAME := "servermon.conf",
    HostState := hostCollectorController sampleHostParts,
    NewHostCollectorController := fun clusterCollector =>
      { clusterCollector := clusterCollector, workload := sampleHostParts.zero },
    hostController :=
      hostCollectorFromSpec (fun clusterCollector w => ((none, clusterCollector), w))
        sampleHostParts }

/-- A desired state of the collector family. -/
def sampleCollector : Clustercollector :=
  { Name := "collector", Namespace := "appd",
    Spec :=
      { Image := "appdynamics/cluster-collector:1.0", ServiceAccountName := "appdynamics-operator",
        Resources := { Limits := [], Requests := [] }, ControllerUrl := "controller",
        Account := "customer1", AccessSecret := "", ClusterName := "cluster1",
        NsToMonitorRegex := ".*", NsToExcludeRegex := "", ClusterMonEnabled := true,
        LogLevel := "info", ExporterAddress := "127.0.0.1", ExporterPort := 9100,
        SystemConfigs :=
          { CollectorLibSocketUrl := "", CollectorLibPort := "", HttpClientTimeOut := 0,
            HttpBasicAuthEnabled := false, ConfigChangeScanPeriod := 0,
            ConfigStaleGracePeriod := 0, DebugPort := "", ClientLibSendUrl := "",
            ClientLibRecvUrl := "", LogLevel := "info", DebugEnabled := false },
        HostCollector :=
          { ContainerMetricExporterAddress := "127.0.0.1", ContainerCollectorPath := "",
            ContainerCollectorDependency := "", ServerCollectorPath := "",
            ServerCollectorDependency := "", LogLevel := "info" } },
    LastUpdateTime := 0 }

/-- The Deployment of the sample cluster collector, as `newCollectorDeployment` builds it. -/
def sampleCollectorDeployment : Deployment :=
  ((NewClusterCollectorController sampleCollector).newCollectorDeployment sampleEnv).2.deployment

/-- The request for the sample collector. -/
def sampleRequest : Request := { Namespace := "appd", Name := "collector" }

/-- A cluster in which the cluster collector's Deployment exists and no API call fails. -/
def steadyWorld : World :=
  { adams := [], deployments := [sampleCollectorDeployment], secrets := [], configMaps := [],
    services := [], pods := [], clustercollectors := [sampleCollector],
    agentReply := HttpReply.requestFailed, now := 7, faults := [], trace := [] }

end clustercollector

/-! ## The steps of a pass, for the statements -/

/-- The calls issued between the world `w` and the later world `w1`. -/
def World.since (w1 w : World) : List Call := w1.trace.drop w.trace.length

/-- Whether a call is quiet: it is not a list, not a delete, and not a write of a
Deployment.  Reads, and the writes of secrets, bundles, services and custom
resources, are quiet. -/
def Call.quiet : Call → Bool
  | Call.get _ _ _ => true
  | Call.list _ _ => false
  | Call.delete _ => false
  | Call.create (Obj.deployment _) => false
  | Call.update (Obj.deployment _) => false
  | Call.statusUpdate (Obj.deployment _) => false
  | Call.create _ => true
  | Call.update _ => true
  | Call.statusUpdate _ => true

/-- The calls of a list that are not quiet. -/
def loud (calls : List Call) : List Call := calls.filter (fun c => !c.quiet)

/-- The world `w1` is reached from `w` by quiet calls only. -/
def QuietStep (w w1 : World) : Prop :=
  ∃ calls : List Call, w1.trace = w.trace ++ calls ∧ ∀ c ∈ calls, c.quiet = true

namespace adam

/-- What a pass of the steady path holds when it branches on the verdict (line 175):
the custom resource and the Deployment it read, the secret, the bundle and the
snapshot `ensureConfigMap` returned, the verdict with the patched Deployment, the bag
`updateMap` returned, and the world after the bundle rewrite. -/
structure Decision where
  clusterAgent : Adam
  existingDeployment : Deployment
  secret : Secret
  cm : ConfigMap
  bag : AppDBag
  breaking : Bool
  updateDeployment : Bool
  patched : Deployment
  updatedBag : AppDBag
  world : World
deriving Inhabited

/-- The steady path of `Reconcile` up to the verdict (lines 88-174): `some` when the
custom resource and the Deployment are read, both ensure steps succeed, the classifier
returns and the bundle rewrite succeeds; `none` in every other case. -/
def steadyDecision (env : Env) (request : Request) (w : World) : Option Decision :=
  match (clientGet request.Namespace request.Name w : Except Error Adam × World) with
  | (Except.error _, _) => none
  | (Except.ok clusterAgent, w1) =>
    match (clientGet clusterAgent.Namespace clusterAgent.Name w1 :
        Except Error Deployment × World) with
    | (Except.error _, _) => none
    | (Except.ok existingDeployment, w2) =>
      match ensureSecret clusterAgent w2 with
      | (Except.error _, _) => none
      | (Except.ok secret, w3) =>
        match ensureConfigMap env clusterAgent secret false w3 with
        | (none, _) => none
        | (some (Except.error _), _) => none
        | (some (Except.ok (cm, bag)), w4) =>
          match hasBreakingChanges clusterAgent bag existingDeployment secret with
          | none => none
          | some ((breaking, updateDeployment), patched) =>
            match updateMap env cm clusterAgent secret false w4 with
            | ((Except.error _, _), _) => none
            | ((Except.ok updatedBag, _), w5) =>
              some
                { clusterAgent := clusterAgent, existingDeployment := existingDeployment,
                  secret := secret, cm := cm, bag := bag, breaking := breaking,
                  updateDeployment := updateDeployment, patched := patched,
                  updatedBag := updatedBag, world := w5 }

/-- The branch on the verdict (lines 175-204), from what the pass holds at that point. -/
def steadyTail (env : Env) (x : Decision) : Option (Result × Option Error) × World :=
  if x.breaking then
    match restartAgent x.clusterAgent x.world with
    | (some errRestart, w4) => (some (Result.empty, some errRestart), w4)
    | (none, w4) => (some (Result.after60, none), w4)
  else if x.updateDeployment then
    match clientUpdate x.patched x.world with
    | (some err, w4) => (some (Result.empty, some err), w4)
    | (none, w4) => (some (Result.after60, none), w4)
  else
    (some (Result.empty, none), (updateStatus env x.clusterAgent x.updatedBag x.world).2)

/-- What a pass of the provisioning path holds once the Deployment is created (line
141): the custom resource as read and as `newAgentDeployment` leaves it, the secret,
the bag, the Deployment, and the world after its creation. -/
structure Provision where
  clusterAgent : Adam
  owner : Adam
  secret : Secret
  bag : AppDBag
  dep : Deployment
  cleaned : World
  world : World
deriving Inhabited

/-- The provisioning path of `Reconcile` up to the creation of the Deployment (lines
88-141): `some` when the custom resource is read, the Deployment is not found, and the
three ensure steps and the creation succeed; `none` in every other case. -/
def provisionDecision (env : Env) (request : Request) (w : World) : Option Provision :=
  match (clientGet request.Namespace request.Name w : Except Error Adam × World) with
  | (Except.error _, _) => none
  | (Except.ok clusterAgent, w1) =>
    match (clientGet clusterAgent.Namespace clusterAgent.Name w1 :
        Except Error Deployment × World) with
    | (Except.ok _, _) => none
    | (Except.error err, w2) =>
      if err = Error.notFound then
        match ensureSecret clusterAgent (cleanUp (some clusterAgent) w2) with
        | (Except.error _, _) => none
        | (Except.ok secret, w3) =>
          match ensureConfigMap env clusterAgent secret true w3 with
          | (none, _) => none
          | (some (Except.error _), _) => none
          | (some (Except.ok (_, updatedBag)), w4) =>
            match ensureAgentService clusterAgent updatedBag w4 with
            | (Except.error _, _) => none
            | (Except.ok _, w5) =>
              match clientCreate (newAgentDeployment clusterAgent secret updatedBag).1 w5 with
              | (some _, _) => none
              | (none, w6) =>
                some
                  { clusterAgent := clusterAgent,
                    owner := (newAgentDeployment clusterAgent secret updatedBag).2,
                    secret := secret, bag := updatedBag,
                    dep := (newAgentDeployment clusterAgent secret updatedBag).1,
                    cleaned := cleanUp (some clusterAgent) w2, world := w6 }
      else none

end adam

/-! ## Sample inputs for the passes -/

namespace adam

/-- What the pass of `sampleEnv` for `sampleRequest` holds at the verdict in the world
`w` (a default value when it does not reach the verdict). -/
def sampleDecision (w : World) : Decision :=
  (steadyDecision sampleEnv sampleRequest w).getD default

/-- The steady sample cluster with the live image `agent:1.0` still running, while
`agent:1.1` is desired; `faults` lists the calls of the pass that fail. -/
def imageWorld (faults : List Nat) : World :=
  { steadyWorld "2" with deployments := [sampleDeployment], faults := faults }

/-- The sample desired state asking for a CPU limit. -/
def limitedAgent : Adam :=
  sampleAgentWith
    { sampleAgent.Spec with Resources := { Limits := [("cpu", "200m")], Requests := [] } }

/-- The cluster `imageWorld []` with the desired state `limitedAgent`: the image and
the resources of the live container both differ from the desired ones. -/
def limitedWorld : World := { imageWorld [] with adams := [limitedAgent] }

/-- The steady sample cluster whose desired state asks for the agent certificate
`certZ`, while the bundle records `certY`; `faults` lists the calls that fail. -/
def driftWorld (faults : List Nat) : World :=
  { steadyWorld "2" with
    adams := [sampleAgentWith { sampleAgent.Spec with AgentSSLCert := "certZ" }],
    faults := faults }

end adam

/-- The world `w1` is reached from `w` by calls whose deletes are `ds`, in order. -/
def DeleteStep (w w1 : World) (ds : List Call) : Prop :=
  ∃ calls : List Call, w1.trace = w.trace ++ calls ∧ calls.filter Call.isDelete = ds

namespace adam

/-- The namespace in which `cleanUp` looks for the bundle (lines 397-400). -/
def cleanUpNamespace (clusterAgent : Option Adam) : String :=
  match clusterAgent with
  | some a => a.Namespace
  | none => "appdynamics"

/-- A cluster without the sample desired state, with a left-over bundle in the
namespace `appdynamics`. -/
def absentWorld : World :=
  { steadyWorld "2" with
    adams := [],
    configMaps := [{ Name := "adam-config", Namespace := "appdynamics", Data := [] }] }

/-- A cluster that holds the sample desired state and nothing else. -/
def freshWorld : World :=
  { steadyWorld "2" with deployments := [], secrets := [], configMaps := [], pods := [] }

/-- What the pass of `sampleEnv` for `sampleRequest` holds once the Deployment is
created in the world `w` (a default value when it does not get there). -/
def sampleProvision (w : World) : Provision :=
  (provisionDecision sampleEnv sampleRequest w).getD default

end adam

namespace adam

/-- The sample environment with a resolver that raises `InstrumentationUpdated`. -/
def flaggedEnv : Env :=
  { sampleEnv with
    resolve := fun a s => { sampleEnv.resolve a s with InstrumentationUpdated := true } }

/-- The ConfigMap `ensureConfigMap` hands to `updateMap` when the bundle is not found
(lines 430-431), for the sample desired state. -/
def freshBundle : ConfigMap :=
  { ConfigMap.zero with Name := "adam-config", Namespace := "appd" }

/-- The cluster `absentWorld` with a failure injected in the given calls. -/
def absentWorldWith (faults : List Nat) : World := { absentWorld with faults := faults }

end adam

/-! ## Sample inputs for the dependent resources -/

namespace adam

/-- The steady sample cluster in which the Service of the sample workload exists. -/
def servedWorld : World :=
  { steadyWorld "2" with services := [newAgentService sampleAgent sampleBag] }

/-- The sample desired state asking for the custom trust store `store`. -/
def storeAgent : Adam :=
  sampleAgentWith { sampleAgent.Spec with AgentSSLStoreName := "store" }

/-- The steady sample cluster in which the ConfigMap `appd-agent-ssl-store` exists. -/
def storeWorld : World :=
  { steadyWorld "2" with
    configMaps := [{ Name := "appd-agent-ssl-store", Namespace := "appd", Data := [] }] }

/-- A cluster without the sample desired state that holds two bundles named
`adam-config`: one in the namespace `appd` of the sample request, one in the
namespace `appdynamics`. -/
def strayWorld : World :=
  { steadyWorld "2" with
    adams := [],
    configMaps :=
      [sampleBundle "2", { Name := "adam-config", Namespace := "appdynamics", Data := [] }] }

end adam

namespace adam

/-- The cluster `freshWorld` with a failure injected in the given calls. -/
def freshWorldWith (faults : List Nat) : World := { freshWorld with faults := faults }

end adam

/-! ## The collector pass, for the statements -/

namespace clustercollector

/-- The Deployment `Update` submits on a `Restart` verdict (clusterCollector.go, lines
66-75): the one the classifier leaves, with the annotation saved on it. -/
def clusterCollectorController.annotated (env : Env) (c : clusterCollectorController) :
    Deployment :=
  saveOrUpdateCollectorSpecAnnotation env
    (env.hasBreakingChanges c.clusterCollector c.deployment).2 c.clusterCollector

/-- The first workload of a collector pass (collector_controller.go, lines 121-122):
the driver on the cluster collector controller. -/
def clusterPass (env : Env) (cc : Clustercollector) (w : World) :
    ((Bool × Option Error) × clusterCollectorController) × World :=
  ensureClusterCollectors (clusterController env) (NewClusterCollectorController cc) cc w

/-- The second workload of a collector pass (collector_controller.go, lines 123-124):
the driver on the host collector controller, in the world and on the custom resource
the first workload left. -/
def hostPass (env : Env) (cc : Clustercollector) (w : World) :
    ((Bool × Option Error) × env.HostState) × World :=
  ensureClusterCollectors env.hostController
    (env.NewHostCollectorController ((clusterController env).Collector (clusterPass env cc w).1.2))
    ((clusterController env).Collector (clusterPass env cc w).1.2) (clusterPass env cc w).2

/-- A sample classifier of the collector that always returns `Restart` and leaves the
Deployment as it is. -/
def restartEnv : Env :=
  { sampleEnv with hasBreakingChanges := fun _ deployment => ((true, false), deployment) }

/-- The cluster collector controller of the sample cluster, with its Deployment read. -/
def sampleController : clusterCollectorController :=
  { clusterCollector := sampleCollector, deployment := sampleCollectorDeployment }

/-- A pod of the sample cluster collector. -/
def samplePod : Pod :=
  { Name := "collector-5c4d", Namespace := "appd",
    Labels := labelsForClusterCollector sampleCollector }

/-- The sample cluster of the collector with one pod of the cluster collector;
`faults` lists the calls that fail. -/
def podWorld (faults : List Nat) : World :=
  { steadyWorld with pods := [samplePod], faults := faults }

/-- The sample desired state of the collector with an image whose registry host has
a port. -/
def registryCollector : Clustercollector :=
  { sampleCollector with
    Spec := { sampleCollector.Spec with Image := "registry:5000/appd/collector:1.0" } }

/-- The workload of the sample host collector, as `sampleHostParts` builds and owns it. -/
def sampleHostWorkload : Deployment :=
  sampleHostParts.own sampleCollector (sampleHostParts.build sampleCollector)

/-- A cluster in which both workloads of the sample collector exist and no API call
fails. -/
def familyWorld : World :=
  { steadyWorld with deployments := [sampleCollectorDeployment, sampleHostWorkload] }

/-- The sample cluster of the collector in which the tenth call of a pass, the read of
the cluster collector's Deployment, fails. -/
def faultyWorld : World := { steadyWorld with faults := [9] }

end clustercollector

/-! ## Lemmas on the API model -/

theorem hasKey_self {α : Type} [ApiObject α] (o : α) :
    hasKey (ApiObject.ns o) (ApiObject.name o) o = true := by
  simp [hasKey]

/-- An object found under a key has that key. -/
theorem key_of_find {α : Type} [ApiObject α] (l : List α) (ns name : String) (o : α)
    (h : l.find? (hasKey ns name) = some o) : ApiObject.ns o = ns ∧ ApiObject.name o = name := by
  have hp := List.find?_some h
  simpa [hasKey] using hp

/-- After `replaceObj o`, the object found under the key of `o` is `o`, provided one was stored. -/
theorem find_replaceObj {α : Type} [ApiObject α] (o : α) (l : List α) (x : α)
    (h : l.find? (hasKey (ApiObject.ns o) (ApiObject.name o)) = some x) :
    (replaceObj o l).find? (hasKey (ApiObject.ns o) (ApiObject.name o)) = some o := by
  induction l with
  | nil => simp at h
  | cons y ys ih =>
    by_cases hy : hasKey (ApiObject.ns o) (ApiObject.name o) y = true
    · simp [replaceObj, hy, hasKey_self]
    · have h2 : ys.find? (hasKey (ApiObject.ns o) (ApiObject.name o)) = some x := by
        simpa [List.find?, hy] using h
      have ih2 := ih h2
      simp only [replaceObj] at ih2 ⊢
      simp [hy, ih2]

/-- An object appended to a list that held no match is the match found. -/
theorem find_append_new {α : Type} (p : α → Bool) (l : List α) (o : α)
    (h : l.find? p = none) (ho : p o = true) : (l ++ [o]).find? p = some o := by
  simp [List.find?_append, h, ho]

/-- A `Get` of a stored object, with no failure injected, returns it and only records the call. -/
theorem clientGet_found {α : Type} [ApiObject α] (ns name : String) (w : World) (o : α)
    (hf : w.faults = []) (h : w.lookup ns name = some o) :
    clientGet ns name w = (Except.ok o, w.issue (Call.get (ApiObject.kind α) ns name)) := by
  simp [clientGet, World.faulty, hf, h]

/-- A `Get` of an absent object, with no failure injected, returns `NotFound`. -/
theorem clientGet_missing {α : Type} [ApiObject α] (ns name : String) (w : World)
    (hf : w.faults = []) (h : (w.lookup ns name : Option α) = none) :
    (clientGet ns name w : Except Error α × World) =
      (Except.error Error.notFound, w.issue (Call.get (ApiObject.kind α) ns name)) := by
  simp [clientGet, World.faulty, hf, h]

/-- An `Update` of a stored object, with no failure injected, replaces it. -/
theorem clientUpdate_found {α : Type} [ApiObject α] (o x : α) (w : World)
    (hf : w.faults = []) (h : w.lookup (ApiObject.ns o) (ApiObject.name o) = some x) :
    clientUpdate o w =
      (none, ApiObject.put (w.issue (Call.update (ApiObject.toObj o)))
        (replaceObj o (ApiObject.all (w.issue (Call.update (ApiObject.toObj o))) : List α))) := by
  simp [clientUpdate, World.faulty, hf, h]

/-- A status update of a stored object, with no failure injected, replaces it. -/
theorem clientStatusUpdate_found {α : Type} [ApiObject α] (o x : α) (w : World)
    (hf : w.faults = []) (h : w.lookup (ApiObject.ns o) (ApiObject.name o) = some x) :
    clientStatusUpdate o w =
      (none, ApiObject.put (w.issue (Call.statusUpdate (ApiObject.toObj o)))
        (replaceObj o
          (ApiObject.all (w.issue (Call.statusUpdate (ApiObject.toObj o))) : List α))) := by
  simp [clientStatusUpdate, World.faulty, hf, h]

/-! ## Theorems: the drift classifier -/

namespace adam

/-- With the image in sync the classifier runs the checks after the image check and
leaves the deployment as it is. -/
theorem hasBreakingChanges_of_imageInSync (clusterAgent : Adam) (bag : AppDBag)
    (existingDeployment : Deployment) (secret : Secret)
    (himage : imageInSync clusterAgent existingDeployment) :
    hasBreakingChanges clusterAgent bag existingDeployment secret =
      some (restartChecks clusterAgent bag secret, existingDeployment) := by
  unfold hasBreakingChanges
  rcases himage with h | ⟨c, rest, hc, himg⟩
  · simp [h]
  · simp [hc, himg]

/-- The checks after the image check give `Restart` when `restartCondition` holds and
`NoChange` otherwise. -/
theorem restartChecks_eq (clusterAgent : Adam) (bag : AppDBag) (secret : Secret) :
    restartChecks clusterAgent bag secret =
      (decide (restartCondition clusterAgent bag secret), false) := by
  unfold restartChecks restartCondition
  by_cases h0 : bag.SecretVersion ≠ secret.ResourceVersion
  · simp [h0]
  by_cases h1 : clusterAgent.Spec.ControllerUrl ≠ bag.ControllerUrl
  · simp [h1]
  by_cases h2 : clusterAgent.Spec.Account ≠ "" ∧ clusterAgent.Spec.Account ≠ bag.Account
  · simp [h2]
  by_cases h3 : clusterAgent.Spec.GlobalAccount ≠ "" ∧
      clusterAgent.Spec.GlobalAccount ≠ bag.GlobalAccount
  · simp [h3]
  by_cases h4 : clusterAgent.Spec.AppName ≠ "" ∧ clusterAgent.Spec.AppName ≠ bag.AppName
  · simp [h4]
  by_cases h5 : clusterAgent.Spec.EventServiceUrl ≠ "" ∧
      clusterAgent.Spec.EventServiceUrl ≠ bag.EventServiceUrl
  · simp [h5]
  by_cases h6 : clusterAgent.Spec.SystemSSLCert ≠ "" ∧
      clusterAgent.Spec.SystemSSLCert ≠ bag.SystemSSLCert
  · simp [h6]
  by_cases h7 : clusterAgent.Spec.AgentSSLCert ≠ "" ∧
      clusterAgent.Spec.AgentSSLCert ≠ bag.AgentSSLCert
  · simp [h7]
  rw [if_neg h0, if_neg h1, if_neg h2, if_neg h3, if_neg h4, if_neg h5, if_neg h6, if_neg h7]
  have : ¬ (bag.SecretVersion ≠ secret.ResourceVersion ∨
      clusterAgent.Spec.ControllerUrl ≠ bag.ControllerUrl ∨
      (clusterAgent.Spec.Account ≠ "" ∧ clusterAgent.Spec.Account ≠ bag.Account) ∨
      (clusterAgent.Spec.GlobalAccount ≠ "" ∧
        clusterAgent.Spec.GlobalAccount ≠ bag.GlobalAccount) ∨
      (clusterAgent.Spec.AppName ≠ "" ∧ clusterAgent.Spec.AppName ≠ bag.AppName) ∨
      (clusterAgent.Spec.EventServiceUrl ≠ "" ∧
        clusterAgent.Spec.EventServiceUrl ≠ bag.EventServiceUrl) ∨
      (clusterAgent.Spec.SystemSSLCert ≠ "" ∧
        clusterAgent.Spec.SystemSSLCert ≠ bag.SystemSSLCert) ∨
      (clusterAgent.Spec.AgentSSLCert ≠ "" ∧
        clusterAgent.Spec.AgentSSLCert ≠ bag.AgentSSLCert)) := by
    rintro (h | h | h | h | h | h | h | h)
    · exact h0 h
    · exact h1 h
    · exact h2 h
    · exact h3 h
    · exact h4 h
    · exact h5 h
    · exact h6 h
    · exact h7 h
  rw [decide_eq_false this]

/-- C1 (as stated) fails: with image `agent:1.0` live and `agent:1.1` desired, and agent
certificate `certX` in the snapshot and `certY` desired, the verdict is `InPlaceUpdate`
and not `Restart`. -/
theorem precedence_image_and_cert_counterexample :
    sampleAgent.Spec.Image ≠ "" ∧
    sampleDeployment.Containers.head?.map Container.Image = some "agent:1.0" ∧
    sampleAgent.Spec.Image ≠ "agent:1.0" ∧
    sampleAgent.Spec.AgentSSLCert ≠ "" ∧
    sampleAgent.Spec.AgentSSLCert ≠ sampleBag.AgentSSLCert ∧
    (hasBreakingChanges sampleAgent sampleBag sampleDeployment sampleSecret).map Prod.fst =
      some InPlaceUpdate ∧
    (hasBreakingChanges sampleAgent sampleBag sampleDeployment sampleSecret).map Prod.fst ≠
      some Restart := by
  decide

/-- C1 (amended): when the desired image is non-empty and differs from the image of the
live deployment's first container, and a desired TLS certificate name (agent or system)
is non-empty and differs from the snapshot's, the verdict is `InPlaceUpdate` and not
`Restart`: the image check returns before any certificate is compared. -/
theorem precedence_image_over_cert (clusterAgent : Adam) (bag : AppDBag)
    (existingDeployment : Deployment) (secret : Secret) (c : Container) (rest : List Container)
    (hcontainers : existingDeployment.Containers = c :: rest)
    (hset : clusterAgent.Spec.Image ≠ "")
    (hdiff : c.Image ≠ clusterAgent.Spec.Image)
    (_hcert :
      (clusterAgent.Spec.AgentSSLCert ≠ "" ∧ clusterAgent.Spec.AgentSSLCert ≠ bag.AgentSSLCert) ∨
      (clusterAgent.Spec.SystemSSLCert ≠ "" ∧
        clusterAgent.Spec.SystemSSLCert ≠ bag.SystemSSLCert)) :
    (hasBreakingChanges clusterAgent bag existingDeployment secret).map Prod.fst =
        some InPlaceUpdate ∧
      (hasBreakingChanges clusterAgent bag existingDeployment secret).map Prod.fst ≠
        some Restart := by
  unfold hasBreakingChanges
  simp [hcontainers, hset, hdiff, InPlaceUpdate, Restart]

/-- Witness of C1 (amended) on the sample objects. -/
theorem precedence_image_over_cert_witness :
    (hasBreakingChanges sampleAgent sampleBag sampleDeployment sampleSecret).map Prod.fst =
        some InPlaceUpdate ∧
      (hasBreakingChanges sampleAgent sampleBag sampleDeployment sampleSecret).map Prod.fst ≠
        some Restart :=
  precedence_image_over_cert sampleAgent sampleBag sampleDeployment sampleSecret
    sampleContainer [] rfl (by decide) (by decide) (Or.inl (by decide))

/-- C3 (the code at the failing input): the desired controller endpoint is empty, the
image is empty, the credential revision matches and every other desired field is empty,
yet against a snapshot with a controller endpoint the verdict is `Restart`. -/
theorem empty_controllerUrl_restarts :
    (sampleAgentWith (imageOnlySpec "")).Spec.ControllerUrl = "" ∧
    sampleBag.SecretVersion = sampleSecret.ResourceVersion ∧
    hasBreakingChanges (sampleAgentWith (imageOnlySpec "")) sampleBag sampleDeployment
      sampleSecret = some (Restart, sampleDeployment) := by
  decide

/-- C4: when the desired image is non-empty and differs from the image of the live
deployment's first container, the verdict is `InPlaceUpdate` (breaking = false,
updateDeployment = true) and the first container of the returned deployment carries the
desired image, the rest of the deployment being as before. -/
theorem image_change_updates_in_place (clusterAgent : Adam) (bag : AppDBag)
    (existingDeployment : Deployment) (secret : Secret) (c : Container) (rest : List Container)
    (hcontainers : existingDeployment.Containers = c :: rest)
    (hset : clusterAgent.Spec.Image ≠ "")
    (hdiff : c.Image ≠ clusterAgent.Spec.Image) :
    hasBreakingChanges clusterAgent bag existingDeployment secret =
      some ((false, true),
        { existingDeployment with
          Containers := { c with Image := clusterAgent.Spec.Image } :: rest }) := by
  unfold hasBreakingChanges
  simp [hcontainers, hset, hdiff]

/-- Witness of C4 on the sample objects. -/
theorem image_change_updates_in_place_witness :
    hasBreakingChanges sampleAgent sampleBag sampleDeployment sampleSecret =
      some ((false, true), sampleDeploymentWith "agent:1.1") :=
  image_change_updates_in_place sampleAgent sampleBag sampleDeployment sampleSecret
    sampleContainer [] rfl (by decide) (by decide)

/-- C5: when the desired image is empty or equal to the live image and the snapshot's
`SecretVersion` differs from the secret's `ResourceVersion`, the verdict is `Restart`
(breaking = true, updateDeployment = false) whatever the other fields are, and the
deployment is left as it is. -/
theorem credential_rotation_restarts (clusterAgent : Adam) (bag : AppDBag)
    (existingDeployment : Deployment) (secret : Secret)
    (himage : imageInSync clusterAgent existingDeployment)
    (hrev : bag.SecretVersion ≠ secret.ResourceVersion) :
    hasBreakingChanges clusterAgent bag existingDeployment secret =
      some ((true, false), existingDeployment) := by
  rw [hasBreakingChanges_of_imageInSync clusterAgent bag existingDeployment secret himage,
    restartChecks_eq]
  have hany : restartCondition clusterAgent bag secret := Or.inl hrev
  simp [hany]

/-- Witness of C5: the sample snapshot stamped with revision `1` against the secret at
revision `2`, the image being in sync. -/
theorem credential_rotation_restarts_witness :
    hasBreakingChanges sampleAgent { sampleBag with SecretVersion := "1" }
      (sampleDeploymentWith "agent:1.1") sampleSecret =
      some ((true, false), sampleDeploymentWith "agent:1.1") :=
  credential_rotation_restarts sampleAgent { sampleBag with SecretVersion := "1" }
    (sampleDeploymentWith "agent:1.1") sampleSecret
    (Or.inr ⟨{ sampleContainer with Image := "agent:1.1" }, [], rfl, rfl⟩) (by decide)

/-- C6: with the image in sync and the credential revision matching, if one of the seven
fields controller endpoint, account, global account, app name, event-service URL, system
TLS certificate name and agent TLS certificate name is non-empty in the desired state and
differs from the snapshot's value, the verdict is `Restart` (breaking = true,
updateDeployment = false) and the deployment is left as it is. -/
theorem breaking_field_restarts (clusterAgent : Adam) (bag : AppDBag)
    (existingDeployment : Deployment) (secret : Secret)
    (himage : imageInSync clusterAgent existingDeployment)
    (_hrev : bag.SecretVersion = secret.ResourceVersion)
    (hfield :
      (clusterAgent.Spec.ControllerUrl ≠ "" ∧
        clusterAgent.Spec.ControllerUrl ≠ bag.ControllerUrl) ∨
      (clusterAgent.Spec.Account ≠ "" ∧ clusterAgent.Spec.Account ≠ bag.Account) ∨
      (clusterAgent.Spec.GlobalAccount ≠ "" ∧
        clusterAgent.Spec.GlobalAccount ≠ bag.GlobalAccount) ∨
      (clusterAgent.Spec.AppName ≠ "" ∧ clusterAgent.Spec.AppName ≠ bag.AppName) ∨
      (clusterAgent.Spec.EventServiceUrl ≠ "" ∧
        clusterAgent.Spec.EventServiceUrl ≠ bag.EventServiceUrl) ∨
      (clusterAgent.Spec.SystemSSLCert ≠ "" ∧
        clusterAgent.Spec.SystemSSLCert ≠ bag.SystemSSLCert) ∨
      (clusterAgent.Spec.AgentSSLCert ≠ "" ∧
        clusterAgent.Spec.AgentSSLCert ≠ bag.AgentSSLCert)) :
    hasBreakingChanges clusterAgent bag existingDeployment secret =
      some ((true, false), existingDeployment) := by
  rw [hasBreakingChanges_of_imageInSync clusterAgent bag existingDeployment secret himage,
    restartChecks_eq]
  have hany : restartCondition clusterAgent bag secret := by
    unfold restartCondition
    tauto
  simp [hany]

/-- Witness of C6: the agent certificate `certY` is desired against `certX` in the
snapshot, the image being in sync. -/
theorem breaking_field_restarts_witness :
    hasBreakingChanges sampleAgent sampleBag (sampleDeploymentWith "agent:1.1") sampleSecret =
      some ((true, false), sampleDeploymentWith "agent:1.1") :=
  breaking_field_restarts sampleAgent sampleBag (sampleDeploymentWith "agent:1.1") sampleSecret
    (Or.inr ⟨{ sampleContainer with Image := "agent:1.1" }, [], rfl, rfl⟩) (by decide)
    (by decide)

/-- C7: for a desired state with an empty `Account`, the result of the classifier does
not depend on the snapshot's `Account`: replacing it by any other value changes
nothing. -/
theorem empty_account_ignored (clusterAgent : Adam) (bag : AppDBag)
    (existingDeployment : Deployment) (secret : Secret) (account : String)
    (hempty : clusterAgent.Spec.Account = "") :
    hasBreakingChanges clusterAgent { bag with Account := account } existingDeployment secret =
      hasBreakingChanges clusterAgent bag existingDeployment secret := by
  unfold hasBreakingChanges restartChecks
  simp [hempty]

/-- Witness of C7: a desired state with an empty `Account` whose image, controller URL
and credential revision agree with the live deployment and the snapshot, so that the
classifier gets to the account comparison; against the snapshot accounts `other` and
`customer1` the result is the same, `NoChange`. -/
theorem empty_account_ignored_witness :
    hasBreakingChanges
        (sampleAgentWith
          { imageOnlySpec "agent:1.0" with ControllerUrl := "http://controller:8090" })
        { sampleBag with Account := "other" } sampleDeployment sampleSecret =
      hasBreakingChanges
        (sampleAgentWith
          { imageOnlySpec "agent:1.0" with ControllerUrl := "http://controller:8090" })
        sampleBag sampleDeployment sampleSecret ∧
    hasBreakingChanges
        (sampleAgentWith
          { imageOnlySpec "agent:1.0" with ControllerUrl := "http://controller:8090" })
        { sampleBag with Account := "other" } sampleDeployment sampleSecret =
      some (NoChange, sampleDeployment) ∧
    sampleBag.Account = "customer1" :=
  ⟨empty_account_ignored
      (sampleAgentWith
        { imageOnlySpec "agent:1.0" with ControllerUrl := "http://controller:8090" })
      sampleBag sampleDeployment sampleSecret "other" rfl,
    by decide, rfl⟩

/-- C8: when the image is in sync, the snapshot's `SecretVersion` equals the secret's
`ResourceVersion`, the desired `ControllerUrl` equals the snapshot's, and each of
account, global account, app name, event-service URL, system and agent TLS certificate
name is empty or equal to the snapshot's value, the verdict is `NoChange`
(false, false) and the deployment is returned unmodified. -/
theorem fall_through_noChange (clusterAgent : Adam) (bag : AppDBag)
    (existingDeployment : Deployment) (secret : Secret)
    (himage : imageInSync clusterAgent existingDeployment)
    (hrev : bag.SecretVersion = secret.ResourceVersion)
    (hurl : clusterAgent.Spec.ControllerUrl = bag.ControllerUrl)
    (hacct : clusterAgent.Spec.Account = "" ∨ clusterAgent.Spec.Account = bag.Account)
    (hglobal : clusterAgent.Spec.GlobalAccount = "" ∨
      clusterAgent.Spec.GlobalAccount = bag.GlobalAccount)
    (happ : clusterAgent.Spec.AppName = "" ∨ clusterAgent.Spec.AppName = bag.AppName)
    (hevent : clusterAgent.Spec.EventServiceUrl = "" ∨
      clusterAgent.Spec.EventServiceUrl = bag.EventServiceUrl)
    (hsys : clusterAgent.Spec.SystemSSLCert = "" ∨
      clusterAgent.Spec.SystemSSLCert = bag.SystemSSLCert)
    (hagent : clusterAgent.Spec.AgentSSLCert = "" ∨
      clusterAgent.Spec.AgentSSLCert = bag.AgentSSLCert) :
    hasBreakingChanges clusterAgent bag existingDeployment secret =
      some ((false, false), existingDeployment) := by
  rw [hasBreakingChanges_of_imageInSync clusterAgent bag existingDeployment secret himage,
    restartChecks_eq]
  have hnone : ¬ restartCondition clusterAgent bag secret := by
    unfold restartCondition
    tauto
  simp [hnone]

/-- Witness of C8: the sample desired state with the agent certificate of the snapshot,
the image being in sync. -/
theorem fall_through_noChange_witness :
    hasBreakingChanges sampleAgent { sampleBag with AgentSSLCert := "certY" }
      (sampleDeploymentWith "agent:1.1") sampleSecret =
      some ((false, false), sampleDeploymentWith "agent:1.1") :=
  fall_through_noChange sampleAgent { sampleBag with AgentSSLCert := "certY" }
    (sampleDeploymentWith "agent:1.1") sampleSecret
    (Or.inr ⟨{ sampleContainer with Image := "agent:1.1" }, [], rfl, rfl⟩) rfl rfl
    (Or.inr rfl) (Or.inl rfl) (Or.inl rfl) (Or.inl rfl) (Or.inl rfl) (Or.inr rfl)

/-- A snapshot that agrees with the desired state and is stamped with the secret's revision passes every check after the image check. -/
theorem restartChecks_of_fieldsAgree (clusterAgent : Adam) (bag : AppDBag) (secret : Secret)
    (h : fieldsAgree clusterAgent bag) :
    restartChecks clusterAgent { bag with SecretVersion := secret.ResourceVersion } secret =
      (false, false) := by
  rw [restartChecks_eq]
  obtain ⟨hurl, hacct, hglobal, happ, hevent, hsys, hagent⟩ := h
  have hnone : ¬ restartCondition clusterAgent
      { bag with SecretVersion := secret.ResourceVersion } secret := by
    unfold restartCondition
    tauto
  simp [hnone]

/-- With the secret stored, `ensureSecret` returns it after one read. -/
theorem ensureSecret_found (clusterAgent : Adam) (w : World) (s : Secret)
    (hf : w.faults = [])
    (hs : w.lookup clusterAgent.Namespace AGENT_SECRET_NAME = some s) :
    ensureSecret clusterAgent w =
      (Except.ok s, w.issue (Call.get Kind.secret clusterAgent.Namespace AGENT_SECRET_NAME)) := by
  unfold ensureSecret
  rw [clientGet_found clusterAgent.Namespace AGENT_SECRET_NAME w s hf hs]
  rfl

/-- With the bundle stored and readable, `ensureConfigMap` returns it with the bag stamped with the secret's revision. -/
theorem ensureConfigMap_found (env : Env) (clusterAgent : Adam) (secret : Secret)
    (create : Bool) (w : World) (cm : ConfigMap) (b : AppDBag)
    (hf : w.faults = [])
    (hcm : w.lookup clusterAgent.Namespace "adam-config" = some cm)
    (hb : env.unmarshal (mapGet cm.Data "adam-config.json") AppDBag.zero = some b) :
    ensureConfigMap env clusterAgent secret create w =
      (some (Except.ok (cm, { b with SecretVersion := secret.ResourceVersion })),
        w.issue (Call.get Kind.configMap clusterAgent.Namespace "adam-config")) := by
  unfold ensureConfigMap
  rw [clientGet_found clusterAgent.Namespace "adam-config" w cm hf hcm]
  simp only [readBag, hb]
  rfl

/-- With the bundle stored, `updateMap` in update mode replaces its data by the serialized resolved bag. -/
theorem updateMap_update (env : Env) (cm x : ConfigMap) (clusterAgent : Adam)
    (secret : Secret) (w : World) (t : String)
    (hf : w.faults = [])
    (hcm : w.lookup cm.Namespace cm.Name = some x)
    (hm : env.marshal (env.resolve clusterAgent secret) = some t) :
    updateMap env cm clusterAgent secret false w =
      ((Except.ok (env.resolve clusterAgent secret),
          { cm with Data := [("adam-config.json", t)] }),
        { w.issue (Call.update (Obj.configMap { cm with Data := [("adam-config.json", t)] })) with
          configMaps := replaceObj { cm with Data := [("adam-config.json", t)] } w.configMaps }) := by
  unfold updateMap
  simp only [Bool.false_eq_true, if_false, hm]
  rw [clientUpdate_found { cm with Data := [("adam-config.json", t)] } x w hf
    (by simpa [ApiObject.ns, ApiObject.name] using hcm)]
  rfl

/-- With the custom resource stored, `updateStatus` issues an update and a status update of the refreshed resource. -/
theorem updateStatus_found (env : Env) (clusterAgent x : Adam) (updatedBag : AppDBag)
    (w : World) (hf : w.faults = [])
    (ha : w.lookup clusterAgent.Namespace clusterAgent.Name = some x) :
    (updateStatus env clusterAgent updatedBag w).2.trace = w.trace ++
      [Call.update (Obj.adam (refreshStatus env clusterAgent updatedBag w)),
       Call.statusUpdate (Obj.adam (refreshStatus env clusterAgent updatedBag w))] := by
  have hkey : (refreshStatus env clusterAgent updatedBag w).Namespace = clusterAgent.Namespace ∧
      (refreshStatus env clusterAgent updatedBag w).Name = clusterAgent.Name := by
    unfold refreshStatus
    simp only []
    split <;> simp
  unfold updateStatus
  simp only []
  rw [clientUpdate_found (refreshStatus env clusterAgent updatedBag w) x w hf
    (by simpa [ApiObject.ns, ApiObject.name, hkey.1, hkey.2] using ha)]
  simp only []
  rw [clientStatusUpdate_found (refreshStatus env clusterAgent updatedBag w)
    (refreshStatus env clusterAgent updatedBag w) _
    (by simpa [World.issue, ApiObject.put] using hf)
    (by
      have := find_replaceObj (refreshStatus env clusterAgent updatedBag w) w.adams x
        (by simpa [World.lookup, ApiObject.all, ApiObject.ns, ApiObject.name, hkey.1, hkey.2]
          using ha)
      simpa [World.lookup, World.issue, ApiObject.all, ApiObject.put] using this)]
  simp [World.issue, ApiObject.put, ApiObject.toObj]

/-- The refreshed resource depends on the world through the clock and the agent's reply only. -/
theorem refreshStatus_congr (env : Env) (clusterAgent : Adam) (updatedBag : AppDBag)
    (w w1 : World) (hnow : w.now = w1.now) (hreply : w.agentReply = w1.agentReply) :
    refreshStatus env clusterAgent updatedBag w = refreshStatus env clusterAgent updatedBag w1 := by
  unfold refreshStatus getAgentState
  rw [hnow, hreply]

/-- A pass on a world in which the image is in sync and the stored bundle agrees with the desired state takes the `NoChange` branch; its calls are four reads, the bundle rewrite, and the two writes of the refreshed custom resource. -/
theorem settled_pass (env : Env) (request : Request) (w : World) (a : Adam) (d : Deployment)
    (s : Secret) (cm : ConfigMap) (b : AppDBag) (t : String)
    (hf : w.faults = [])
    (ha : w.lookup request.Namespace request.Name = some a)
    (hd : w.lookup a.Namespace a.Name = some d)
    (hs : w.lookup a.Namespace AGENT_SECRET_NAME = some s)
    (hcm : w.lookup a.Namespace "adam-config" = some cm)
    (hb : env.unmarshal (mapGet cm.Data "adam-config.json") AppDBag.zero = some b)
    (himg : imageInSync a d)
    (hagree : fieldsAgree a b)
    (hm : env.marshal (env.resolve a s) = some t) :
    (Reconcile env request w).1 = some (Result.empty, none) ∧
    (Reconcile env request w).2.trace = w.trace ++
      [Call.get Kind.adam request.Namespace request.Name,
       Call.get Kind.deployment a.Namespace a.Name,
       Call.get Kind.secret a.Namespace AGENT_SECRET_NAME,
       Call.get Kind.configMap a.Namespace "adam-config",
       Call.update (Obj.configMap { cm with Data := [("adam-config.json", t)] }),
       Call.update (Obj.adam (refreshStatus env a (env.resolve a s) w)),
       Call.statusUpdate (Obj.adam (refreshStatus env a (env.resolve a s) w))] := by
  have hakey := key_of_find _ _ _ _ ha
  have hcmkey := key_of_find _ _ _ _ hcm
  simp only [ApiObject.ns, ApiObject.name] at hakey hcmkey
  have e1 := clientGet_found request.Namespace request.Name w a hf ha
  have e2 : (clientGet a.Namespace a.Name (w.issue (Call.get Kind.adam request.Namespace request.Name)) : Except Error Deployment × World) = _ :=
    clientGet_found a.Namespace a.Name _ d (by simpa [World.issue] using hf)
      (by simpa [World.lookup, World.issue, ApiObject.all] using hd)
  simp only [ApiObject.kind] at e1 e2
  unfold Reconcile
  rw [e1]
  simp only []
  rw [e2]
  simp only []
  unfold reconcileExisting
  rw [ensureSecret_found a _ s (by simpa [World.issue] using hf)
      (by simpa [World.lookup, World.issue, ApiObject.all] using hs)]
  simp only []
  rw [ensureConfigMap_found env a s false _ cm b (by simpa [World.issue] using hf)
      (by simpa [World.lookup, World.issue, ApiObject.all] using hcm) hb]
  simp only []
  rw [hasBreakingChanges_of_imageInSync _ _ _ _ himg, restartChecks_of_fieldsAgree _ _ _ hagree]
  simp only []
  rw [updateMap_update env cm cm a s _ t (by simpa [World.issue] using hf)
      (by simpa [World.lookup, World.issue, ApiObject.all, hcmkey.1, hcmkey.2] using hcm) hm]
  simp only [Bool.false_eq_true, if_false]
  refine ⟨trivial, ?_⟩
  rw [updateStatus_found env a a _ _ (by simpa [World.issue] using hf)
      (by simpa [World.lookup, World.issue, ApiObject.all, hakey.1, hakey.2] using ha)]
  simp [World.issue, refreshStatus, getAgentState]

/-- A successful `Update` with no failure injected replaced a stored object. -/
theorem clientUpdate_inv {α : Type} [ApiObject α] (o : α) (w w1 : World)
    (h : clientUpdate o w = (none, w1)) (hf : w.faults = []) :
    w1 = ApiObject.put (w.issue (Call.update (ApiObject.toObj o)))
        (replaceObj o (ApiObject.all (w.issue (Call.update (ApiObject.toObj o))) : List α)) ∧
      ∃ x : α, w.lookup (ApiObject.ns o) (ApiObject.name o) = some x := by
  unfold clientUpdate at h
  simp only [World.faulty, hf, List.not_mem_nil, decide_False, Bool.false_eq_true, if_false] at h
  cases hl : (w.lookup (ApiObject.ns o) (ApiObject.name o) : Option α) with
  | none => rw [hl] at h; simp at h
  | some x =>
    rw [hl] at h
    simp only [Prod.mk.injEq, true_and] at h
    exact ⟨h.symm, x, rfl⟩

/-- A successful `ensureSecret` returns the secret of the pass, leaves it stored, and touches no other kind. -/
theorem ensureSecret_inv (clusterAgent : Adam) (w w1 : World) (s : Secret)
    (h : ensureSecret clusterAgent w = (Except.ok s, w1)) (hf : w.faults = []) :
    s = secretOf w clusterAgent ∧
      w1.lookup clusterAgent.Namespace AGENT_SECRET_NAME = some s ∧
      w1.adams = w.adams ∧ w1.deployments = w.deployments ∧ w1.configMaps = w.configMaps ∧
      w1.faults = [] := by
  unfold ensureSecret at h
  cases hl : (w.lookup clusterAgent.Namespace AGENT_SECRET_NAME : Option Secret) with
  | some s0 =>
    rw [clientGet_found _ _ w s0 hf hl] at h
    simp only [Prod.mk.injEq, Except.ok.injEq] at h
    obtain ⟨rfl, rfl⟩ := h
    refine ⟨by simp [secretOf, hl], ?_, rfl, rfl, rfl, ?_⟩
    · simpa [World.lookup, World.issue, ApiObject.all] using hl
    · simpa [World.issue] using hf
  | none =>
    rw [clientGet_missing _ _ w hf hl] at h
    simp only [if_true] at h
    have hc : clientCreate (emptySecret clusterAgent)
        (w.issue (Call.get Kind.secret clusterAgent.Namespace AGENT_SECRET_NAME)) =
        (none, { w with
          secrets := w.secrets ++ [emptySecret clusterAgent],
          trace := w.trace ++ [Call.get Kind.secret clusterAgent.Namespace AGENT_SECRET_NAME,
            Call.create (Obj.secret (emptySecret clusterAgent))] }) := by
      have hl2 : (w.secrets.find? (hasKey clusterAgent.Namespace AGENT_SECRET_NAME)) = none := by
        simpa [World.lookup, ApiObject.all] using hl
      simp [clientCreate, World.faulty, World.issue, hf, World.lookup, ApiObject.all,
        ApiObject.ns, ApiObject.name, ApiObject.put, ApiObject.toObj, emptySecret, hl2]
    simp only [ApiObject.kind] at h
    rw [hc] at h
    simp only [] at h
    have hfind : (w.secrets ++ [emptySecret clusterAgent]).find?
        (hasKey clusterAgent.Namespace AGENT_SECRET_NAME) = some (emptySecret clusterAgent) := by
      apply find_append_new
      · simpa [World.lookup, ApiObject.all] using hl
      · simp [hasKey, emptySecret, ApiObject.ns, ApiObject.name]
    rw [clientGet_found _ _ _ (emptySecret clusterAgent) (by simpa using hf)
      (by simpa [World.lookup, ApiObject.all] using hfind)] at h
    simp only [Prod.mk.injEq, Except.ok.injEq] at h
    obtain ⟨rfl, rfl⟩ := h
    refine ⟨by simp [secretOf, hl], ?_, rfl, rfl, rfl, ?_⟩
    · simpa [World.lookup, World.issue, ApiObject.all] using hfind
    · simpa [World.issue] using hf

/-- A successful `Create` appended the object. -/
theorem clientCreate_inv {α : Type} [ApiObject α] (o : α) (w w1 : World)
    (h : clientCreate o w = (none, w1)) :
    w1 = ApiObject.put (w.issue (Call.create (ApiObject.toObj o)))
        ((ApiObject.all (w.issue (Call.create (ApiObject.toObj o))) : List α) ++ [o]) := by
  unfold clientCreate at h
  by_cases hfa : w.faulty = true
  · simp [hfa] at h
  · simp only [hfa, Bool.false_eq_true, if_false] at h
    cases hl : (w.lookup (ApiObject.ns o) (ApiObject.name o) : Option α) with
    | some x => rw [hl] at h; simp at h
    | none =>
      rw [hl] at h
      simp only [Prod.mk.injEq, true_and] at h
      exact h.symm

/-- A successful `updateMap` in update mode leaves the bundle stored with the serialized resolved bag and touches no other kind. -/
theorem updateMap_inv (env : Env) (cm cm1 : ConfigMap) (clusterAgent : Adam) (secret : Secret)
    (w w1 : World) (b : AppDBag)
    (h : updateMap env cm clusterAgent secret false w = ((Except.ok b, cm1), w1))
    (hf : w.faults = []) :
    ∃ t, env.marshal (env.resolve clusterAgent secret) = some t ∧
      w1.lookup cm.Namespace cm.Name = some { cm with Data := [("adam-config.json", t)] } ∧
      w1.adams = w.adams ∧ w1.deployments = w.deployments ∧ w1.secrets = w.secrets ∧
      w1.faults = [] := by
  unfold updateMap at h
  simp only [Bool.false_eq_true, if_false] at h
  cases hm : env.marshal (env.resolve clusterAgent secret) with
  | none => rw [hm] at h; simp at h
  | some t =>
    rw [hm] at h
    simp only [] at h
    cases hu : clientUpdate { cm with Data := [("adam-config.json", t)] } w with
    | mk e w2 =>
      rw [hu] at h
      cases e with
      | some e0 => simp at h
      | none =>
        simp only [Prod.mk.injEq, Except.ok.injEq] at h
        obtain ⟨⟨-, -⟩, rfl⟩ := h
        obtain ⟨hw, x, hx⟩ := clientUpdate_inv _ _ _ hu hf
        subst hw
        refine ⟨t, rfl, ?_, rfl, rfl, rfl, ?_⟩
        · have := find_replaceObj ({ cm with Data := [("adam-config.json", t)] } : ConfigMap)
            w.configMaps x (by simpa [World.lookup, ApiObject.all, ApiObject.ns, ApiObject.name] using hx)
          simpa [World.lookup, World.issue, ApiObject.all, ApiObject.put, ApiObject.ns,
            ApiObject.name] using this
        · simpa [World.issue, ApiObject.put] using hf

/-- A `Create` records the call and at most appends the object. -/
theorem clientCreate_frame {α : Type} [ApiObject α] (o : α) (w : World) :
    (clientCreate o w).2 = w.issue (Call.create (ApiObject.toObj o)) ∨
    (clientCreate o w).2 = ApiObject.put (w.issue (Call.create (ApiObject.toObj o)))
      ((ApiObject.all (w.issue (Call.create (ApiObject.toObj o))) : List α) ++ [o]) := by
  unfold clientCreate
  by_cases hfa : w.faulty = true
  · simp [hfa]
  · simp only [hfa, Bool.false_eq_true, if_false]
    cases (w.lookup (ApiObject.ns o) (ApiObject.name o) : Option α) with
    | none => simp
    | some x => simp

/-- An `Update` records the call and at most replaces the object. -/
theorem clientUpdate_frame {α : Type} [ApiObject α] (o : α) (w : World) :
    (clientUpdate o w).2 = w.issue (Call.update (ApiObject.toObj o)) ∨
    (clientUpdate o w).2 = ApiObject.put (w.issue (Call.update (ApiObject.toObj o)))
      (replaceObj o (ApiObject.all (w.issue (Call.update (ApiObject.toObj o))) : List α)) := by
  unfold clientUpdate
  by_cases hfa : w.faulty = true
  · simp [hfa]
  · simp only [hfa, Bool.false_eq_true, if_false]
    cases (w.lookup (ApiObject.ns o) (ApiObject.name o) : Option α) with
    | none => simp
    | some x => simp

/-- Whatever its outcome, `updateMap` keeps the key of the bundle and touches no other kind. -/
theorem updateMap_frame (env : Env) (cm : ConfigMap) (clusterAgent : Adam) (secret : Secret)
    (create : Bool) (w : World) :
    (updateMap env cm clusterAgent secret create w).1.2.Name = cm.Name ∧
      (updateMap env cm clusterAgent secret create w).1.2.Namespace = cm.Namespace ∧
      (updateMap env cm clusterAgent secret create w).2.adams = w.adams ∧
      (updateMap env cm clusterAgent secret create w).2.deployments = w.deployments ∧
      (updateMap env cm clusterAgent secret create w).2.secrets = w.secrets ∧
      (updateMap env cm clusterAgent secret create w).2.faults = w.faults := by
  unfold updateMap
  simp only []
  split
  · simp
  · rename_i data _
    cases create with
    | true =>
      simp only [if_true]
      have hfr := clientCreate_frame ({ cm with Data := [("adam-config.json", data)] } : ConfigMap) w
      cases hc : clientCreate ({ cm with Data := [("adam-config.json", data)] } : ConfigMap) w with
      | mk e w2 =>
        rw [hc] at hfr
        simp only [] at hfr
        cases e <;> rcases hfr with rfl | rfl <;> simp [World.issue, ApiObject.put]
    | false =>
      simp only [Bool.false_eq_true, if_false]
      have hfr := clientUpdate_frame ({ cm with Data := [("adam-config.json", data)] } : ConfigMap) w
      cases hc : clientUpdate ({ cm with Data := [("adam-config.json", data)] } : ConfigMap) w with
      | mk e w2 =>
        rw [hc] at hfr
        simp only [] at hfr
        cases e <;> rcases hfr with rfl | rfl <;> simp [World.issue, ApiObject.put]

/-- A successful `ensureConfigMap` returns a bundle with the fixed key and touches no other kind. -/
theorem ensureConfigMap_inv (env : Env) (clusterAgent : Adam) (secret : Secret) (create : Bool)
    (w w1 : World) (cm : ConfigMap) (bag : AppDBag)
    (h : ensureConfigMap env clusterAgent secret create w = (some (Except.ok (cm, bag)), w1))
    (hf : w.faults = []) :
    cm.Namespace = clusterAgent.Namespace ∧ cm.Name = "adam-config" ∧
      w1.adams = w.adams ∧ w1.deployments = w.deployments ∧ w1.secrets = w.secrets ∧
      w1.faults = [] := by
  unfold ensureConfigMap at h
  cases hl : (w.lookup clusterAgent.Namespace "adam-config" : Option ConfigMap) with
  | some cm0 =>
    rw [clientGet_found _ _ w cm0 hf hl] at h
    simp only [] at h
    cases hr : readBag env cm0 AppDBag.zero secret with
    | none => rw [hr] at h; simp at h
    | some r0 =>
    cases r0 with
    | error e => rw [hr] at h; simp at h
    | ok b0 =>
      rw [hr] at h
      simp only [Prod.mk.injEq, Option.some.injEq, Except.ok.injEq] at h
      obtain ⟨⟨rfl, -⟩, rfl⟩ := h
      have hk := key_of_find _ _ _ _ hl
      simp only [ApiObject.ns, ApiObject.name] at hk
      exact ⟨hk.1, hk.2, rfl, rfl, rfl, by simpa [World.issue] using hf⟩
  | none =>
    rw [clientGet_missing _ _ w hf hl] at h
    simp only [ne_eq, not_true_eq_false, if_false] at h
    have hfr := updateMap_frame env
      { ConfigMap.zero with Name := "adam-config", Namespace := clusterAgent.Namespace }
      clusterAgent secret true
      (w.issue (Call.get (ApiObject.kind ConfigMap) clusterAgent.Namespace "adam-config"))
    cases hu : updateMap env
      { ConfigMap.zero with Name := "adam-config", Namespace := clusterAgent.Namespace }
      clusterAgent secret true
      (w.issue (Call.get (ApiObject.kind ConfigMap) clusterAgent.Namespace "adam-config")) with
    | mk r w2 =>
      rw [hu] at h hfr
      obtain ⟨e, cm1⟩ := r
      simp only [] at hfr
      cases e with
      | error e0 => simp at h
      | ok created =>
        simp only [] at h
        cases hr : readBag env cm1 created secret with
        | none => rw [hr] at h; simp at h
        | some r0 =>
        cases r0 with
        | error e => rw [hr] at h; simp at h
        | ok b0 =>
          rw [hr] at h
          simp only [Prod.mk.injEq, Option.some.injEq, Except.ok.injEq] at h
          obtain ⟨⟨rfl, -⟩, rfl⟩ := h
          obtain ⟨h1, h2, h3, h4, h5, h6⟩ := hfr
          refine ⟨h2, h1, ?_, ?_, ?_, ?_⟩
          · simpa [World.issue] using h3
          · simpa [World.issue] using h4
          · simpa [World.issue] using h5
          · simpa [World.issue, hf] using h6

/-- A `Delete` records the call and at most removes the object. -/
theorem clientDelete_frame {α : Type} [ApiObject α] (o : α) (w : World) :
    (clientDelete o w).2 = w.issue (Call.delete (ApiObject.toObj o)) ∨
    (clientDelete o w).2 = ApiObject.put (w.issue (Call.delete (ApiObject.toObj o)))
      ((ApiObject.all (w.issue (Call.delete (ApiObject.toObj o))) : List α).filter
        (fun x => !hasKey (ApiObject.ns o) (ApiObject.name o) x)) := by
  unfold clientDelete
  by_cases hfa : w.faulty = true
  · simp [hfa]
  · simp only [hfa, Bool.false_eq_true, if_false]
    cases (w.lookup (ApiObject.ns o) (ApiObject.name o) : Option α) with
    | none => simp
    | some x => simp

/-- Whatever its outcome, `restartAgent` touches pods only. -/
theorem restartAgent_frame (clusterAgent : Adam) (w : World) :
    (restartAgent clusterAgent w).2.adams = w.adams ∧
      (restartAgent clusterAgent w).2.deployments = w.deployments ∧
      (restartAgent clusterAgent w).2.secrets = w.secrets ∧
      (restartAgent clusterAgent w).2.configMaps = w.configMaps ∧
      (restartAgent clusterAgent w).2.faults = w.faults := by
  unfold restartAgent
  cases hl : clientListPods clusterAgent.Namespace (labelsForClusteragent clusterAgent) w with
  | mk r w1 =>
    have hw1 : w1 = w.issue (Call.list clusterAgent.Namespace (labelsForClusteragent clusterAgent)) := by
      unfold clientListPods at hl
      by_cases hfa : w.faulty = true
      · simp [hfa] at hl; exact hl.2.symm
      · simp [hfa] at hl; exact hl.2.symm
    subst hw1
    cases r with
    | error e => simp [World.issue]
    | ok pods =>
      cases pods with
      | nil => simp [World.issue]
      | cons pod rest =>
        simp only []
        have hd := clientDelete_frame pod
          (w.issue (Call.list clusterAgent.Namespace (labelsForClusteragent clusterAgent)))
        cases hc : clientDelete pod
            (w.issue (Call.list clusterAgent.Namespace (labelsForClusteragent clusterAgent))) with
        | mk e w2 =>
          rw [hc] at hd
          simp only [] at hd
          cases e with
          | some e0 =>
            rcases hd with rfl | rfl <;> simp [World.issue, ApiObject.put]
          | none =>
            rcases hd with rfl | rfl <;> simp [World.issue, ApiObject.put]

/-- The status refresh keeps the key and the spec of the custom resource. -/
theorem refreshStatus_fields (env : Env) (clusterAgent : Adam) (updatedBag : AppDBag)
    (w : World) :
    (refreshStatus env clusterAgent updatedBag w).Namespace = clusterAgent.Namespace ∧
      (refreshStatus env clusterAgent updatedBag w).Name = clusterAgent.Name ∧
      (refreshStatus env clusterAgent updatedBag w).Spec = clusterAgent.Spec := by
  unfold refreshStatus
  simp only []
  split <;> simp

/-- With the custom resource stored, `updateStatus` leaves the refreshed resource stored and touches no other kind. -/
theorem updateStatus_post (env : Env) (clusterAgent x : Adam) (updatedBag : AppDBag)
    (w : World) (hf : w.faults = [])
    (ha : w.lookup clusterAgent.Namespace clusterAgent.Name = some x) :
    (updateStatus env clusterAgent updatedBag w).2.lookup clusterAgent.Namespace
        clusterAgent.Name = some (refreshStatus env clusterAgent updatedBag w) ∧
      (updateStatus env clusterAgent updatedBag w).2.deployments = w.deployments ∧
      (updateStatus env clusterAgent updatedBag w).2.secrets = w.secrets ∧
      (updateStatus env clusterAgent updatedBag w).2.configMaps = w.configMaps ∧
      (updateStatus env clusterAgent updatedBag w).2.faults = [] := by
  obtain ⟨hns, hname, -⟩ := refreshStatus_fields env clusterAgent updatedBag w
  have h1 := find_replaceObj (refreshStatus env clusterAgent updatedBag w) w.adams x
    (by simpa [World.lookup, ApiObject.all, ApiObject.ns, ApiObject.name, hns, hname] using ha)
  have h1k : (replaceObj (refreshStatus env clusterAgent updatedBag w) w.adams).find?
      (hasKey clusterAgent.Namespace clusterAgent.Name) =
      some (refreshStatus env clusterAgent updatedBag w) := by
    simpa [ApiObject.ns, ApiObject.name, hns, hname] using h1
  have h2 := find_replaceObj (refreshStatus env clusterAgent updatedBag w) _ _ h1
  have h2k : (replaceObj (refreshStatus env clusterAgent updatedBag w)
      (replaceObj (refreshStatus env clusterAgent updatedBag w) w.adams)).find?
      (hasKey clusterAgent.Namespace clusterAgent.Name) =
      some (refreshStatus env clusterAgent updatedBag w) := by
    simpa [ApiObject.ns, ApiObject.name, hns, hname] using h2
  unfold updateStatus
  simp only []
  rw [clientUpdate_found (refreshStatus env clusterAgent updatedBag w) x w hf
    (by simpa [ApiObject.ns, ApiObject.name, hns, hname] using ha)]
  simp only []
  rw [clientStatusUpdate_found (refreshStatus env clusterAgent updatedBag w)
    (refreshStatus env clusterAgent updatedBag w) _
    (by simpa [World.issue, ApiObject.put] using hf)
    (by simpa [World.lookup, World.issue, ApiObject.all, ApiObject.put] using h1)]
  refine ⟨?_, rfl, rfl, rfl, ?_⟩
  · simpa [World.lookup, World.issue, ApiObject.all, ApiObject.put] using h2k
  · simpa [World.issue, ApiObject.put] using hf

/-- What a result of the classifier says about its inputs: the returned deployment has the key of the live one and the image in sync, is the live one unless an update is asked for, and a restart never comes with an update. -/
theorem hasBreakingChanges_inv (clusterAgent : Adam) (bag : AppDBag) (d patched : Deployment)
    (secret : Secret) (breaking updateDeployment : Bool)
    (h : hasBreakingChanges clusterAgent bag d secret =
      some ((breaking, updateDeployment), patched)) :
    patched.Namespace = d.Namespace ∧ patched.Name = d.Name ∧
      imageInSync clusterAgent patched ∧
      (updateDeployment = false → patched = d) ∧
      (breaking = true → updateDeployment = false) := by
  unfold hasBreakingChanges at h
  by_cases himg : clusterAgent.Spec.Image = ""
  · simp only [himg, ne_eq, not_true_eq_false, if_false, Option.some.injEq, Prod.mk.injEq] at h
    obtain ⟨hv, rfl⟩ := h
    rw [restartChecks_eq] at hv
    simp only [Prod.mk.injEq] at hv
    exact ⟨rfl, rfl, Or.inl himg, fun _ => rfl, fun _ => hv.2.symm⟩
  · simp only [ne_eq, himg, not_false_eq_true, if_true] at h
    cases hc : d.Containers with
    | nil => rw [hc] at h; simp at h
    | cons c rest =>
      rw [hc] at h
      simp only [] at h
      by_cases hci : c.Image = clusterAgent.Spec.Image
      · simp only [hci, not_true_eq_false, if_false, Option.some.injEq, Prod.mk.injEq] at h
        obtain ⟨hv, rfl⟩ := h
        rw [restartChecks_eq] at hv
        simp only [Prod.mk.injEq] at hv
        exact ⟨rfl, rfl, Or.inr ⟨c, rest, hc, hci⟩, fun _ => rfl, fun _ => hv.2.symm⟩
      · simp only [hci, not_false_eq_true, if_true, Option.some.injEq, Prod.mk.injEq] at h
        obtain ⟨⟨rfl, rfl⟩, rfl⟩ := h
        refine ⟨rfl, rfl, Or.inr ⟨_, rest, rfl, rfl⟩, ?_, ?_⟩
        · intro hcontra; simp at hcontra
        · intro hcontra; simp at hcontra

/-- After a successful pass of the steady path with no failure injected, the custom resource is stored with its spec unchanged, the Deployment is stored with the image in sync, the secret of the pass is stored, and the bundle holds the serialization of the bag resolved in that pass. -/
theorem pass_settles (env : Env) (request : Request) (w w1 : World) (a : Adam)
    (d : Deployment) (res : Result)
    (hf : w.faults = [])
    (ha : w.lookup request.Namespace request.Name = some a)
    (hd : w.lookup a.Namespace a.Name = some d)
    (hrun : Reconcile env request w = (some (res, none), w1)) :
    w1.faults = [] ∧
      (∃ a1 : Adam, w1.lookup a.Namespace a.Name = some a1 ∧ a1.Spec = a.Spec) ∧
      (∃ d1 : Deployment, w1.lookup a.Namespace a.Name = some d1 ∧ imageInSync a d1) ∧
      w1.lookup a.Namespace AGENT_SECRET_NAME = some (secretOf w a) ∧
      (∃ (cm : ConfigMap) (t : String), w1.lookup a.Namespace "adam-config" = some cm ∧
        mapGet cm.Data "adam-config.json" = t ∧
        env.marshal (env.resolve a (secretOf w a)) = some t) := by
  have hakey := key_of_find _ _ _ _ ha
  have hdkey := key_of_find _ _ _ _ hd
  simp only [ApiObject.ns, ApiObject.name] at hakey hdkey
  have ha' : w.lookup a.Namespace a.Name = some a := by rw [hakey.1, hakey.2]; exact ha
  have e1 := clientGet_found request.Namespace request.Name w a hf ha
  have e2 : (clientGet a.Namespace a.Name
      (w.issue (Call.get Kind.adam request.Namespace request.Name)) :
      Except Error Deployment × World) = _ :=
    clientGet_found a.Namespace a.Name _ d (by simpa [World.issue] using hf)
      (by simpa [World.lookup, World.issue, ApiObject.all] using hd)
  simp only [ApiObject.kind] at e1 e2
  unfold Reconcile at hrun
  rw [e1] at hrun
  simp only [] at hrun
  rw [e2] at hrun
  simp only [] at hrun
  unfold reconcileExisting at hrun
  -- the world after the two reads
  generalize hw0 : ((w.issue (Call.get Kind.adam request.Namespace request.Name)).issue
    (Call.get Kind.deployment a.Namespace a.Name)) = w0 at hrun
  have hf0 : w0.faults = [] := by subst hw0; simpa [World.issue] using hf
  have hA0 : w0.adams = w.adams := by subst hw0; rfl
  have hD0 : w0.deployments = w.deployments := by subst hw0; rfl
  have hS0 : w0.secrets = w.secrets := by subst hw0; rfl
  have hsec0 : secretOf w0 a = secretOf w a := by
    simp [secretOf, World.lookup, ApiObject.all, hS0]
  cases hes : ensureSecret a w0 with
  | mk r1 w2 =>
    rw [hes] at hrun
    cases r1 with
    | error e => simp at hrun
    | ok s =>
      simp only [] at hrun
      obtain ⟨hs, hslook, hA2, hD2, -, hf2⟩ := ensureSecret_inv a w0 w2 s hes hf0
      rw [hsec0] at hs
      subst hs
      cases hec : ensureConfigMap env a (secretOf w a) false w2 with
      | mk r2 w3 =>
        rw [hec] at hrun
        cases r2 with
        | none => simp at hrun
        | some r2 =>
        cases r2 with
        | error e => simp at hrun
        | ok cmbag =>
          obtain ⟨cm, bag⟩ := cmbag
          simp only [] at hrun
          obtain ⟨hcmns, hcmname, hA3, hD3, hS3, hf3⟩ :=
            ensureConfigMap_inv env a (secretOf w a) false w2 w3 cm bag hec hf2
          cases hbc : hasBreakingChanges a bag d (secretOf w a) with
          | none => rw [hbc] at hrun; simp at hrun
          | some v =>
            obtain ⟨⟨breaking, updateDeployment⟩, patched⟩ := v
            rw [hbc] at hrun
            simp only [] at hrun
            obtain ⟨hpns, hpname, hpimg, hpsame, hbu⟩ :=
              hasBreakingChanges_inv a bag d patched (secretOf w a) breaking updateDeployment hbc
            cases hum : updateMap env cm a (secretOf w a) false w3 with
            | mk r3 w4 =>
              rw [hum] at hrun
              obtain ⟨e3, cm1⟩ := r3
              cases e3 with
              | error e => simp at hrun
              | ok updatedBag =>
                simp only [] at hrun
                obtain ⟨t, hmar, hcmlook, hA4, hD4, hS4, hf4⟩ :=
                  updateMap_inv env cm cm1 a (secretOf w a) w3 w4 updatedBag hum hf3
                -- facts about the world before the last step
                have hAlook : w4.lookup a.Namespace a.Name = some a := by
                  simpa [World.lookup, ApiObject.all, hA4, hA3, hA2, hA0] using ha'
                have hDlook : w4.lookup a.Namespace a.Name = some d := by
                  simpa [World.lookup, ApiObject.all, hD4, hD3, hD2, hD0] using hd
                have hSlook : w4.lookup a.Namespace AGENT_SECRET_NAME = some (secretOf w a) := by
                  simpa [World.lookup, ApiObject.all, hS4, hS3] using hslook
                have hCfind : w4.configMaps.find? (hasKey a.Namespace "adam-config") =
                    some { cm with Data := [("adam-config.json", t)] } := by
                  simpa [World.lookup, ApiObject.all, hcmns, hcmname] using hcmlook
                cases breaking with
                | true =>
                  simp only [if_true] at hrun
                  have hfr := restartAgent_frame a w4
                  cases hra : restartAgent a w4 with
                  | mk e w5 =>
                    rw [hra] at hrun hfr
                    simp only [] at hfr
                    obtain ⟨hA5, hD5, hS5, hC5, hF5⟩ := hfr
                    cases e with
                    | some e0 => simp at hrun
                    | none =>
                      simp only [Prod.mk.injEq] at hrun
                      obtain ⟨-, rfl⟩ := hrun
                      have hsame := hpsame (hbu rfl)
                      subst hsame
                      refine ⟨by rw [hF5, hf4], ⟨a, ?_, rfl⟩, ⟨patched, ?_, hpimg⟩, ?_,
                        ⟨{ cm with Data := [("adam-config.json", t)] }, t, ?_, by simp [mapGet], hmar⟩⟩
                      · simpa [World.lookup, ApiObject.all, hA5] using hAlook
                      · simpa [World.lookup, ApiObject.all, hD5] using hDlook
                      · simpa [World.lookup, ApiObject.all, hS5] using hSlook
                      · simpa [World.lookup, ApiObject.all, hC5] using hCfind
                | false =>
                  simp only [Bool.false_eq_true, if_false] at hrun
                  cases updateDeployment with
                  | true =>
                    simp only [if_true] at hrun
                    cases hcu : clientUpdate patched w4 with
                    | mk e w5 =>
                      rw [hcu] at hrun
                      cases e with
                      | some e0 => simp at hrun
                      | none =>
                        simp only [Prod.mk.injEq] at hrun
                        obtain ⟨-, rfl⟩ := hrun
                        obtain ⟨hw5, x, hx⟩ := clientUpdate_inv patched w4 _ hcu hf4
                        have hfind := find_replaceObj patched w4.deployments x
                          (by simpa [World.lookup, ApiObject.all] using hx)
                        simp only [ApiObject.ns, ApiObject.name, hpns, hpname, hdkey.1,
                          hdkey.2] at hfind
                        subst hw5
                        refine ⟨by simpa [World.issue, ApiObject.put] using hf4, ⟨a, ?_, rfl⟩,
                          ⟨patched, ?_, hpimg⟩, ?_, ⟨{ cm with Data := [("adam-config.json", t)] }, t, ?_, by simp [mapGet], hmar⟩⟩
                        · simpa [World.lookup, World.issue, ApiObject.all, ApiObject.put]
                            using hAlook
                        · simpa [World.lookup, World.issue, ApiObject.all, ApiObject.put]
                            using hfind
                        · simpa [World.lookup, World.issue, ApiObject.all, ApiObject.put]
                            using hSlook
                        · simpa [World.lookup, World.issue, ApiObject.all, ApiObject.put]
                            using hCfind
                  | false =>
                    simp only [Bool.false_eq_true, if_false, Prod.mk.injEq] at hrun
                    obtain ⟨-, rfl⟩ := hrun
                    have hsame := hpsame rfl
                    subst hsame
                    obtain ⟨hA5, hD5, hS5, hC5, hF5⟩ :=
                      updateStatus_post env a a updatedBag w4 hf4 hAlook
                    refine ⟨hF5, ⟨_, hA5, (refreshStatus_fields env a updatedBag w4).2.2⟩,
                      ⟨patched, ?_, hpimg⟩, ?_, ⟨{ cm with Data := [("adam-config.json", t)] }, t, ?_, by simp [mapGet], hmar⟩⟩
                    · simpa [World.lookup, ApiObject.all, hD5] using hDlook
                    · simpa [World.lookup, ApiObject.all, hS5] using hSlook
                    · simpa [World.lookup, ApiObject.all, hC5] using hCfind

/-- Agreement with a snapshot depends on the spec only. -/
theorem fieldsAgree_congr (a a1 : Adam) (b : AppDBag) (h : a1.Spec = a.Spec) :
    fieldsAgree a b → fieldsAgree a1 b := by
  unfold fieldsAgree
  rw [h]
  exact id

/-- Whether the image is in sync depends on the spec only. -/
theorem imageInSync_congr (a a1 : Adam) (d : Deployment) (h : a1.Spec = a.Spec) :
    imageInSync a d → imageInSync a1 d := by
  unfold imageInSync
  rw [h]
  exact id

/-- C2 (the code at the failing input): the stored bundle carries the version stamp `1`,
the secret is at revision `2`, every compared field and the image agree; the pass
returns the empty result with no error, issues no delete and leaves the pod in place. -/
theorem rotated_secret_pass_deletes_no_pod :
    (sampleUnmarshal (mapGet (sampleBundle "1").Data "adam-config.json") AppDBag.zero).map
        AppDBag.SecretVersion = some "1" ∧
    sampleSecret.ResourceVersion = "2" ∧
    (Reconcile sampleEnv sampleRequest (steadyWorld "1")).1 = some (Result.empty, none) ∧
    (Reconcile sampleEnv sampleRequest (steadyWorld "1")).2.trace.any Call.isDelete = false ∧
    (Reconcile sampleEnv sampleRequest (steadyWorld "1")).2.pods = [samplePod] := by
  decide

/-- C9 (as stated) fails: on the steady sample cluster the first pass gives `NoChange`,
and the second pass, run on the world the first one left, gives `NoChange` again but
writes the custom resource twice (an update and a status update) besides the bundle. -/
theorem second_pass_writes_status_counterexample :
    (Reconcile sampleEnv sampleRequest (steadyWorld "2")).1 = some (Result.empty, none) ∧
    (Reconcile sampleEnv sampleRequest
      (nextPass (Reconcile sampleEnv sampleRequest (steadyWorld "2")).2)).1 =
        some (Result.empty, none) ∧
    (Reconcile sampleEnv sampleRequest
      (nextPass (Reconcile sampleEnv sampleRequest (steadyWorld "2")).2)).2.writes =
        [Call.update (Obj.configMap (sampleBundle "2")),
         Call.update (Obj.adam
           { sampleAgent with Status := { sampleAgent.Status with LastUpdateTime := 7 } }),
         Call.statusUpdate (Obj.adam
           { sampleAgent with Status := { sampleAgent.Status with LastUpdateTime := 7 } })] := by
  decide

/-- C9 (amended): when a pass of the steady path (custom resource and Deployment exist)
succeeds without API failures and is run again on the world it left, the second pass
takes the `NoChange` branch (empty result, no error), provided the bundle written for
the desired state reads back as a snapshot that agrees with the desired state on the
compared fields; the writes of the second pass are the rewrite of the bundle
`adam-config` followed by an update and a status update of the custom resource, whose
spec is unchanged. -/
theorem second_pass_noChange (env : Env) (request : Request) (w w1 : World) (a : Adam)
    (d : Deployment) (res : Result)
    (hf : w.faults = [])
    (ha : w.lookup request.Namespace request.Name = some a)
    (hd : w.lookup a.Namespace a.Name = some d)
    (hrun : Reconcile env request w = (some (res, none), w1))
    (hmarshal : ∀ b, ∃ t, env.marshal b = some t)
    (hread : ∀ t, env.marshal (env.resolve a (secretOf w a)) = some t →
      ∃ b, env.unmarshal t AppDBag.zero = some b ∧ fieldsAgree a b) :
    (Reconcile env request (nextPass w1)).1 = some (Result.empty, none) ∧
      ∃ (cm : ConfigMap) (a1 : Adam), cm.Name = "adam-config" ∧ cm.Namespace = a.Namespace ∧
        a1.Name = a.Name ∧ a1.Namespace = a.Namespace ∧ a1.Spec = a.Spec ∧
        (Reconcile env request (nextPass w1)).2.writes =
          [Call.update (Obj.configMap cm), Call.update (Obj.adam a1),
           Call.statusUpdate (Obj.adam a1)] := by
  obtain ⟨hf1, ⟨a1, ha1, hspec⟩, ⟨d1, hd1, himg⟩, hs1, ⟨cm, t, hcm1, hdata, hmar⟩⟩ :=
    pass_settles env request w w1 a d res hf ha hd hrun
  obtain ⟨b, hb, hagree⟩ := hread t hmar
  obtain ⟨t2, hm2⟩ := hmarshal (env.resolve a1 (secretOf w a))
  have hakey := key_of_find _ _ _ _ ha
  have ha1key := key_of_find _ _ _ _ ha1
  have hcmkey := key_of_find _ _ _ _ hcm1
  simp only [ApiObject.ns, ApiObject.name] at hakey ha1key hcmkey
  have hpass := settled_pass env request (nextPass w1) a1 d1 (secretOf w a) cm b t2
    (by simpa [nextPass] using hf1)
    (by simpa [nextPass, World.lookup, ApiObject.all, hakey.1, hakey.2] using ha1)
    (by simpa [nextPass, World.lookup, ApiObject.all, ha1key.1, ha1key.2] using hd1)
    (by simpa [nextPass, World.lookup, ApiObject.all, ha1key.1] using hs1)
    (by simpa [nextPass, World.lookup, ApiObject.all, ha1key.1] using hcm1)
    (by rw [hdata]; exact hb)
    (imageInSync_congr a a1 d1 hspec himg)
    (fieldsAgree_congr a a1 b hspec hagree)
    hm2
  refine ⟨hpass.1, { cm with Data := [("adam-config.json", t2)] },
    refreshStatus env a1 (env.resolve a1 (secretOf w a)) (nextPass w1), hcmkey.2, hcmkey.1, ?_, ?_,
    ?_, ?_⟩
  · rw [(refreshStatus_fields env a1 _ _).2.1]; exact ha1key.2
  · rw [(refreshStatus_fields env a1 _ _).1]; exact ha1key.1
  · rw [(refreshStatus_fields env a1 _ _).2.2]; exact hspec
  · unfold World.writes
    rw [hpass.2]
    simp [nextPass, Call.isWrite]

/-- Witness of C9 (amended) on the steady sample cluster. -/
theorem second_pass_noChange_witness :
    (Reconcile sampleEnv sampleRequest
        (nextPass (Reconcile sampleEnv sampleRequest (steadyWorld "2")).2)).1 =
        some (Result.empty, none) ∧
      ∃ (cm : ConfigMap) (a1 : Adam), cm.Name = "adam-config" ∧
        cm.Namespace = sampleAgent.Namespace ∧
        a1.Name = sampleAgent.Name ∧ a1.Namespace = sampleAgent.Namespace ∧
        a1.Spec = sampleAgent.Spec ∧
        (Reconcile sampleEnv sampleRequest
          (nextPass (Reconcile sampleEnv sampleRequest (steadyWorld "2")).2)).2.writes =
          [Call.update (Obj.configMap cm), Call.update (Obj.adam a1),
           Call.statusUpdate (Obj.adam a1)] :=
  second_pass_noChange sampleEnv sampleRequest (steadyWorld "2")
    (Reconcile sampleEnv sampleRequest (steadyWorld "2")).2 sampleAgent
    (sampleDeploymentWith "agent:1.1") Result.empty rfl (by decide) (by decide)
    (Prod.ext (by decide) rfl) (fun b => ⟨_, rfl⟩)
    (fun t ht => by
      have ht2 : "2\nhttp://controller:8090\ncustomer1\n\nK8s-Cluster-Agent\n\n\ncertY" = t :=
        Option.some.inj ht
      subst ht2
      exact ⟨_, rfl, by decide⟩)

end adam

namespace clustercollector

/-- The method `Init` when the Deployment exists and the read does not fail. -/
theorem Init_found (env : Env) (c : clusterCollectorController) (w : World) (dep : Deployment)
    (hf : w.faults = [])
    (hdep : w.lookup c.clusterCollector.Namespace c.clusterCollector.Name = some dep) :
    clusterCollectorController.Init env c w =
      (((false, none), { c with deployment := dep }),
        w.issue (Call.get Kind.deployment c.clusterCollector.Namespace c.clusterCollector.Name)) := by
  unfold clusterCollectorController.Init
  rw [clientGet_found c.clusterCollector.Namespace c.clusterCollector.Name w dep hf hdep]
  rfl

/-- The driver on the cluster collector controller when the Deployment exists and the
verdict is `NoChange`: no requeue is asked for, no error is returned, the only call is
the read of the Deployment, and the custom resource and the world are the ones the
status refresh leaves. -/
theorem ensureClusterCollectors_noChange (env : Env) (cc : Clustercollector) (w : World)
    (dep : Deployment)
    (hf : w.faults = [])
    (hdep : w.lookup cc.Namespace cc.Name = some dep)
    (hverdict : (env.hasBreakingChanges cc { dep with Owner := some cc.Name }).1 = (false, false)) :
    (ensureClusterCollectors (clusterController env) (NewClusterCollectorController cc) cc w).1.1 =
        (false, none) ∧
      (ensureClusterCollectors (clusterController env) (NewClusterCollectorController cc) cc
          w).1.2.clusterCollector =
        (env.updateStatus cc (w.issue (Call.get Kind.deployment cc.Namespace cc.Name))).1.2 ∧
      (ensureClusterCollectors (clusterController env) (NewClusterCollectorController cc) cc w).2 =
        (env.updateStatus cc (w.issue (Call.get Kind.deployment cc.Namespace cc.Name))).2 := by
  have hinit := Init_found env (NewClusterCollectorController cc) w dep hf hdep
  cases hv : env.hasBreakingChanges cc { dep with Owner := some cc.Name } with
  | mk v patched =>
    rw [hv] at hverdict
    simp only [] at hverdict
    subst hverdict
    simp only [ensureClusterCollectors, clusterController]
    rw [hinit]
    simp only [NewClusterCollectorController, clusterCollectorController.Update, hv,
      Bool.false_eq_true, if_false]
    cases hs : env.updateStatus cc (w.issue (Call.get Kind.deployment cc.Namespace cc.Name)) with
    | mk r w1 =>
      obtain ⟨e, cc1⟩ := r
      simp

end clustercollector

/-! ## The steps of a pass -/

namespace adam

/-- A pass that reaches the verdict ends as the branch on the verdict says. -/
theorem Reconcile_of_steadyDecision (env : Env) (request : Request) (w : World) (x : Decision)
    (h : steadyDecision env request w = some x) :
    Reconcile env request w = steadyTail env x := by
  unfold steadyDecision at h
  unfold Reconcile
  cases h1 : (clientGet request.Namespace request.Name w : Except Error Adam × World) with
  | mk r1 w1 =>
    rw [h1] at h
    cases r1 with
    | error e => simp at h
    | ok a =>
      simp only [] at h ⊢
      cases h2 : (clientGet a.Namespace a.Name w1 : Except Error Deployment × World) with
      | mk r2 w2 =>
        rw [h2] at h
        cases r2 with
        | error e => simp at h
        | ok d =>
          simp only [] at h ⊢
          unfold reconcileExisting
          cases h3 : ensureSecret a w2 with
          | mk r3 w3 =>
            rw [h3] at h
            cases r3 with
            | error e => simp at h
            | ok s =>
              simp only [] at h ⊢
              cases h4 : ensureConfigMap env a s false w3 with
              | mk r4 w4 =>
                rw [h4] at h
                cases r4 with
                | none => simp at h
                | some r4 =>
                cases r4 with
                | error e => simp at h
                | ok cb =>
                  obtain ⟨cm, bag⟩ := cb
                  simp only [] at h ⊢
                  cases h5 : hasBreakingChanges a bag d s with
                  | none => rw [h5] at h; simp at h
                  | some v =>
                    obtain ⟨⟨breaking, upd⟩, patched⟩ := v
                    rw [h5] at h
                    simp only [] at h ⊢
                    cases h6 : updateMap env cm a s false w4 with
                    | mk r6 w5 =>
                      rw [h6] at h
                      obtain ⟨e6, cm1⟩ := r6
                      cases e6 with
                      | error e => simp at h
                      | ok ub =>
                        simp only [Option.some.injEq] at h ⊢
                        subst h
                        rfl

end adam

/-- The calls since `w` are what was appended to its trace. -/
theorem since_of_trace (w w1 : World) (calls : List Call)
    (h : w1.trace = w.trace ++ calls) : w1.since w = calls := by
  simp [World.since, h]

/-- No call is issued between a world and itself. -/
theorem QuietStep.refl (w : World) : QuietStep w w :=
  ⟨[], by simp, by simp⟩

/-- Quiet steps compose. -/
theorem QuietStep.trans {w w1 w2 : World} (h1 : QuietStep w w1) (h2 : QuietStep w1 w2) :
    QuietStep w w2 := by
  obtain ⟨l1, e1, q1⟩ := h1
  obtain ⟨l2, e2, q2⟩ := h2
  refine ⟨l1 ++ l2, by rw [e2, e1, List.append_assoc], ?_⟩
  intro c hc
  rcases List.mem_append.mp hc with h | h
  · exact q1 c h
  · exact q2 c h

/-- A world whose trace extends another by one quiet call is a quiet step away. -/
theorem QuietStep.of_call (w w1 : World) (c : Call) (hq : c.quiet = true)
    (h : w1.trace = w.trace ++ [c]) : QuietStep w w1 :=
  ⟨[c], h, by simpa using hq⟩

/-- A quiet step appends calls none of which is loud. -/
theorem QuietStep.trace {w w1 : World} (h : QuietStep w w1) :
    ∃ calls : List Call, w1.trace = w.trace ++ calls ∧ loud calls = [] := by
  obtain ⟨l, e, q⟩ := h
  refine ⟨l, e, ?_⟩
  unfold loud
  rw [List.filter_eq_nil_iff]
  intro c hc
  simp [q c hc]

/-- A `Get` only records the call, whatever it returns. -/
theorem clientGet_world {α : Type} [ApiObject α] (ns name : String) (w : World) :
    (clientGet ns name w : Except Error α × World).2 =
      w.issue (Call.get (ApiObject.kind α) ns name) := by
  unfold clientGet
  simp only []
  split
  · rfl
  · split <;> rfl

/-- A `Get` that returns an object returns the stored one. -/
theorem clientGet_ok {α : Type} [ApiObject α] (ns name : String) (w w1 : World) (o : α)
    (h : clientGet ns name w = (Except.ok o, w1)) :
    w.lookup ns name = some o ∧ w1 = w.issue (Call.get (ApiObject.kind α) ns name) := by
  have hw := @clientGet_world α _ ns name w
  rw [h] at hw
  refine ⟨?_, hw⟩
  unfold clientGet at h
  simp only [] at h
  split at h
  · simp at h
  · split at h
    · simp only [Prod.mk.injEq, Except.ok.injEq] at h
      rename_i o1 ho
      rw [ho, h.1]
    · simp at h

/-- A `Create` appends exactly its call to the trace. -/
theorem clientCreate_trace {α : Type} [ApiObject α]
    (hput : ∀ (w : World) (l : List α), (ApiObject.put w l).trace = w.trace) (o : α) (w : World) :
    (clientCreate o w).2.trace = w.trace ++ [Call.create (ApiObject.toObj o)] := by
  rcases adam.clientCreate_frame o w with h | h <;> rw [h] <;> simp [hput, World.issue]

/-- An `Update` appends exactly its call to the trace. -/
theorem clientUpdate_trace {α : Type} [ApiObject α]
    (hput : ∀ (w : World) (l : List α), (ApiObject.put w l).trace = w.trace) (o : α) (w : World) :
    (clientUpdate o w).2.trace = w.trace ++ [Call.update (ApiObject.toObj o)] := by
  rcases adam.clientUpdate_frame o w with h | h <;> rw [h] <;> simp [hput, World.issue]

/-- A `Delete` appends exactly its call to the trace. -/
theorem clientDelete_trace {α : Type} [ApiObject α]
    (hput : ∀ (w : World) (l : List α), (ApiObject.put w l).trace = w.trace) (o : α) (w : World) :
    (clientDelete o w).2.trace = w.trace ++ [Call.delete (ApiObject.toObj o)] := by
  rcases adam.clientDelete_frame o w with h | h <;> rw [h] <;> simp [hput, World.issue]

/-- A status update records the call and at most replaces the object. -/
theorem clientStatusUpdate_frame {α : Type} [ApiObject α] (o : α) (w : World) :
    (clientStatusUpdate o w).2 = w.issue (Call.statusUpdate (ApiObject.toObj o)) ∨
    (clientStatusUpdate o w).2 = ApiObject.put (w.issue (Call.statusUpdate (ApiObject.toObj o)))
      (replaceObj o
        (ApiObject.all (w.issue (Call.statusUpdate (ApiObject.toObj o))) : List α)) := by
  unfold clientStatusUpdate
  by_cases hfa : w.faulty = true
  · simp [hfa]
  · simp only [hfa, Bool.false_eq_true, if_false]
    cases (w.lookup (ApiObject.ns o) (ApiObject.name o) : Option α) with
    | none => simp
    | some x => simp

/-- A status update appends exactly its call to the trace. -/
theorem clientStatusUpdate_trace {α : Type} [ApiObject α]
    (hput : ∀ (w : World) (l : List α), (ApiObject.put w l).trace = w.trace) (o : α) (w : World) :
    (clientStatusUpdate o w).2.trace = w.trace ++ [Call.statusUpdate (ApiObject.toObj o)] := by
  rcases clientStatusUpdate_frame o w with h | h <;> rw [h] <;> simp [hput, World.issue]

/-- A list of pods only records the call, whatever it returns. -/
theorem clientListPods_world (ns : String) (selector : List (String × String)) (w : World) :
    (clientListPods ns selector w).2 = w.issue (Call.list ns selector) := by
  unfold clientListPods
  simp only []
  split <;> rfl

/-- A `Get` is a quiet step. -/
theorem clientGet_quiet {α : Type} [ApiObject α] (ns name : String) (w : World) :
    QuietStep w (clientGet ns name w : Except Error α × World).2 := by
  rw [clientGet_world]
  exact QuietStep.of_call w _ (Call.get (ApiObject.kind α) ns name) rfl rfl

/-- A `Create` of an object whose creation is a quiet call is a quiet step. -/
theorem clientCreate_quiet {α : Type} [ApiObject α]
    (hput : ∀ (w : World) (l : List α), (ApiObject.put w l).trace = w.trace) (o : α) (w : World)
    (hq : (Call.create (ApiObject.toObj o)).quiet = true) :
    QuietStep w (clientCreate o w).2 :=
  QuietStep.of_call w _ _ hq (clientCreate_trace hput o w)

/-- An `Update` of an object whose update is a quiet call is a quiet step. -/
theorem clientUpdate_quiet {α : Type} [ApiObject α]
    (hput : ∀ (w : World) (l : List α), (ApiObject.put w l).trace = w.trace) (o : α) (w : World)
    (hq : (Call.update (ApiObject.toObj o)).quiet = true) :
    QuietStep w (clientUpdate o w).2 :=
  QuietStep.of_call w _ _ hq (clientUpdate_trace hput o w)

/-- A status update of an object whose status update is a quiet call is a quiet step. -/
theorem clientStatusUpdate_quiet {α : Type} [ApiObject α]
    (hput : ∀ (w : World) (l : List α), (ApiObject.put w l).trace = w.trace) (o : α) (w : World)
    (hq : (Call.statusUpdate (ApiObject.toObj o)).quiet = true) :
    QuietStep w (clientStatusUpdate o w).2 :=
  QuietStep.of_call w _ _ hq (clientStatusUpdate_trace hput o w)

namespace adam

/-- Whatever its outcome, `ensureSecret` is a quiet step. -/
theorem ensureSecret_quiet (clusterAgent : Adam) (w : World) :
    QuietStep w (ensureSecret clusterAgent w).2 := by
  unfold ensureSecret
  have q1 := @clientGet_quiet Secret _ clusterAgent.Namespace AGENT_SECRET_NAME w
  cases h1 : (clientGet clusterAgent.Namespace AGENT_SECRET_NAME w :
      Except Error Secret × World) with
  | mk r1 w1 =>
    rw [h1] at q1
    cases r1 with
    | ok s => exact q1
    | error e =>
      simp only []
      split
      · have q2 := clientCreate_quiet (fun _ _ => rfl) (emptySecret clusterAgent) w1 rfl
        cases h2 : clientCreate (emptySecret clusterAgent) w1 with
        | mk e2 w2 =>
          rw [h2] at q2
          cases e2 with
          | some e0 => exact q1.trans q2
          | none =>
            simp only []
            have q3 := @clientGet_quiet Secret _ clusterAgent.Namespace AGENT_SECRET_NAME w2
            cases h3 : (clientGet clusterAgent.Namespace AGENT_SECRET_NAME w2 :
                Except Error Secret × World) with
            | mk r3 w3 =>
              rw [h3] at q3
              cases r3 <;> exact (q1.trans q2).trans q3
      · exact q1

/-- Whatever its outcome, `updateMap` is a quiet step. -/
theorem updateMap_quiet (env : Env) (cm : ConfigMap) (clusterAgent : Adam) (secret : Secret)
    (create : Bool) (w : World) :
    QuietStep w (updateMap env cm clusterAgent secret create w).2 := by
  unfold updateMap
  simp only []
  split
  · exact QuietStep.refl w
  · rename_i data _
    cases create with
    | true =>
      simp only [if_true]
      have q := clientCreate_quiet (fun _ _ => rfl)
        ({ cm with Data := [("adam-config.json", data)] } : ConfigMap) w rfl
      cases hc : clientCreate ({ cm with Data := [("adam-config.json", data)] } : ConfigMap) w with
      | mk e w2 =>
        rw [hc] at q
        cases e <;> exact q
    | false =>
      simp only [Bool.false_eq_true, if_false]
      have q := clientUpdate_quiet (fun _ _ => rfl)
        ({ cm with Data := [("adam-config.json", data)] } : ConfigMap) w rfl
      cases hc : clientUpdate ({ cm with Data := [("adam-config.json", data)] } : ConfigMap) w with
      | mk e w2 =>
        rw [hc] at q
        cases e <;> exact q

/-- Whatever its outcome, `ensureConfigMap` is a quiet step. -/
theorem ensureConfigMap_quiet (env : Env) (clusterAgent : Adam) (secret : Secret)
    (create : Bool) (w : World) :
    QuietStep w (ensureConfigMap env clusterAgent secret create w).2 := by
  unfold ensureConfigMap
  have q1 := @clientGet_quiet ConfigMap _ clusterAgent.Namespace "adam-config" w
  cases h1 : (clientGet clusterAgent.Namespace "adam-config" w :
      Except Error ConfigMap × World) with
  | mk r1 w1 =>
    rw [h1] at q1
    cases r1 with
    | ok cm =>
      simp only []
      split <;> exact q1
    | error e =>
      simp only []
      split
      · exact q1
      · have q2 := updateMap_quiet env
          { ConfigMap.zero with Name := "adam-config", Namespace := clusterAgent.Namespace }
          clusterAgent secret true w1
        cases h2 : updateMap env
          { ConfigMap.zero with Name := "adam-config", Namespace := clusterAgent.Namespace }
          clusterAgent secret true w1 with
        | mk r2 w2 =>
          rw [h2] at q2
          obtain ⟨e2, cm1⟩ := r2
          cases e2 with
          | error e0 => exact q1.trans q2
          | ok created =>
            simp only []
            split <;> exact q1.trans q2

/-- Whatever its outcome, `ensureAgentService` is a quiet step. -/
theorem ensureAgentService_quiet (clusterAgent : Adam) (bag : AppDBag) (w : World) :
    QuietStep w (ensureAgentService clusterAgent bag w).2 := by
  unfold ensureAgentService
  have q1 := @clientGet_quiet Service _ clusterAgent.Namespace clusterAgent.Name w
  cases h1 : (clientGet clusterAgent.Namespace clusterAgent.Name w :
      Except Error Service × World) with
  | mk r1 w1 =>
    rw [h1] at q1
    cases r1 with
    | ok svc => exact q1
    | error e =>
      simp only []
      split
      · exact q1
      · have q2 := clientCreate_quiet (fun _ _ => rfl) (newAgentService clusterAgent bag) w1 rfl
        cases h2 : clientCreate (newAgentService clusterAgent bag) w1 with
        | mk e2 w2 =>
          rw [h2] at q2
          cases e2 <;> exact q1.trans q2

/-- Whatever its outcome, `updateStatus` is a quiet step. -/
theorem updateStatus_quiet (env : Env) (clusterAgent : Adam) (updatedBag : AppDBag)
    (w : World) : QuietStep w (updateStatus env clusterAgent updatedBag w).2 := by
  unfold updateStatus
  simp only []
  have q1 := clientUpdate_quiet (fun _ _ => rfl)
    (refreshStatus env clusterAgent updatedBag w) w rfl
  cases h1 : clientUpdate (refreshStatus env clusterAgent updatedBag w) w with
  | mk e1 w1 =>
    rw [h1] at q1
    cases e1 with
    | some e0 => exact q1
    | none =>
      simp only []
      have q2 := clientStatusUpdate_quiet (fun _ _ => rfl)
        (refreshStatus env clusterAgent updatedBag w) w1 rfl
      exact q1.trans q2

end adam

namespace adam

/-- Whatever its outcome, `ensureSecret` touches secrets only. -/
theorem ensureSecret_frame (clusterAgent : Adam) (w : World) :
    (ensureSecret clusterAgent w).2.adams = w.adams ∧
      (ensureSecret clusterAgent w).2.deployments = w.deployments ∧
      (ensureSecret clusterAgent w).2.configMaps = w.configMaps ∧
      (ensureSecret clusterAgent w).2.pods = w.pods := by
  unfold ensureSecret
  have g1 := @clientGet_world Secret _ clusterAgent.Namespace AGENT_SECRET_NAME w
  cases h1 : (clientGet clusterAgent.Namespace AGENT_SECRET_NAME w :
      Except Error Secret × World) with
  | mk r1 w1 =>
    rw [h1] at g1
    simp only [] at g1
    subst g1
    cases r1 with
    | ok s => simp [World.issue]
    | error e =>
      simp only []
      split
      · have f2 := clientCreate_frame (emptySecret clusterAgent)
          (w.issue (Call.get (ApiObject.kind Secret) clusterAgent.Namespace AGENT_SECRET_NAME))
        cases h2 : clientCreate (emptySecret clusterAgent)
          (w.issue (Call.get (ApiObject.kind Secret) clusterAgent.Namespace AGENT_SECRET_NAME)) with
        | mk e2 w2 =>
          rw [h2] at f2
          simp only [] at f2
          cases e2 with
          | some e0 => rcases f2 with rfl | rfl <;> simp [World.issue, ApiObject.put]
          | none =>
            simp only []
            have g3 := @clientGet_world Secret _ clusterAgent.Namespace AGENT_SECRET_NAME w2
            cases h3 : (clientGet clusterAgent.Namespace AGENT_SECRET_NAME w2 :
                Except Error Secret × World) with
            | mk r3 w3 =>
              rw [h3] at g3
              simp only [] at g3
              subst g3
              cases r3 <;> rcases f2 with rfl | rfl <;> simp [World.issue, ApiObject.put]
      · simp [World.issue]

/-- Whatever its outcome, `ensureConfigMap` touches bundles only. -/
theorem ensureConfigMap_frame (env : Env) (clusterAgent : Adam) (secret : Secret)
    (create : Bool) (w : World) :
    (ensureConfigMap env clusterAgent secret create w).2.adams = w.adams ∧
      (ensureConfigMap env clusterAgent secret create w).2.deployments = w.deployments ∧
      (ensureConfigMap env clusterAgent secret create w).2.secrets = w.secrets := by
  unfold ensureConfigMap
  have g1 := @clientGet_world ConfigMap _ clusterAgent.Namespace "adam-config" w
  cases h1 : (clientGet clusterAgent.Namespace "adam-config" w :
      Except Error ConfigMap × World) with
  | mk r1 w1 =>
    rw [h1] at g1
    simp only [] at g1
    subst g1
    cases r1 with
    | ok cm =>
      simp only []
      split <;> simp [World.issue]
    | error e =>
      simp only []
      split
      · simp [World.issue]
      · have f2 := updateMap_frame env
          { ConfigMap.zero with Name := "adam-config", Namespace := clusterAgent.Namespace }
          clusterAgent secret true
          (w.issue (Call.get (ApiObject.kind ConfigMap) clusterAgent.Namespace "adam-config"))
        cases h2 : updateMap env
          { ConfigMap.zero with Name := "adam-config", Namespace := clusterAgent.Namespace }
          clusterAgent secret true
          (w.issue (Call.get (ApiObject.kind ConfigMap) clusterAgent.Namespace "adam-config")) with
        | mk r2 w2 =>
          rw [h2] at f2
          obtain ⟨e2, cm1⟩ := r2
          simp only [] at f2
          obtain ⟨-, -, fa, fd, fs, -⟩ := f2
          cases e2 with
          | error e0 => exact ⟨fa, fd, fs⟩
          | ok created =>
            simp only []
            split <;> exact ⟨fa, fd, fs⟩

/-- Whatever its outcome, `updateStatus` touches custom resources only. -/
theorem updateStatus_frame (env : Env) (clusterAgent : Adam) (updatedBag : AppDBag)
    (w : World) :
    (updateStatus env clusterAgent updatedBag w).2.deployments = w.deployments ∧
      (updateStatus env clusterAgent updatedBag w).2.secrets = w.secrets ∧
      (updateStatus env clusterAgent updatedBag w).2.configMaps = w.configMaps ∧
      (updateStatus env clusterAgent updatedBag w).2.pods = w.pods := by
  unfold updateStatus
  simp only []
  have f1 := clientUpdate_frame (refreshStatus env clusterAgent updatedBag w) w
  cases h1 : clientUpdate (refreshStatus env clusterAgent updatedBag w) w with
  | mk e1 w1 =>
    rw [h1] at f1
    simp only [] at f1
    cases e1 with
    | some e0 => rcases f1 with rfl | rfl <;> simp [World.issue, ApiObject.put]
    | none =>
      simp only []
      have f2 := clientStatusUpdate_frame (refreshStatus env clusterAgent updatedBag w) w1
      rcases f2 with f2 | f2 <;> rw [f2] <;> rcases f1 with rfl | rfl <;>
        simp [World.issue, ApiObject.put]

/-- The steps behind a pass that reached the verdict. -/
theorem steadyDecision_inv (env : Env) (request : Request) (w : World) (x : Decision)
    (h : steadyDecision env request w = some x) :
    ∃ (w1 w2 w3 w4 : World) (cm1 : ConfigMap),
      clientGet request.Namespace request.Name w = (Except.ok x.clusterAgent, w1) ∧
      clientGet x.clusterAgent.Namespace x.clusterAgent.Name w1 =
        (Except.ok x.existingDeployment, w2) ∧
      ensureSecret x.clusterAgent w2 = (Except.ok x.secret, w3) ∧
      ensureConfigMap env x.clusterAgent x.secret false w3 =
        (some (Except.ok (x.cm, x.bag)), w4) ∧
      hasBreakingChanges x.clusterAgent x.bag x.existingDeployment x.secret =
        some ((x.breaking, x.updateDeployment), x.patched) ∧
      updateMap env x.cm x.clusterAgent x.secret false w4 =
        ((Except.ok x.updatedBag, cm1), x.world) := by
  unfold steadyDecision at h
  cases h1 : (clientGet request.Namespace request.Name w : Except Error Adam × World) with
  | mk r1 w1 =>
    rw [h1] at h
    cases r1 with
    | error e => simp at h
    | ok a =>
      simp only [] at h
      cases h2 : (clientGet a.Namespace a.Name w1 : Except Error Deployment × World) with
      | mk r2 w2 =>
        rw [h2] at h
        cases r2 with
        | error e => simp at h
        | ok d =>
          simp only [] at h
          cases h3 : ensureSecret a w2 with
          | mk r3 w3 =>
            rw [h3] at h
            cases r3 with
            | error e => simp at h
            | ok s =>
              simp only [] at h
              cases h4 : ensureConfigMap env a s false w3 with
              | mk r4 w4 =>
                rw [h4] at h
                cases r4 with
                | none => simp at h
                | some r4 =>
                cases r4 with
                | error e => simp at h
                | ok cb =>
                  obtain ⟨cm, bag⟩ := cb
                  simp only [] at h
                  cases h5 : hasBreakingChanges a bag d s with
                  | none => rw [h5] at h; simp at h
                  | some v =>
                    obtain ⟨⟨breaking, upd⟩, patched⟩ := v
                    rw [h5] at h
                    simp only [] at h
                    cases h6 : updateMap env cm a s false w4 with
                    | mk r6 w5 =>
                      rw [h6] at h
                      obtain ⟨e6, cm1⟩ := r6
                      cases e6 with
                      | error e => simp at h
                      | ok ub =>
                        simp only [Option.some.injEq] at h
                        subst h
                        exact ⟨w1, w2, w3, w4, cm1, rfl, h2, h3, h4, h5, h6⟩

/-- A pass that reached the verdict got there by quiet steps. -/
theorem steadyDecision_quiet (env : Env) (request : Request) (w : World) (x : Decision)
    (h : steadyDecision env request w = some x) : QuietStep w x.world := by
  obtain ⟨w1, w2, w3, w4, cm1, h1, h2, h3, h4, -, h6⟩ := steadyDecision_inv env request w x h
  have q1 := @clientGet_quiet Adam _ request.Namespace request.Name w
  have q2 := @clientGet_quiet Deployment _ x.clusterAgent.Namespace x.clusterAgent.Name w1
  have q3 := ensureSecret_quiet x.clusterAgent w2
  have q4 := ensureConfigMap_quiet env x.clusterAgent x.secret false w3
  have q6 := updateMap_quiet env x.cm x.clusterAgent x.secret false w4
  rw [h1] at q1
  rw [h2] at q2
  rw [h3] at q3
  rw [h4] at q4
  rw [h6] at q6
  exact (((q1.trans q2).trans q3).trans q4).trans q6

end adam

namespace adam

/-- The verdict `(false, true)` comes from the image check only: the live Deployment
has a first container, and the patched Deployment is the live one with the desired
image written into that container. -/
theorem hasBreakingChanges_update_inv (clusterAgent : Adam) (bag : AppDBag)
    (d patched : Deployment) (secret : Secret) (breaking : Bool)
    (h : hasBreakingChanges clusterAgent bag d secret = some ((breaking, true), patched)) :
    ∃ (c : Container) (rest : List Container), d.Containers = c :: rest ∧
      patched = { d with Containers := { c with Image := clusterAgent.Spec.Image } :: rest } := by
  unfold hasBreakingChanges at h
  by_cases himg : clusterAgent.Spec.Image = ""
  · simp only [himg, ne_eq, not_true_eq_false, if_false, Option.some.injEq, Prod.mk.injEq] at h
    rw [restartChecks_eq] at h
    simp at h
  · simp only [ne_eq, himg, not_false_eq_true, if_true] at h
    cases hc : d.Containers with
    | nil => rw [hc] at h; simp at h
    | cons c rest =>
      rw [hc] at h
      simp only [] at h
      by_cases hci : c.Image = clusterAgent.Spec.Image
      · simp only [hci, not_true_eq_false, if_false, Option.some.injEq, Prod.mk.injEq] at h
        rw [restartChecks_eq] at h
        simp at h
      · simp only [hci, not_false_eq_true, if_true, Option.some.injEq, Prod.mk.injEq] at h
        exact ⟨c, rest, rfl, h.2.symm⟩

/-- The calls of a pass that ends with one more call after the verdict: the loud ones
are those of that last call. -/
theorem loud_since_tail (w w1 w2 : World) (calls : List Call)
    (hq : QuietStep w w1) (ht : w2.trace = w1.trace ++ calls) :
    loud (w2.since w) = loud calls := by
  obtain ⟨l, e, hl⟩ := hq.trace
  have hs : w2.since w = l ++ calls := since_of_trace w w2 (l ++ calls) (by rw [ht, e, List.append_assoc])
  rw [hs]
  unfold loud at hl ⊢
  rw [List.filter_append, hl, List.nil_append]

/-- C11 (as stated) fails: the desired state asks for a CPU limit of `200m` and for the
image `agent:1.1`, the live container has no limit and runs `agent:1.0`; the verdict is
`InPlaceUpdate` and the Deployment submitted to `Update` carries the desired image
but the resources of the live container, not the desired ones. -/
theorem inPlaceUpdate_keeps_resources_counterexample :
    (steadyDecision sampleEnv sampleRequest limitedWorld).map
        (fun x => (x.breaking, x.updateDeployment)) = some InPlaceUpdate ∧
    loud ((Reconcile sampleEnv sampleRequest limitedWorld).2.since limitedWorld) =
      [Call.update (Obj.deployment (sampleDeploymentWith "agent:1.1"))] ∧
    (sampleDeploymentWith "agent:1.1").Containers.map Container.Image = ["agent:1.1"] ∧
    (sampleDeploymentWith "agent:1.1").Containers.map Container.Resources =
      [{ Limits := [], Requests := [] }] ∧
    limitedAgent.Spec.Resources = { Limits := [("cpu", "200m")], Requests := [] } := by
  decide

/-- C11 (amended): on an `InPlaceUpdate` verdict in the steady pass of the primary
agent, the Deployment submitted to `Update` is the live Deployment with the desired
image written into its first container; everything else in it, the resource requests
and limits of that container included, is as in the live Deployment. -/
theorem inPlaceUpdate_submits_image_patch (env : Env) (request : Request) (w : World)
    (x : Decision)
    (hx : steadyDecision env request w = some x)
    (hb : x.breaking = false) (hu : x.updateDeployment = true) :
    ∃ (c : Container) (rest : List Container), x.existingDeployment.Containers = c :: rest ∧
      x.patched =
        { x.existingDeployment with
          Containers := { c with Image := x.clusterAgent.Spec.Image } :: rest } ∧
      (Reconcile env request w).2.since x.world = [Call.update (Obj.deployment x.patched)] := by
  obtain ⟨w1, w2, w3, w4, cm1, -, -, -, -, h5, -⟩ := steadyDecision_inv env request w x hx
  rw [hu] at h5
  obtain ⟨c, rest, hc, hp⟩ := hasBreakingChanges_update_inv _ _ _ _ _ _ h5
  refine ⟨c, rest, hc, hp, ?_⟩
  rw [Reconcile_of_steadyDecision env request w x hx]
  unfold steadyTail
  simp only [hb, hu, Bool.false_eq_true, if_false, if_true]
  have ht := clientUpdate_trace (fun _ _ => rfl) x.patched x.world
  cases hcu : clientUpdate x.patched x.world with
  | mk e w5 =>
    rw [hcu] at ht
    cases e <;> exact since_of_trace _ _ _ ht

/-- Witness of C11 (amended) on the cluster `limitedWorld`. -/
theorem inPlaceUpdate_submits_image_patch_witness :
    ∃ (c : Container) (rest : List Container),
      (sampleDecision limitedWorld).existingDeployment.Containers = c :: rest ∧
      (sampleDecision limitedWorld).patched =
        { (sampleDecision limitedWorld).existingDeployment with
          Containers :=
            { c with Image := (sampleDecision limitedWorld).clusterAgent.Spec.Image } :: rest } ∧
      (Reconcile sampleEnv sampleRequest limitedWorld).2.since (sampleDecision limitedWorld).world =
        [Call.update (Obj.deployment (sampleDecision limitedWorld).patched)] :=
  inPlaceUpdate_submits_image_patch sampleEnv sampleRequest limitedWorld
    (sampleDecision limitedWorld) rfl rfl rfl

/-- C12 (as stated) fails: the verdict is `InPlaceUpdate` and the bundle rewrite
succeeds, but the `Update` of the Deployment (the sixth call of the pass) fails; the
pass returns that error with an empty result instead of `RequeueAfter = 60` and nil. -/
theorem inPlaceUpdate_update_fails_counterexample :
    (steadyDecision sampleEnv sampleRequest (imageWorld [5])).map
        (fun x => (x.breaking, x.updateDeployment)) = some InPlaceUpdate ∧
    (Reconcile sampleEnv sampleRequest (imageWorld [5])).1 =
      some (Result.empty, some Error.api) ∧
    (Reconcile sampleEnv sampleRequest (imageWorld [5])).1 ≠ some (Result.after60, none) := by
  decide

/-- C12 (amended): in the steady pass of the primary agent, when the verdict is
`InPlaceUpdate` and the bundle rewrite succeeds, the only call of the pass that is a
list, a delete or a write of a Deployment is one `Update` of the existing Deployment
carrying the patch; the pass returns `RequeueAfter = 60` seconds with a nil error when
that `Update` succeeds, and its error with an empty result when it fails. -/
theorem inPlaceUpdate_pass (env : Env) (request : Request) (w : World) (x : Decision)
    (hx : steadyDecision env request w = some x)
    (hb : x.breaking = false) (hu : x.updateDeployment = true) :
    loud ((Reconcile env request w).2.since w) = [Call.update (Obj.deployment x.patched)] ∧
      (Reconcile env request w).1 =
        some (match (clientUpdate x.patched x.world).1 with
          | none => (Result.after60, none)
          | some err => (Result.empty, some err)) := by
  have hq := steadyDecision_quiet env request w x hx
  rw [Reconcile_of_steadyDecision env request w x hx]
  unfold steadyTail
  simp only [hb, hu, Bool.false_eq_true, if_false, if_true]
  have ht := clientUpdate_trace (fun _ _ => rfl) x.patched x.world
  cases hcu : clientUpdate x.patched x.world with
  | mk e w5 =>
    rw [hcu] at ht
    simp only [] at ht
    have hl := loud_since_tail w x.world w5 _ hq ht
    cases e with
    | some e0 => exact ⟨by rw [hl]; rfl, rfl⟩
    | none => exact ⟨by rw [hl]; rfl, rfl⟩

/-- Witness of C12 (amended) on the cluster `imageWorld []`, where no call fails. -/
theorem inPlaceUpdate_pass_witness :
    loud ((Reconcile sampleEnv sampleRequest (imageWorld [])).2.since (imageWorld [])) =
        [Call.update (Obj.deployment (sampleDecision (imageWorld [])).patched)] ∧
      (Reconcile sampleEnv sampleRequest (imageWorld [])).1 =
        some (match (clientUpdate (sampleDecision (imageWorld [])).patched
            (sampleDecision (imageWorld [])).world).1 with
          | none => (Result.after60, none)
          | some err => (Result.empty, some err)) :=
  inPlaceUpdate_pass sampleEnv sampleRequest (imageWorld []) (sampleDecision (imageWorld []))
    rfl rfl rfl

end adam

/-- A `Delete` that succeeds removed the objects with the key of its argument. -/
theorem clientDelete_ok {α : Type} [ApiObject α] (o : α) (w : World)
    (h : (clientDelete o w).1 = none) :
    (clientDelete o w).2 = ApiObject.put (w.issue (Call.delete (ApiObject.toObj o)))
      ((ApiObject.all (w.issue (Call.delete (ApiObject.toObj o))) : List α).filter
        (fun x => !hasKey (ApiObject.ns o) (ApiObject.name o) x)) := by
  unfold clientDelete at h ⊢
  by_cases hfa : w.faulty = true
  · simp [hfa] at h
  · simp only [hfa, Bool.false_eq_true, if_false] at h ⊢
    cases hl : (w.lookup (ApiObject.ns o) (ApiObject.name o) : Option α) with
    | none => rw [hl] at h; simp at h
    | some x => rfl

namespace adam

/-- C13 (as stated) fails: the verdict is `Restart`, the bundle rewrite succeeds and the
pod of the workload is listed, but its `Delete` (the seventh call of the pass) fails;
the pass returns an error with an empty result and the pod is still there. -/
theorem restart_delete_fails_counterexample :
    (steadyDecision sampleEnv sampleRequest (driftWorld [6])).map
        (fun x => (x.breaking, x.updateDeployment)) = some Restart ∧
    ((driftWorld [6]).pods.filter
      (fun p => matchesSelector (labelsForClusteragent sampleAgent) p.Labels)) = [samplePod] ∧
    (Reconcile sampleEnv sampleRequest (driftWorld [6])).1 =
      some (Result.empty, some (Error.msg "Unable to delete cluster-agent pod.")) ∧
    (Reconcile sampleEnv sampleRequest (driftWorld [6])).2.pods = [samplePod] := by
  decide

/-- C13 (amended): in the steady pass of the primary agent, when the verdict is
`Restart`, the bundle rewrite succeeds and the list of the workload's pods succeeds
with at least one pod, the only calls of the pass that are a list, a delete or a write
of a Deployment are that list and one `Delete` of the first pod listed; when the
`Delete` succeeds that pod is removed, no other pod is, and the pass returns
`RequeueAfter = 60` seconds with a nil error; when it fails the pass returns an error
with an empty result. -/
theorem restart_pass (env : Env) (request : Request) (w w1 : World) (x : Decision)
    (pod : Pod) (pods : List Pod)
    (hx : steadyDecision env request w = some x)
    (hb : x.breaking = true)
    (hlist : clientListPods x.clusterAgent.Namespace (labelsForClusteragent x.clusterAgent)
      x.world = (Except.ok (pod :: pods), w1)) :
    loud ((Reconcile env request w).2.since w) =
        [Call.list x.clusterAgent.Namespace (labelsForClusteragent x.clusterAgent),
         Call.delete (Obj.pod pod)] ∧
      (Reconcile env request w).1 =
        some (match (clientDelete pod w1).1 with
          | none => (Result.after60, none)
          | some _ => (Result.empty, some (Error.msg "Unable to delete cluster-agent pod."))) ∧
      ((clientDelete pod w1).1 = none →
        (Reconcile env request w).2.pods =
          x.world.pods.filter (fun p => !hasKey pod.Namespace pod.Name p)) := by
  have hq := steadyDecision_quiet env request w x hx
  have hw1 := clientListPods_world x.clusterAgent.Namespace
    (labelsForClusteragent x.clusterAgent) x.world
  rw [hlist] at hw1
  simp only [] at hw1
  rw [Reconcile_of_steadyDecision env request w x hx]
  unfold steadyTail restartAgent
  simp only [hb, if_true, hlist]
  have ht := clientDelete_trace (fun _ _ => rfl) pod w1
  have hok := clientDelete_ok pod w1
  cases hcd : clientDelete pod w1 with
  | mk e w2 =>
    rw [hcd] at ht hok
    simp only [] at ht hok
    have ht2 : w2.trace = x.world.trace ++
        [Call.list x.clusterAgent.Namespace (labelsForClusteragent x.clusterAgent),
         Call.delete (Obj.pod pod)] := by
      rw [ht, hw1]
      simp [World.issue, ApiObject.toObj]
    have hl := loud_since_tail w x.world w2 _ hq ht2
    cases e with
    | some e0 => exact ⟨by rw [hl]; rfl, rfl, by intro hc; simp at hc⟩
    | none =>
      refine ⟨by rw [hl]; rfl, rfl, ?_⟩
      intro _
      rw [hok rfl, hw1]
      simp [World.issue, ApiObject.put, ApiObject.all, ApiObject.ns, ApiObject.name]

/-- Witness of C13 (amended) on the cluster `driftWorld []`, where no call fails. -/
theorem restart_pass_witness :
    loud ((Reconcile sampleEnv sampleRequest (driftWorld [])).2.since (driftWorld [])) =
        [Call.list (sampleDecision (driftWorld [])).clusterAgent.Namespace
           (labelsForClusteragent (sampleDecision (driftWorld [])).clusterAgent),
         Call.delete (Obj.pod samplePod)] ∧
      (Reconcile sampleEnv sampleRequest (driftWorld [])).1 =
        some (match (clientDelete samplePod
            ((sampleDecision (driftWorld [])).world.issue
              (Call.list "appd" (labelsForClusteragent sampleAgent)))).1 with
          | none => (Result.after60, none)
          | some _ => (Result.empty, some (Error.msg "Unable to delete cluster-agent pod."))) ∧
      ((clientDelete samplePod
            ((sampleDecision (driftWorld [])).world.issue
              (Call.list "appd" (labelsForClusteragent sampleAgent)))).1 = none →
        (Reconcile sampleEnv sampleRequest (driftWorld [])).2.pods =
          (sampleDecision (driftWorld [])).world.pods.filter
            (fun p => !hasKey samplePod.Namespace samplePod.Name p)) :=
  restart_pass sampleEnv sampleRequest (driftWorld [])
    ((sampleDecision (driftWorld [])).world.issue
      (Call.list "appd" (labelsForClusteragent sampleAgent)))
    (sampleDecision (driftWorld [])) samplePod [] rfl rfl rfl

end adam

namespace adam

/-- The status query does not look at the custom resource or the bag. -/
theorem refreshStatus_state (env : Env) (clusterAgent : Adam) (updatedBag : AppDBag)
    (w : World) :
    (∀ st, getAgentState env clusterAgent updatedBag w = Except.ok st →
        (refreshStatus env clusterAgent updatedBag w).Status.State = st) ∧
      ((∀ st, getAgentState env clusterAgent updatedBag w ≠ Except.ok st) →
        (refreshStatus env clusterAgent updatedBag w).Status.State =
          clusterAgent.Status.State) := by
  have hg : ∀ a1 : Adam, getAgentState env a1 updatedBag w =
      getAgentState env clusterAgent updatedBag w := fun _ => rfl
  unfold refreshStatus
  simp only [hg]
  cases hq : getAgentState env clusterAgent updatedBag w with
  | error e => simp
  | ok st0 =>
    constructor
    · intro st hst
      simp only [Except.ok.injEq] at hst
      simp [hst]
    · intro hne
      exact absurd rfl (hne st0)

/-- The status query fails exactly on the three kinds of failure. -/
theorem getAgentState_fails_iff (env : Env) (clusterAgent : Adam) (updatedBag : AppDBag)
    (w : World) :
    (∀ st, getAgentState env clusterAgent updatedBag w ≠ Except.ok st) ↔
      (w.agentReply = HttpReply.requestFailed ∨ w.agentReply = HttpReply.bodyUnreadable ∨
        ∃ text, w.agentReply = HttpReply.body text ∧ env.unmarshalStatus text = none) := by
  unfold getAgentState
  cases hr : w.agentReply with
  | requestFailed => simp
  | bodyUnreadable => simp
  | body text =>
    cases hu : env.unmarshalStatus text with
    | none => simp [hu]
    | some st => simp [hu]

/-- Where the custom resource is stored, it is stored after `updateStatus` either as it
was (the `Update` failed) or as refreshed (the `Update` succeeded). -/
theorem updateStatus_stored (env : Env) (clusterAgent stored : Adam) (updatedBag : AppDBag)
    (w : World)
    (ha : w.lookup clusterAgent.Namespace clusterAgent.Name = some stored) :
    ((clientUpdate (refreshStatus env clusterAgent updatedBag w) w).1 = none →
        (updateStatus env clusterAgent updatedBag w).2.lookup clusterAgent.Namespace
          clusterAgent.Name = some (refreshStatus env clusterAgent updatedBag w)) ∧
      ((clientUpdate (refreshStatus env clusterAgent updatedBag w) w).1 ≠ none →
        (updateStatus env clusterAgent updatedBag w).2.lookup clusterAgent.Namespace
          clusterAgent.Name = some stored) := by
  obtain ⟨hns, hname, -⟩ := refreshStatus_fields env clusterAgent updatedBag w
  have h1 := find_replaceObj (refreshStatus env clusterAgent updatedBag w) w.adams stored
    (by simpa [World.lookup, ApiObject.all, ApiObject.ns, ApiObject.name, hns, hname] using ha)
  have h2 := find_replaceObj (refreshStatus env clusterAgent updatedBag w) _ _ h1
  simp only [ApiObject.ns, ApiObject.name, hns, hname] at h1 h2
  have ha0 : w.adams.find? (hasKey clusterAgent.Namespace clusterAgent.Name) = some stored := by
    simpa [World.lookup, ApiObject.all] using ha
  unfold updateStatus
  simp only []
  have f1 := clientUpdate_frame (refreshStatus env clusterAgent updatedBag w) w
  have hfa : (clientUpdate (refreshStatus env clusterAgent updatedBag w) w).1 = none →
      (clientUpdate (refreshStatus env clusterAgent updatedBag w) w).2 =
        ApiObject.put (w.issue (Call.update (Obj.adam
          (refreshStatus env clusterAgent updatedBag w))))
          (replaceObj (refreshStatus env clusterAgent updatedBag w) w.adams) := by
    intro hnone
    unfold clientUpdate at hnone ⊢
    by_cases hfy : w.faulty = true
    · simp [hfy] at hnone
    · simp only [hfy, Bool.false_eq_true, if_false] at hnone ⊢
      cases hl : (w.lookup (ApiObject.ns (refreshStatus env clusterAgent updatedBag w))
          (ApiObject.name (refreshStatus env clusterAgent updatedBag w)) : Option Adam) with
      | none => rw [hl] at hnone; simp at hnone
      | some y => rfl
  have hfb : (clientUpdate (refreshStatus env clusterAgent updatedBag w) w).1 ≠ none →
      (clientUpdate (refreshStatus env clusterAgent updatedBag w) w).2 =
        w.issue (Call.update (Obj.adam (refreshStatus env clusterAgent updatedBag w))) := by
    intro hsome
    unfold clientUpdate at hsome ⊢
    by_cases hfy : w.faulty = true
    · simp [hfy, ApiObject.toObj]
    · simp only [hfy, Bool.false_eq_true, if_false] at hsome ⊢
      cases hl : (w.lookup (ApiObject.ns (refreshStatus env clusterAgent updatedBag w))
          (ApiObject.name (refreshStatus env clusterAgent updatedBag w)) : Option Adam) with
      | none => simp [ApiObject.toObj]
      | some y => rw [hl] at hsome; simp at hsome
  cases h1c : clientUpdate (refreshStatus env clusterAgent updatedBag w) w with
  | mk e1 w1 =>
    rw [h1c] at hfa hfb
    simp only [] at hfa hfb
    cases e1 with
    | some e0 =>
      have hw := hfb (by simp)
      subst hw
      constructor
      · intro hc; simp at hc
      · intro _
        simpa [World.lookup, World.issue, ApiObject.all] using ha0
    | none =>
      have hw := hfa rfl
      subst hw
      simp only []
      constructor
      · intro _
        rcases clientStatusUpdate_frame (refreshStatus env clusterAgent updatedBag w)
            (ApiObject.put (w.issue (Call.update (Obj.adam
              (refreshStatus env clusterAgent updatedBag w))))
              (replaceObj (refreshStatus env clusterAgent updatedBag w) w.adams)) with f2 | f2
        · rw [f2]
          simpa [World.lookup, World.issue, ApiObject.all, ApiObject.put] using h1
        · rw [f2]
          simpa [World.lookup, World.issue, ApiObject.all, ApiObject.put] using h2
      · intro hc; simp at hc

/-- At the verdict the custom resource is stored as the pass read it. -/
theorem steadyDecision_stored (env : Env) (request : Request) (w : World) (x : Decision)
    (h : steadyDecision env request w = some x) :
    x.world.lookup x.clusterAgent.Namespace x.clusterAgent.Name = some x.clusterAgent := by
  obtain ⟨w1, w2, w3, w4, cm1, h1, h2, h3, h4, -, h6⟩ := steadyDecision_inv env request w x h
  obtain ⟨hl, hw1⟩ := clientGet_ok _ _ _ _ _ h1
  obtain ⟨-, hw2⟩ := clientGet_ok _ _ _ _ _ h2
  have hk := key_of_find _ _ _ _ hl
  simp only [ApiObject.ns, ApiObject.name] at hk
  have f3 := (ensureSecret_frame x.clusterAgent w2).1
  have f4 := (ensureConfigMap_frame env x.clusterAgent x.secret false w3).1
  have f6 := (updateMap_frame env x.cm x.clusterAgent x.secret false w4).2.2.1
  rw [h3] at f3
  rw [h4] at f4
  rw [h6] at f6
  simp only [] at f3 f4 f6
  have hA : x.world.adams = w.adams := by
    rw [f6, f4, f3, hw2, hw1]
    rfl
  simpa [World.lookup, ApiObject.all, hA, hk.1, hk.2] using hl

/-- C14: in the `NoChange` path of the primary agent's steady pass, `Reconcile` returns
a nil error with no requeue whatever the status query and the two writes of the custom
resource do, and those two writes are the only calls after the bundle rewrite.  If the
status query fails (the request fails, the body is unreadable or it does not
deserialize), the custom resource is submitted, and is stored after the pass, with
its previous `Status.State`; if the query succeeds, the custom resource is submitted
with `Status.State` replaced by the returned value, and is stored so when the `Update`
succeeds. -/
theorem status_failure_nonfatal (env : Env) (request : Request) (w : World) (x : Decision)
    (hx : steadyDecision env request w = some x)
    (hb : x.breaking = false) (hu : x.updateDeployment = false) :
    (Reconcile env request w).1 = some (Result.empty, none) ∧
      (∀ c ∈ (Reconcile env request w).2.since x.world,
        c = Call.update (Obj.adam (refreshStatus env x.clusterAgent x.updatedBag x.world)) ∨
        c = Call.statusUpdate
          (Obj.adam (refreshStatus env x.clusterAgent x.updatedBag x.world))) ∧
      ((x.world.agentReply = HttpReply.requestFailed ∨
          x.world.agentReply = HttpReply.bodyUnreadable ∨
          ∃ text, x.world.agentReply = HttpReply.body text ∧
            env.unmarshalStatus text = none) →
        (refreshStatus env x.clusterAgent x.updatedBag x.world).Status.State =
            x.clusterAgent.Status.State ∧
          ∃ stored : Adam,
            (Reconcile env request w).2.lookup x.clusterAgent.Namespace x.clusterAgent.Name =
              some stored ∧
            stored.Status.State = x.clusterAgent.Status.State) ∧
      (∀ text st, x.world.agentReply = HttpReply.body text →
        env.unmarshalStatus text = some st →
        (refreshStatus env x.clusterAgent x.updatedBag x.world).Status.State = st ∧
          ((clientUpdate (refreshStatus env x.clusterAgent x.updatedBag x.world) x.world).1 =
              none →
            (Reconcile env request w).2.lookup x.clusterAgent.Namespace x.clusterAgent.Name =
              some (refreshStatus env x.clusterAgent x.updatedBag x.world))) := by
  have hst := steadyDecision_stored env request w x hx
  obtain ⟨hok, hfail⟩ := refreshStatus_state env x.clusterAgent x.updatedBag x.world
  obtain ⟨hs1, hs2⟩ := updateStatus_stored env x.clusterAgent x.clusterAgent x.updatedBag
    x.world hst
  rw [Reconcile_of_steadyDecision env request w x hx]
  unfold steadyTail
  simp only [hb, hu, Bool.false_eq_true, if_false]
  refine ⟨trivial, ?_, ?_, ?_⟩
  · intro c hc
    unfold updateStatus at hc
    simp only [] at hc
    have t1 := clientUpdate_trace (fun _ _ => rfl)
      (refreshStatus env x.clusterAgent x.updatedBag x.world) x.world
    cases h1c : clientUpdate (refreshStatus env x.clusterAgent x.updatedBag x.world) x.world with
    | mk e1 w1 =>
      rw [h1c] at hc t1
      simp only [] at t1
      cases e1 with
      | some e0 =>
        simp only [] at hc
        rw [since_of_trace _ _ _ t1] at hc
        simp only [List.mem_singleton] at hc
        exact Or.inl hc
      | none =>
        simp only [] at hc
        have t2 := clientStatusUpdate_trace (fun _ _ => rfl)
          (refreshStatus env x.clusterAgent x.updatedBag x.world) w1
        rw [t1, List.append_assoc] at t2
        rw [since_of_trace _ _ _ t2] at hc
        simp only [List.singleton_append, List.mem_cons, List.mem_singleton,
          List.not_mem_nil, or_false] at hc
        exact hc
  · intro hreply
    have hne := (getAgentState_fails_iff env x.clusterAgent x.updatedBag x.world).mpr hreply
    have hstate := hfail hne
    refine ⟨hstate, ?_⟩
    by_cases hcu : (clientUpdate (refreshStatus env x.clusterAgent x.updatedBag x.world)
        x.world).1 = none
    · exact ⟨_, hs1 hcu, hstate⟩
    · exact ⟨_, hs2 hcu, rfl⟩
  · intro text st hreply hdec
    have hq : getAgentState env x.clusterAgent x.updatedBag x.world = Except.ok st := by
      unfold getAgentState
      rw [hreply]
      simp only [hdec]
    exact ⟨hok st hq, hs1⟩

/-- Witness of C14 on the steady sample cluster, whose status endpoint does not answer. -/
theorem status_failure_nonfatal_witness :
    (Reconcile sampleEnv sampleRequest (steadyWorld "2")).1 = some (Result.empty, none) ∧
      (∃ stored : Adam,
        (Reconcile sampleEnv sampleRequest (steadyWorld "2")).2.lookup "appd" "agent" =
          some stored ∧
        stored.Status.State = sampleAgent.Status.State) :=
  ⟨(status_failure_nonfatal sampleEnv sampleRequest (steadyWorld "2")
      (sampleDecision (steadyWorld "2")) rfl rfl rfl).1,
    ((status_failure_nonfatal sampleEnv sampleRequest (steadyWorld "2")
      (sampleDecision (steadyWorld "2")) rfl rfl rfl).2.2.1 (Or.inl rfl)).2⟩

end adam

/-- Delete steps compose. -/
theorem DeleteStep.andThen {w w1 w2 : World} {d1 d2 : List Call} (h1 : DeleteStep w w1 d1)
    (h2 : DeleteStep w1 w2 d2) : DeleteStep w w2 (d1 ++ d2) := by
  obtain ⟨l1, e1, q1⟩ := h1
  obtain ⟨l2, e2, q2⟩ := h2
  exact ⟨l1 ++ l2, by rw [e2, e1, List.append_assoc], by rw [List.filter_append, q1, q2]⟩

/-- A quiet step deletes nothing. -/
theorem QuietStep.deletes {w w1 : World} (h : QuietStep w w1) : DeleteStep w w1 [] := by
  obtain ⟨l, e, q⟩ := h
  refine ⟨l, e, ?_⟩
  rw [List.filter_eq_nil_iff]
  intro c hc
  have hq := q c hc
  cases c <;> simp [Call.quiet, Call.isDelete] at hq ⊢

/-- A step of one call that is not a delete deletes nothing. -/
theorem DeleteStep.single (w w1 : World) (c : Call) (hc : c.isDelete = false)
    (h : w1.trace = w.trace ++ [c]) : DeleteStep w w1 [] :=
  ⟨[c], h, by simp [hc]⟩

/-- The deletes among the calls since `w`. -/
theorem DeleteStep.filtered {w w1 : World} {ds : List Call} (h : DeleteStep w w1 ds) :
    (w1.since w).filter Call.isDelete = ds := by
  obtain ⟨l, e, q⟩ := h
  rw [since_of_trace w w1 l e, q]

namespace adam

/-- The calls of `cleanUp`: the read of the bundle `adam-config` in its namespace,
followed by the delete of the bundle when the read returned it. -/
theorem cleanUp_calls (clusterAgent : Option Adam) (w : World) :
    (cleanUp clusterAgent w).trace = w.trace ++
        [Call.get Kind.configMap (cleanUpNamespace clusterAgent) "adam-config"] ∨
      ∃ cm : ConfigMap, cm.Name = "adam-config" ∧
        cm.Namespace = cleanUpNamespace clusterAgent ∧
        (cleanUp clusterAgent w).trace = w.trace ++
          [Call.get Kind.configMap (cleanUpNamespace clusterAgent) "adam-config",
           Call.delete (Obj.configMap cm)] := by
  have hc : cleanUp clusterAgent w =
      match (clientGet (cleanUpNamespace clusterAgent) "adam-config" w :
        Except Error ConfigMap × World) with
      | (Except.error _, w1) => w1
      | (Except.ok cm, w1) => (clientDelete cm w1).2 := by
    cases clusterAgent <;> rfl
  rw [hc]
  have g1 := @clientGet_world ConfigMap _ (cleanUpNamespace clusterAgent) "adam-config" w
  cases h1 : (clientGet (cleanUpNamespace clusterAgent) "adam-config" w :
      Except Error ConfigMap × World) with
  | mk r1 w1 =>
    rw [h1] at g1
    simp only [] at g1
    cases r1 with
    | error e =>
      left
      simp only []
      rw [g1]
      rfl
    | ok cm =>
      right
      obtain ⟨hl, -⟩ := clientGet_ok _ _ _ _ _ h1
      have hk := key_of_find _ _ _ _ hl
      simp only [ApiObject.ns, ApiObject.name] at hk
      refine ⟨cm, hk.2, hk.1, ?_⟩
      simp only []
      rw [clientDelete_trace (fun _ _ => rfl) cm w1, g1]
      simp [World.issue, ApiObject.toObj, ApiObject.kind]

/-- The deletes of `cleanUp`: none, or the bundle `adam-config`. -/
theorem cleanUp_deletes (clusterAgent : Option Adam) (w : World) :
    ∃ ds : List Call, DeleteStep w (cleanUp clusterAgent w) ds ∧
      (ds = [] ∨ ∃ cm : ConfigMap, cm.Name = "adam-config" ∧
        cm.Namespace = cleanUpNamespace clusterAgent ∧ ds = [Call.delete (Obj.configMap cm)]) := by
  rcases cleanUp_calls clusterAgent w with h | ⟨cm, h1, h2, h⟩
  · exact ⟨[], ⟨_, h, rfl⟩, Or.inl rfl⟩
  · exact ⟨[Call.delete (Obj.configMap cm)], ⟨_, h, rfl⟩, Or.inr ⟨cm, h1, h2, rfl⟩⟩

/-- The loud calls of `cleanUp`: none, or the delete of the bundle `adam-config`. -/
theorem cleanUp_loud (clusterAgent : Option Adam) (w : World) :
    ∃ calls : List Call, (cleanUp clusterAgent w).trace = w.trace ++ calls ∧
      (loud calls = [] ∨ ∃ cm : ConfigMap, cm.Name = "adam-config" ∧
        cm.Namespace = cleanUpNamespace clusterAgent ∧
        loud calls = [Call.delete (Obj.configMap cm)]) := by
  rcases cleanUp_calls clusterAgent w with h | ⟨cm, h1, h2, h⟩
  · exact ⟨_, h, Or.inl rfl⟩
  · exact ⟨_, h, Or.inr ⟨cm, h1, h2, rfl⟩⟩

/-- The deletes of `restartAgent`: none, or one pod. -/
theorem restartAgent_deletes (clusterAgent : Adam) (w : World) :
    ∃ ds : List Call, DeleteStep w (restartAgent clusterAgent w).2 ds ∧
      (ds = [] ∨ ∃ pod : Pod, ds = [Call.delete (Obj.pod pod)]) := by
  unfold restartAgent
  have g1 := clientListPods_world clusterAgent.Namespace (labelsForClusteragent clusterAgent) w
  cases h1 : clientListPods clusterAgent.Namespace (labelsForClusteragent clusterAgent) w with
  | mk r1 w1 =>
    rw [h1] at g1
    simp only [] at g1
    have t1 : w1.trace = w.trace ++
        [Call.list clusterAgent.Namespace (labelsForClusteragent clusterAgent)] := by
      rw [g1]; rfl
    have d1 : DeleteStep w w1 [] := DeleteStep.single w w1 _ (by rfl) t1
    cases r1 with
    | error e => exact ⟨[], d1, Or.inl rfl⟩
    | ok pods =>
      cases pods with
      | nil => exact ⟨[], d1, Or.inl rfl⟩
      | cons pod rest =>
        simp only []
        have t2 := clientDelete_trace (fun _ _ => rfl) pod w1
        have d2 : DeleteStep w1 (clientDelete pod w1).2 [Call.delete (Obj.pod pod)] :=
          ⟨_, t2, rfl⟩
        cases h2 : clientDelete pod w1 with
        | mk e2 w2 =>
          rw [h2] at d2
          cases e2 <;> exact ⟨_, d1.andThen d2, Or.inr ⟨pod, rfl⟩⟩

/-- The deletes of the steady branch: none, or one pod. -/
theorem reconcileExisting_deletes (env : Env) (clusterAgent : Adam) (d : Deployment)
    (w : World) :
    ∃ ds : List Call, DeleteStep w (reconcileExisting env clusterAgent d w).2 ds ∧
      (ds = [] ∨ ∃ pod : Pod, ds = [Call.delete (Obj.pod pod)]) := by
  unfold reconcileExisting
  have q1 := (ensureSecret_quiet clusterAgent w).deletes
  cases h1 : ensureSecret clusterAgent w with
  | mk r1 w1 =>
    rw [h1] at q1
    cases r1 with
    | error e => exact ⟨[], q1, Or.inl rfl⟩
    | ok s =>
      simp only []
      have q2 := (ensureConfigMap_quiet env clusterAgent s false w1).deletes
      cases h2 : ensureConfigMap env clusterAgent s false w1 with
      | mk r2 w2 =>
        rw [h2] at q2
        cases r2 with
        | none => exact ⟨[], q1.andThen q2, Or.inl rfl⟩
        | some r2 =>
        cases r2 with
        | error e => exact ⟨[], q1.andThen q2, Or.inl rfl⟩
        | ok cb =>
          obtain ⟨cm, bag⟩ := cb
          simp only []
          cases hasBreakingChanges clusterAgent bag d s with
          | none => exact ⟨[], q1.andThen q2, Or.inl rfl⟩
          | some v =>
            obtain ⟨⟨breaking, upd⟩, patched⟩ := v
            simp only []
            have q3 := (updateMap_quiet env cm clusterAgent s false w2).deletes
            cases h3 : updateMap env cm clusterAgent s false w2 with
            | mk r3 w3 =>
              rw [h3] at q3
              obtain ⟨e3, cm1⟩ := r3
              have q03 := (q1.andThen q2).andThen q3
              cases e3 with
              | error e => exact ⟨[], q03, Or.inl rfl⟩
              | ok ub =>
                simp only []
                cases breaking with
                | true =>
                  simp only [if_true]
                  obtain ⟨ds, hd, hds⟩ := restartAgent_deletes clusterAgent w3
                  cases h4 : restartAgent clusterAgent w3 with
                  | mk e4 w4 =>
                    rw [h4] at hd
                    cases e4 <;> exact ⟨_, q03.andThen hd, by simpa using hds⟩
                | false =>
                  simp only [Bool.false_eq_true, if_false]
                  cases upd with
                  | true =>
                    simp only [if_true]
                    have t4 := clientUpdate_trace (fun _ _ => rfl) patched w3
                    have d4 : DeleteStep w3 (clientUpdate patched w3).2 [] :=
                      DeleteStep.single _ _ _ (by rfl) t4
                    cases h4 : clientUpdate patched w3 with
                    | mk e4 w4 =>
                      rw [h4] at d4
                      cases e4 <;> exact ⟨[], q03.andThen d4, Or.inl rfl⟩
                  | false =>
                    simp only [Bool.false_eq_true, if_false]
                    exact ⟨[], q03.andThen (updateStatus_quiet env clusterAgent ub w3).deletes,
                      Or.inl rfl⟩

/-- The deletes of the provisioning branch: none, or the bundle `adam-config`. -/
theorem reconcileMissing_deletes (env : Env) (clusterAgent : Adam) (w : World) :
    ∃ ds : List Call, DeleteStep w (reconcileMissing env clusterAgent w).2 ds ∧
      (ds = [] ∨ ∃ cm : ConfigMap, cm.Name = "adam-config" ∧
        ds = [Call.delete (Obj.configMap cm)]) := by
  unfold reconcileMissing
  simp only []
  obtain ⟨ds, d0, hds⟩ := cleanUp_deletes (some clusterAgent) w
  have hds2 : ds = [] ∨ ∃ cm : ConfigMap, cm.Name = "adam-config" ∧
      ds = [Call.delete (Obj.configMap cm)] := by
    rcases hds with h | ⟨cm, h1, -, h3⟩
    · exact Or.inl h
    · exact Or.inr ⟨cm, h1, h3⟩
  have q1 := (ensureSecret_quiet clusterAgent (cleanUp (some clusterAgent) w)).deletes
  cases h1 : ensureSecret clusterAgent (cleanUp (some clusterAgent) w) with
  | mk r1 w1 =>
    rw [h1] at q1
    have q01 := d0.andThen q1
    cases r1 with
    | error e => exact ⟨_, q01, by simpa using hds2⟩
    | ok s =>
      simp only []
      have q2 := (ensureConfigMap_quiet env clusterAgent s true w1).deletes
      cases h2 : ensureConfigMap env clusterAgent s true w1 with
      | mk r2 w2 =>
        rw [h2] at q2
        have q02 := q01.andThen q2
        cases r2 with
        | none => exact ⟨_, q02, by simpa using hds2⟩
        | some r2 =>
        cases r2 with
        | error e => exact ⟨_, q02, by simpa using hds2⟩
        | ok cb =>
          obtain ⟨cm, bag⟩ := cb
          simp only []
          have q3 := (ensureAgentService_quiet clusterAgent bag w2).deletes
          cases h3 : ensureAgentService clusterAgent bag w2 with
          | mk r3 w3 =>
            rw [h3] at q3
            have q03 := q02.andThen q3
            cases r3 with
            | error e => exact ⟨_, q03, by simpa using hds2⟩
            | ok svc =>
              simp only []
              have t4 := clientCreate_trace (fun _ _ => rfl)
                (newAgentDeployment clusterAgent s bag).1 w3
              have d4 : DeleteStep w3
                  (clientCreate (newAgentDeployment clusterAgent s bag).1 w3).2 [] :=
                DeleteStep.single _ _ _ (by rfl) t4
              cases h4 : clientCreate (newAgentDeployment clusterAgent s bag).1 w3 with
              | mk e4 w4 =>
                rw [h4] at d4
                have q04 := q03.andThen d4
                cases e4 with
                | some e0 => exact ⟨_, q04, by simpa using hds2⟩
                | none =>
                  simp only []
                  exact ⟨_, q04.andThen (updateStatus_quiet env
                    (newAgentDeployment clusterAgent s bag).2 bag w4).deletes,
                    by simpa using hds2⟩

/-- C17: on every path through the primary agent's `Reconcile` (desired state absent,
provisioning, steady with any verdict, any failure of any call) the pass issues at
most one delete, and it is a delete of a ConfigMap named `adam-config` or of a Pod;
no delete is ever issued against a Secret. -/
theorem deletes_bundle_or_pod_only (env : Env) (request : Request) (w : World) :
    ((((Reconcile env request w).2.since w).filter Call.isDelete = []) ∨
      (∃ cm : ConfigMap, cm.Name = "adam-config" ∧
        ((Reconcile env request w).2.since w).filter Call.isDelete =
          [Call.delete (Obj.configMap cm)]) ∨
      (∃ pod : Pod, ((Reconcile env request w).2.since w).filter Call.isDelete =
        [Call.delete (Obj.pod pod)])) ∧
      ∀ secret : Secret, Call.delete (Obj.secret secret) ∉ (Reconcile env request w).2.since w := by
  have key : ∃ ds : List Call, DeleteStep w (Reconcile env request w).2 ds ∧
      (ds = [] ∨ (∃ cm : ConfigMap, cm.Name = "adam-config" ∧
        ds = [Call.delete (Obj.configMap cm)]) ∨
        ∃ pod : Pod, ds = [Call.delete (Obj.pod pod)]) := by
    unfold Reconcile
    have q1 := (@clientGet_quiet Adam _ request.Namespace request.Name w).deletes
    cases h1 : (clientGet request.Namespace request.Name w : Except Error Adam × World) with
    | mk r1 w1 =>
      rw [h1] at q1
      cases r1 with
      | error e =>
        simp only []
        split
        · obtain ⟨ds, d0, hds⟩ := cleanUp_deletes none w1
          refine ⟨_, q1.andThen d0, ?_⟩
          rcases hds with h | ⟨cm, h1, -, h3⟩
          · exact Or.inl (by simpa using h)
          · exact Or.inr (Or.inl ⟨cm, h1, by simpa using h3⟩)
        · exact ⟨[], q1, Or.inl rfl⟩
      | ok a =>
        simp only []
        have q2 := (@clientGet_quiet Deployment _ a.Namespace a.Name w1).deletes
        cases h2 : (clientGet a.Namespace a.Name w1 : Except Error Deployment × World) with
        | mk r2 w2 =>
          rw [h2] at q2
          have q02 := q1.andThen q2
          cases r2 with
          | error e =>
            simp only []
            split
            · obtain ⟨ds, d0, hds⟩ := reconcileMissing_deletes env a w2
              refine ⟨_, q02.andThen d0, ?_⟩
              rcases hds with h | ⟨cm, h1, h3⟩
              · exact Or.inl (by simpa using h)
              · exact Or.inr (Or.inl ⟨cm, h1, by simpa using h3⟩)
            · exact ⟨[], q02, Or.inl rfl⟩
          | ok d =>
            simp only []
            obtain ⟨ds, d0, hds⟩ := reconcileExisting_deletes env a d w2
            refine ⟨_, q02.andThen d0, ?_⟩
            rcases hds with h | ⟨pod, h3⟩
            · exact Or.inl (by simpa using h)
            · exact Or.inr (Or.inr ⟨pod, by simpa using h3⟩)
  obtain ⟨ds, hd, hds⟩ := key
  have hs := hd.filtered
  constructor
  · rcases hds with h | ⟨cm, h1, h2⟩ | ⟨pod, h2⟩
    · exact Or.inl (by rw [hs, h])
    · exact Or.inr (Or.inl ⟨cm, h1, by rw [hs, h2]⟩)
    · exact Or.inr (Or.inr ⟨pod, by rw [hs, h2]⟩)
  · intro secret hmem
    have hin : Call.delete (Obj.secret secret) ∈
        ((Reconcile env request w).2.since w).filter Call.isDelete :=
      List.mem_filter.mpr ⟨hmem, rfl⟩
    rw [hs] at hin
    rcases hds with h | ⟨cm, -, h2⟩ | ⟨pod, h2⟩
    · rw [h] at hin; simp at hin
    · rw [h2] at hin; simp at hin
    · rw [h2] at hin; simp at hin

end adam

/-- A Deployment that `Create` accepted is the stored object under its key. -/
theorem clientCreate_stored (d : Deployment) (w w1 : World)
    (h : clientCreate d w = (none, w1)) : w1.lookup d.Namespace d.Name = some d := by
  unfold clientCreate at h
  by_cases hfa : w.faulty = true
  · simp [hfa] at h
  · simp only [hfa, Bool.false_eq_true, if_false] at h
    cases hl : (w.lookup (ApiObject.ns d) (ApiObject.name d) : Option Deployment) with
    | some x => rw [hl] at h; simp at h
    | none =>
      rw [hl] at h
      simp only [Prod.mk.injEq, true_and] at h
      rw [← h]
      have hn : w.deployments.find? (hasKey d.Namespace d.Name) = none := hl
      have := find_append_new (hasKey d.Namespace d.Name) w.deployments d hn (hasKey_self d)
      simpa [World.lookup, World.issue, ApiObject.all, ApiObject.put] using this

namespace adam

/-- The Deployment built by `newAgentDeployment`: its key is the one of the desired
state, it has one replica, it is owned by the desired state, and its only container
runs the desired image, or the default image when none is given. -/
theorem newAgentDeployment_fields (clusterAgent : Adam) (secret : Secret) (bag : AppDBag) :
    (newAgentDeployment clusterAgent secret bag).1.Name = clusterAgent.Name ∧
      (newAgentDeployment clusterAgent secret bag).1.Namespace = clusterAgent.Namespace ∧
      (newAgentDeployment clusterAgent secret bag).1.Replicas = 1 ∧
      (newAgentDeployment clusterAgent secret bag).1.Owner = some clusterAgent.Name ∧
      (newAgentDeployment clusterAgent secret bag).1.Containers.map Container.Image =
        [if clusterAgent.Spec.Image = "" then "appdynamics/cluster-agent:latest"
         else clusterAgent.Spec.Image] := by
  unfold newAgentDeployment
  by_cases hi : clusterAgent.Spec.Image = "" <;> simp [hi]

/-- The steps behind `provisionDecision`. -/
theorem provisionDecision_inv (env : Env) (request : Request) (w : World) (x : Provision)
    (h : provisionDecision env request w = some x) :
    ∃ (w1 w2 w3 w4 w5 : World) (cm : ConfigMap) (svc : Service),
      clientGet request.Namespace request.Name w = (Except.ok x.clusterAgent, w1) ∧
      (clientGet x.clusterAgent.Namespace x.clusterAgent.Name w1 :
        Except Error Deployment × World) = (Except.error Error.notFound, w2) ∧
      x.cleaned = cleanUp (some x.clusterAgent) w2 ∧
      ensureSecret x.clusterAgent x.cleaned = (Except.ok x.secret, w3) ∧
      ensureConfigMap env x.clusterAgent x.secret true w3 = (some (Except.ok (cm, x.bag)), w4) ∧
      ensureAgentService x.clusterAgent x.bag w4 = (Except.ok svc, w5) ∧
      x.dep = (newAgentDeployment x.clusterAgent x.secret x.bag).1 ∧
      x.owner = (newAgentDeployment x.clusterAgent x.secret x.bag).2 ∧
      clientCreate x.dep w5 = (none, x.world) := by
  unfold provisionDecision at h
  cases h1 : (clientGet request.Namespace request.Name w : Except Error Adam × World) with
  | mk r1 w1 =>
    rw [h1] at h
    cases r1 with
    | error e => simp at h
    | ok a =>
      simp only [] at h
      cases h2 : (clientGet a.Namespace a.Name w1 : Except Error Deployment × World) with
      | mk r2 w2 =>
        rw [h2] at h
        cases r2 with
        | ok d => simp at h
        | error e =>
          simp only [] at h
          by_cases he : e = Error.notFound
          · subst he
            simp only [if_true] at h
            cases h3 : ensureSecret a (cleanUp (some a) w2) with
            | mk r3 w3 =>
              rw [h3] at h
              cases r3 with
              | error e => simp at h
              | ok s =>
                simp only [] at h
                cases h4 : ensureConfigMap env a s true w3 with
                | mk r4 w4 =>
                  rw [h4] at h
                  cases r4 with
                  | none => simp at h
                  | some r4 =>
                  cases r4 with
                  | error e => simp at h
                  | ok cb =>
                    obtain ⟨cm, bag⟩ := cb
                    simp only [] at h
                    cases h5 : ensureAgentService a bag w4 with
                    | mk r5 w5 =>
                      rw [h5] at h
                      cases r5 with
                      | error e => simp at h
                      | ok svc =>
                        simp only [] at h
                        cases h6 : clientCreate (newAgentDeployment a s bag).1 w5 with
                        | mk e6 w6 =>
                          rw [h6] at h
                          cases e6 with
                          | some e0 => simp at h
                          | none =>
                            simp only [Option.some.injEq] at h
                            subst h
                            exact ⟨w1, w2, w3, w4, w5, cm, svc, rfl, h2, rfl, h3, h4, h5, rfl,
                              rfl, h6⟩
          · simp [he] at h

/-- A pass that creates the Deployment ends with the status write and no error. -/
theorem Reconcile_of_provisionDecision (env : Env) (request : Request) (w : World)
    (x : Provision) (h : provisionDecision env request w = some x) :
    Reconcile env request w =
      (some (Result.empty, none), (updateStatus env x.owner x.bag x.world).2) := by
  obtain ⟨w1, w2, w3, w4, w5, cm, svc, e1, e2, e3, e4, e5, e6, e7, e8, e9⟩ :=
    provisionDecision_inv env request w x h
  rw [e3] at e4
  rw [e7] at e9
  unfold Reconcile
  rw [e1]
  simp only []
  rw [e2]
  simp only [if_true]
  unfold reconcileMissing
  simp only []
  rw [e4]
  simp only []
  rw [e5]
  simp only []
  rw [e6]
  simp only []
  rw [e9, e8]

/-- The calls of a pass that creates the Deployment: quiet ones, then those of the
cleanup, then quiet ones, then the creation. -/
theorem provisionDecision_calls (env : Env) (request : Request) (w : World) (x : Provision)
    (h : provisionDecision env request w = some x) :
    ∃ calls : List Call, x.world.trace = w.trace ++ calls ∧
      (loud calls = [Call.create (Obj.deployment x.dep)] ∨
        ∃ cm : ConfigMap, cm.Name = "adam-config" ∧
          cm.Namespace = x.clusterAgent.Namespace ∧
          loud calls = [Call.delete (Obj.configMap cm), Call.create (Obj.deployment x.dep)]) := by
  obtain ⟨w1, w2, w3, w4, w5, cm, svc, e1, e2, e3, e4, e5, e6, e7, e8, e9⟩ :=
    provisionDecision_inv env request w x h
  have q1 := @clientGet_quiet Adam _ request.Namespace request.Name w
  rw [e1] at q1
  have q2 := @clientGet_quiet Deployment _ x.clusterAgent.Namespace x.clusterAgent.Name w1
  rw [e2] at q2
  obtain ⟨c0, t0, hc0⟩ := cleanUp_loud (some x.clusterAgent) w2
  rw [← e3] at t0
  have q3 := ensureSecret_quiet x.clusterAgent x.cleaned
  rw [e4] at q3
  have q4 := ensureConfigMap_quiet env x.clusterAgent x.secret true w3
  rw [e5] at q4
  have q5 := ensureAgentService_quiet x.clusterAgent x.bag w4
  rw [e6] at q5
  have t6 := clientCreate_trace (fun _ _ => rfl) x.dep w5
  rw [e9] at t6
  simp only [] at q1 q2 q3 q4 q5 t6
  obtain ⟨l1, t1, hl1⟩ := (q1.trans q2).trace
  obtain ⟨l2, t2, hl2⟩ := ((q3.trans q4).trans q5).trace
  refine ⟨l1 ++ c0 ++ l2 ++ [Call.create (Obj.deployment x.dep)], ?_, ?_⟩
  · rw [t6, t2, t0, t1]
    simp [List.append_assoc, ApiObject.toObj]
  · have hl : loud (l1 ++ c0 ++ l2 ++ [Call.create (Obj.deployment x.dep)]) =
        loud c0 ++ [Call.create (Obj.deployment x.dep)] := by
      unfold loud at hl1 hl2 ⊢
      rw [List.filter_append, List.filter_append, List.filter_append, hl1, hl2]
      simp [Call.quiet]
    rw [hl]
    rcases hc0 with h0 | ⟨cm0, h1, h2, h3⟩
    · left
      rw [h0]
      rfl
    · right
      exact ⟨cm0, h1, h2, by rw [h3]; rfl⟩

/-- C15: a pass that finds the desired state, finds no Deployment under its key, and
whose ensure steps and creation succeed, has created a Deployment with the name and
namespace of the desired state, one replica and the desired image (the default image
when the desired state names none); it returns no error and no requeue; it deletes no
pod (its only loud calls are the creation, after at most a delete of the bundle
`adam-config`); the created Deployment is the stored one at the end of the pass.  The
reply of the agent's status endpoint is not constrained. -/
theorem provisioning_pass (env : Env) (request : Request) (w : World) (x : Provision)
    (hx : provisionDecision env request w = some x) :
    (Reconcile env request w).1 = some (Result.empty, none) ∧
      x.dep.Name = x.clusterAgent.Name ∧
      x.dep.Namespace = x.clusterAgent.Namespace ∧
      x.dep.Replicas = 1 ∧
      x.dep.Containers.map Container.Image =
        [if x.clusterAgent.Spec.Image = "" then "appdynamics/cluster-agent:latest"
         else x.clusterAgent.Spec.Image] ∧
      (w.lookup x.clusterAgent.Namespace x.clusterAgent.Name : Option Deployment) = none ∧
      (Reconcile env request w).2.lookup x.clusterAgent.Namespace x.clusterAgent.Name =
        some x.dep ∧
      (loud ((Reconcile env request w).2.since w) = [Call.create (Obj.deployment x.dep)] ∨
        ∃ cm : ConfigMap, cm.Name = "adam-config" ∧
          loud ((Reconcile env request w).2.since w) =
            [Call.delete (Obj.configMap cm), Call.create (Obj.deployment x.dep)]) ∧
      ∀ pod : Pod, Call.delete (Obj.pod pod) ∉ (Reconcile env request w).2.since w := by
  obtain ⟨w1, w2, w3, w4, w5, cm, svc, e1, e2, e3, e4, e5, e6, e7, e8, e9⟩ :=
    provisionDecision_inv env request w x hx
  obtain ⟨f1, f2, f3, -, f5⟩ := newAgentDeployment_fields x.clusterAgent x.secret x.bag
  rw [← e7] at f1 f2 f3 f5
  obtain ⟨calls, tc, hcalls⟩ := provisionDecision_calls env request w x hx
  obtain ⟨l3, t3, hl3⟩ := (updateStatus_quiet env x.owner x.bag x.world).trace
  have hs : (updateStatus env x.owner x.bag x.world).2.since w = calls ++ l3 :=
    since_of_trace _ _ _ (by rw [t3, tc, List.append_assoc])
  have hloud : loud ((updateStatus env x.owner x.bag x.world).2.since w) = loud calls := by
    rw [hs]
    unfold loud at hl3 ⊢
    rw [List.filter_append, hl3, List.append_nil]
  have hstored := clientCreate_stored x.dep w5 x.world e9
  rw [f1, f2] at hstored
  have hdeps := (updateStatus_frame env x.owner x.bag x.world).1
  have hnone : (w.lookup x.clusterAgent.Namespace x.clusterAgent.Name : Option Deployment) =
      none := by
    have g1 := @clientGet_world Adam _ request.Namespace request.Name w
    rw [e1] at g1
    simp only [] at g1
    unfold clientGet at e2
    by_cases hfa : w1.faulty = true
    · simp [hfa] at e2
    · simp only [hfa, Bool.false_eq_true, if_false] at e2
      cases hl : (w1.lookup x.clusterAgent.Namespace x.clusterAgent.Name :
          Option Deployment) with
      | some d => rw [hl] at e2; simp at e2
      | none =>
        rw [g1] at hl
        exact hl
  rw [Reconcile_of_provisionDecision env request w x hx]
  refine ⟨rfl, f1, f2, f3, f5, hnone, ?_, ?_, ?_⟩
  · show (updateStatus env x.owner x.bag x.world).2.deployments.find? _ = some x.dep
    rw [hdeps]
    exact hstored
  · simp only []
    rw [hloud]
    rcases hcalls with h | ⟨cm0, h1, -, h3⟩
    · exact Or.inl h
    · exact Or.inr ⟨cm0, h1, h3⟩
  · intro pod hmem
    simp only [] at hmem
    have hin : Call.delete (Obj.pod pod) ∈ loud ((updateStatus env x.owner x.bag x.world).2.since w) :=
      List.mem_filter.mpr ⟨hmem, rfl⟩
    rw [hloud] at hin
    rcases hcalls with h | ⟨cm0, -, -, h3⟩
    · rw [h] at hin; simp at hin
    · rw [h3] at hin; simp at hin

/-- Witness of C15 on the cluster `freshWorld`, which holds the desired state only. -/
theorem provisioning_pass_witness :
    (Reconcile sampleEnv sampleRequest freshWorld).1 = some (Result.empty, none) ∧
      (sampleProvision freshWorld).dep.Name = "agent" ∧
      (sampleProvision freshWorld).dep.Replicas = 1 ∧
      (sampleProvision freshWorld).dep.Containers.map Container.Image = ["agent:1.1"] ∧
      (Reconcile sampleEnv sampleRequest freshWorld).2.lookup "appd" "agent" =
        some (sampleProvision freshWorld).dep := by
  have h := provisioning_pass sampleEnv sampleRequest freshWorld (sampleProvision freshWorld) rfl
  exact ⟨h.1, h.2.1, h.2.2.2.1, h.2.2.2.2.1, h.2.2.2.2.2.2.1⟩

end adam

namespace adam

/-- C16: when the read of the desired state returns NotFound, `Reconcile` returns the
empty result and a nil error; its calls are that read, the read of the bundle
`adam-config` in the namespace `appdynamics`, and a delete of the bundle when the
second read returned it (whatever the outcome of that delete); it issues no create,
no update and no status update. -/
theorem absent_pass (env : Env) (request : Request) (w : World)
    (h : (clientGet request.Namespace request.Name w : Except Error Adam × World).1 =
      Except.error Error.notFound) :
    (Reconcile env request w).1 = some (Result.empty, none) ∧
      ((Reconcile env request w).2.since w =
          [Call.get Kind.adam request.Namespace request.Name,
           Call.get Kind.configMap "appdynamics" "adam-config"] ∨
        ∃ cm : ConfigMap, cm.Name = "adam-config" ∧ cm.Namespace = "appdynamics" ∧
          (Reconcile env request w).2.since w =
            [Call.get Kind.adam request.Namespace request.Name,
             Call.get Kind.configMap "appdynamics" "adam-config",
             Call.delete (Obj.configMap cm)]) ∧
      ∀ o : Obj, Call.create o ∉ (Reconcile env request w).2.since w ∧
        Call.update o ∉ (Reconcile env request w).2.since w ∧
        Call.statusUpdate o ∉ (Reconcile env request w).2.since w := by
  have g1 := @clientGet_world Adam _ request.Namespace request.Name w
  have key : (Reconcile env request w).1 = some (Result.empty, none) ∧
      ((Reconcile env request w).2.since w =
          [Call.get Kind.adam request.Namespace request.Name,
           Call.get Kind.configMap "appdynamics" "adam-config"] ∨
        ∃ cm : ConfigMap, cm.Name = "adam-config" ∧ cm.Namespace = "appdynamics" ∧
          (Reconcile env request w).2.since w =
            [Call.get Kind.adam request.Namespace request.Name,
             Call.get Kind.configMap "appdynamics" "adam-config",
             Call.delete (Obj.configMap cm)]) := by
    unfold Reconcile
    cases h1 : (clientGet request.Namespace request.Name w : Except Error Adam × World) with
    | mk r1 w1 =>
      rw [h1] at h g1
      simp only [] at h g1
      subst h
      simp only [if_true]
      have t1 : w1.trace = w.trace ++ [Call.get Kind.adam request.Namespace request.Name] := by
        rw [g1]; rfl
      refine ⟨trivial, ?_⟩
      rcases cleanUp_calls none w1 with hc | ⟨cm, n1, n2, hc⟩
      · left
        exact since_of_trace _ _ _ (by rw [hc, t1, List.append_assoc]; rfl)
      · right
        exact ⟨cm, n1, n2, since_of_trace _ _ _ (by rw [hc, t1, List.append_assoc]; rfl)⟩
  refine ⟨key.1, key.2, ?_⟩
  intro o
  rcases key.2 with hs | ⟨cm, -, -, hs⟩ <;> rw [hs] <;> simp

/-- Witness of C16 on the cluster `absentWorld`, which holds a left-over bundle: once
with no failure, once with the delete of the bundle failing. -/
theorem absent_pass_witness :
    ((Reconcile sampleEnv sampleRequest absentWorld).1 = some (Result.empty, none) ∧
      (Reconcile sampleEnv sampleRequest absentWorld).2.configMaps = []) ∧
    ((Reconcile sampleEnv sampleRequest (absentWorldWith [2])).1 = some (Result.empty, none) ∧
      (Reconcile sampleEnv sampleRequest (absentWorldWith [2])).2.configMaps =
        absentWorld.configMaps) :=
  ⟨⟨(absent_pass sampleEnv sampleRequest absentWorld rfl).1, rfl⟩,
   ⟨(absent_pass sampleEnv sampleRequest (absentWorldWith [2]) rfl).1, rfl⟩⟩

/-- C18: `ensureSecret`.  When the read of the Secret `cluster-agent-secret` in the
namespace of the desired state returns NotFound, and the creation and the second read
succeed, the call returns the Secret read back, without error; its calls are the read,
the creation of a Secret under that name in that namespace whose string data are
exactly the keys `api-user`, `controller-key` and `event-key` with the empty string,
and the second read.  When the first read returns the Secret, it is returned as it is
and the read is the only call. -/
theorem ensureSecret_contract (clusterAgent : Adam) (w : World) :
    (∀ (w1 w2 w3 : World) (s : Secret),
      (clientGet clusterAgent.Namespace AGENT_SECRET_NAME w : Except Error Secret × World) =
          (Except.error Error.notFound, w1) →
        clientCreate (emptySecret clusterAgent) w1 = (none, w2) →
        clientGet clusterAgent.Namespace AGENT_SECRET_NAME w2 = (Except.ok s, w3) →
        ensureSecret clusterAgent w = (Except.ok s, w3) ∧
          w3.since w =
            [Call.get Kind.secret clusterAgent.Namespace "cluster-agent-secret",
             Call.create (Obj.secret (emptySecret clusterAgent)),
             Call.get Kind.secret clusterAgent.Namespace "cluster-agent-secret"] ∧
          w3.secrets = w.secrets ++ [emptySecret clusterAgent]) ∧
      (∀ (w1 : World) (s : Secret),
        clientGet clusterAgent.Namespace AGENT_SECRET_NAME w = (Except.ok s, w1) →
        ensureSecret clusterAgent w = (Except.ok s, w1) ∧
          w.lookup clusterAgent.Namespace "cluster-agent-secret" = some s ∧
          w1.since w = [Call.get Kind.secret clusterAgent.Namespace "cluster-agent-secret"] ∧
          w1.secrets = w.secrets) ∧
      (emptySecret clusterAgent).Name = "cluster-agent-secret" ∧
      (emptySecret clusterAgent).Namespace = clusterAgent.Namespace ∧
      (emptySecret clusterAgent).StringData =
        [("api-user", ""), ("controller-key", ""), ("event-key", "")] ∧
      (emptySecret clusterAgent).Data = [] := by
  refine ⟨?_, ?_, rfl, rfl, rfl, rfl⟩
  · intro w1 w2 w3 s h1 h2 h3
    have g1 := @clientGet_world Secret _ clusterAgent.Namespace AGENT_SECRET_NAME w
    have g3 := @clientGet_world Secret _ clusterAgent.Namespace AGENT_SECRET_NAME w2
    have c2 := clientCreate_inv (emptySecret clusterAgent) w1 w2 h2
    rw [h1] at g1
    rw [h3] at g3
    simp only [] at g1 g3
    refine ⟨?_, ?_, ?_⟩
    · unfold ensureSecret
      rw [h1]
      simp only [if_true]
      rw [h2]
      simp only []
      rw [h3]
    · apply since_of_trace
      rw [g3, c2, g1]
      simp [World.issue, ApiObject.put, ApiObject.toObj, ApiObject.kind, AGENT_SECRET_NAME]
    · rw [g3, c2, g1]
      simp [World.issue, ApiObject.put, ApiObject.all]
  · intro w1 s h1
    obtain ⟨hl, hw⟩ := clientGet_ok _ _ _ _ _ h1
    refine ⟨?_, hl, ?_, ?_⟩
    · unfold ensureSecret
      rw [h1]
    · apply since_of_trace
      rw [hw]
      simp [World.issue, ApiObject.kind, AGENT_SECRET_NAME]
    · rw [hw]
      rfl

/-- Witness of C18: on `freshWorld`, which holds no Secret, the empty Secret is created
and returned; on `steadyWorld "2"`, which holds `sampleSecret`, that one is returned. -/
theorem ensureSecret_contract_witness :
    (ensureSecret sampleAgent freshWorld).1 = Except.ok (emptySecret sampleAgent) ∧
      (ensureSecret sampleAgent freshWorld).2.secrets = [emptySecret sampleAgent] ∧
      (ensureSecret sampleAgent (steadyWorld "2")).1 = Except.ok sampleSecret ∧
      (ensureSecret sampleAgent (steadyWorld "2")).2.secrets = [sampleSecret] := by
  have h1 := (ensureSecret_contract sampleAgent freshWorld).1 _ _ _ (emptySecret sampleAgent)
    rfl rfl rfl
  have h2 := (ensureSecret_contract sampleAgent (steadyWorld "2")).2.1 _ sampleSecret rfl
  refine ⟨by rw [h1.1], ?_, by rw [h2.1], ?_⟩
  · rw [h1.1]
    exact h1.2.2
  · rw [h2.1]
    exact h2.2.2.2

/-- C20: when `updateMap` is called with `create = true` and succeeds, the snapshot it
returns is the resolved one with `InstrumentationUpdated` set to false, whatever the
resolver computed; the text stored under `adam-config.json` in the created ConfigMap
is the serialization of that snapshot; the creation is the only call.  The branch of
`ensureConfigMap` for a bundle that is not found is such a call, whatever `create`
flag `ensureConfigMap` itself was given. -/
theorem fresh_bundle_flag (env : Env) (cm cm1 : ConfigMap) (clusterAgent : Adam)
    (secret : Secret) (w w1 : World) (bag : AppDBag)
    (h : updateMap env cm clusterAgent secret true w = ((Except.ok bag, cm1), w1)) :
    bag = { env.resolve clusterAgent secret with InstrumentationUpdated := false } ∧
      bag.InstrumentationUpdated = false ∧
      (∃ t : String, env.marshal bag = some t ∧
        cm1 = { cm with Data := [("adam-config.json", t)] }) ∧
      w1.since w = [Call.create (Obj.configMap cm1)] ∧
      w1.configMaps = w.configMaps ++ [cm1] ∧
      ∀ (create : Bool) (v v1 v2 : World) (cm2 : ConfigMap) (bag2 : AppDBag),
        (clientGet clusterAgent.Namespace "adam-config" v : Except Error ConfigMap × World) =
            (Except.error Error.notFound, v1) →
          ensureConfigMap env clusterAgent secret create v = (some (Except.ok (cm2, bag2)), v2) →
          ∃ created : AppDBag,
            updateMap env
                { ConfigMap.zero with Name := "adam-config", Namespace := clusterAgent.Namespace }
                clusterAgent secret true v1 = ((Except.ok created, cm2), v2) ∧
              created.InstrumentationUpdated = false := by
  have main : ∀ (c c1 : ConfigMap) (u u1 : World) (b : AppDBag),
      updateMap env c clusterAgent secret true u = ((Except.ok b, c1), u1) →
      b = { env.resolve clusterAgent secret with InstrumentationUpdated := false } ∧
        (∃ t : String, env.marshal b = some t ∧ c1 = { c with Data := [("adam-config.json", t)] }) ∧
        clientCreate c1 u = (none, u1) := by
    intro c c1 u u1 b hu
    unfold updateMap at hu
    simp only [if_true] at hu
    cases hm : env.marshal
        { env.resolve clusterAgent secret with InstrumentationUpdated := false } with
    | none => rw [hm] at hu; simp at hu
    | some t =>
      rw [hm] at hu
      simp only [] at hu
      cases hc : clientCreate ({ c with Data := [("adam-config.json", t)] } : ConfigMap) u with
      | mk e u2 =>
        rw [hc] at hu
        cases e with
        | some e0 => simp at hu
        | none =>
          simp only [Prod.mk.injEq, Except.ok.injEq] at hu
          obtain ⟨⟨hb, hc1⟩, hu1⟩ := hu
          subst hb hc1 hu1
          exact ⟨rfl, ⟨t, hm, rfl⟩, hc⟩
  obtain ⟨hb, ht, hc⟩ := main cm cm1 w w1 bag h
  have c2 := clientCreate_inv cm1 w w1 hc
  refine ⟨hb, by rw [hb], ht, ?_, ?_, ?_⟩
  · apply since_of_trace
    rw [c2]
    simp [World.issue, ApiObject.put, ApiObject.toObj]
  · rw [c2]
    simp [World.issue, ApiObject.put, ApiObject.all]
  · intro create v v1 v2 cm2 bag2 hg he
    unfold ensureConfigMap at he
    rw [hg] at he
    simp only [ne_eq, not_true_eq_false, if_false] at he
    cases hu : updateMap env
        { ConfigMap.zero with Name := "adam-config", Namespace := clusterAgent.Namespace }
        clusterAgent secret true v1 with
    | mk r u2 =>
      obtain ⟨r1, c1⟩ := r
      rw [hu] at he
      cases r1 with
      | error e => simp at he
      | ok created =>
        simp only [] at he
        cases hr : readBag env c1 created secret with
        | none => rw [hr] at he; simp at he
        | some r2 =>
        cases r2 with
        | error e => rw [hr] at he; simp at he
        | ok b2 =>
          rw [hr] at he
          simp only [Prod.mk.injEq, Option.some.injEq, Except.ok.injEq] at he
          obtain ⟨⟨hc2, -⟩, hv⟩ := he
          subst hc2 hv
          refine ⟨created, rfl, ?_⟩
          rw [(main _ _ _ _ _ hu).1]

/-- Witness of C20: with a resolver that raises the flag, on `freshWorld`. -/
theorem fresh_bundle_flag_witness :
    (flaggedEnv.resolve sampleAgent sampleSecret).InstrumentationUpdated = true ∧
      ((updateMap flaggedEnv freshBundle sampleAgent sampleSecret true freshWorld).1.1.toOption.map
        AppDBag.InstrumentationUpdated) = some false := by
  cases hu : updateMap flaggedEnv freshBundle sampleAgent sampleSecret true freshWorld with
  | mk r w1 =>
    obtain ⟨r1, cm1⟩ := r
    cases r1 with
    | error e =>
      exfalso
      have hd : (updateMap flaggedEnv freshBundle sampleAgent sampleSecret true
          freshWorld).1.1.toOption.isSome = true := by decide
      rw [hu] at hd
      simp [Except.toOption] at hd
    | ok bag =>
      have h := fresh_bundle_flag flaggedEnv freshBundle cm1 sampleAgent sampleSecret
        freshWorld w1 bag hu
      exact ⟨rfl, by simp [Except.toOption, h.2.1]⟩

end adam

namespace adam

/-- A successful `ensureConfigMap` on a stored bundle returns that bundle and the bag
decoded from its text, stamped with the revision of the secret. -/
theorem ensureConfigMap_read (env : Env) (clusterAgent : Adam) (secret : Secret)
    (create : Bool) (w w1 : World) (cm cm0 : ConfigMap) (bag : AppDBag)
    (h : ensureConfigMap env clusterAgent secret create w = (some (Except.ok (cm, bag)), w1))
    (hcm : w.lookup clusterAgent.Namespace "adam-config" = some cm0) :
    cm = cm0 ∧ w1.configMaps = w.configMaps ∧
      ∃ b : AppDBag, env.unmarshal (mapGet cm0.Data "adam-config.json") AppDBag.zero = some b ∧
        bag = { b with SecretVersion := secret.ResourceVersion } := by
  unfold ensureConfigMap at h
  have g1 := @clientGet_world ConfigMap _ clusterAgent.Namespace "adam-config" w
  cases h1 : (clientGet clusterAgent.Namespace "adam-config" w :
      Except Error ConfigMap × World) with
  | mk r1 w2 =>
    rw [h1] at h g1
    simp only [] at g1
    cases r1 with
    | error e =>
      exfalso
      unfold clientGet at h1
      by_cases hfa : w.faulty = true
      · simp only [hfa, if_true, Prod.mk.injEq, Except.error.injEq] at h1
        obtain ⟨he, -⟩ := h1
        subst he
        simp at h
      · simp only [hfa, Bool.false_eq_true, if_false] at h1
        rw [hcm] at h1
        simp at h1
    | ok c =>
      obtain ⟨hl, -⟩ := clientGet_ok _ _ _ _ _ h1
      rw [hcm] at hl
      simp only [Option.some.injEq] at hl
      subst hl
      simp only [] at h
      unfold readBag at h
      cases hu : env.unmarshal (mapGet cm0.Data "adam-config.json") AppDBag.zero with
      | none =>
        rw [hu] at h
        by_cases hn : env.nullDocument (mapGet cm0.Data "adam-config.json") = true <;>
          simp [hn] at h
      | some b =>
        rw [hu] at h
        simp only [Prod.mk.injEq, Option.some.injEq, Except.ok.injEq] at h
        obtain ⟨⟨hc, hb⟩, hw⟩ := h
        refine ⟨hc.symm, ?_, b, rfl, hb.symm⟩
        rw [← hw, g1]
        rfl

end adam

/-! ## The dependent resources and the failure paths -/

/-- A world with one more call in its trace, its trace put back, is the world. -/
theorem issue_restore (w : World) (c : Call) : { w.issue c with trace := w.trace } = w := by
  cases w
  rfl

namespace adam

/-- C21: `ensureAgentService`.  When the read of the Service named after the desired
state returns it, the call returns it without error and the read is the only call.
When the read returns NotFound, the calls are the read and one creation, of a Service
with the name and namespace of the desired state whose selector is the label set of
the workload and whose only port is the `AgentServerPort` of the snapshot, the port
the container of the Deployment built from that snapshot exposes; when the creation
succeeds the call returns without error and that Service is stored. -/
theorem ensureAgentService_contract (clusterAgent : Adam) (bag : AppDBag) (w : World) :
    (∀ (w1 : World) (svc : Service),
      clientGet clusterAgent.Namespace clusterAgent.Name w = (Except.ok svc, w1) →
      ensureAgentService clusterAgent bag w = (Except.ok svc, w1) ∧
        w1.since w = [Call.get Kind.service clusterAgent.Namespace clusterAgent.Name] ∧
        w1.services = w.services) ∧
    (∀ w1 : World,
      (clientGet clusterAgent.Namespace clusterAgent.Name w : Except Error Service × World) =
          (Except.error Error.notFound, w1) →
      (ensureAgentService clusterAgent bag w).2.since w =
          [Call.get Kind.service clusterAgent.Namespace clusterAgent.Name,
           Call.create (Obj.service (newAgentService clusterAgent bag))] ∧
        ((clientCreate (newAgentService clusterAgent bag) w1).1 = none →
          (ensureAgentService clusterAgent bag w).1 = Except.ok Service.zero ∧
            (ensureAgentService clusterAgent bag w).2.services =
              w.services ++ [newAgentService clusterAgent bag])) ∧
    (newAgentService clusterAgent bag).Name = clusterAgent.Name ∧
    (newAgentService clusterAgent bag).Namespace = clusterAgent.Namespace ∧
    (newAgentService clusterAgent bag).Selector = labelsForClusteragent clusterAgent ∧
    (newAgentService clusterAgent bag).Ports = [("web-port", bag.AgentServerPort)] ∧
    ∀ secret : Secret,
      (newAgentDeployment clusterAgent secret bag).1.Labels =
          (newAgentService clusterAgent bag).Selector ∧
        (newAgentDeployment clusterAgent secret bag).1.Containers.map Container.Ports =
          [(newAgentService clusterAgent bag).Ports] := by
  refine ⟨?_, ?_, rfl, rfl, rfl, rfl, ?_⟩
  · intro w1 svc h1
    obtain ⟨-, hw⟩ := clientGet_ok _ _ _ _ _ h1
    refine ⟨?_, ?_, ?_⟩
    · unfold ensureAgentService
      rw [h1]
    · apply since_of_trace
      rw [hw]
      rfl
    · rw [hw]
      rfl
  · intro w1 h1
    have g1 := @clientGet_world Service _ clusterAgent.Namespace clusterAgent.Name w
    rw [h1] at g1
    simp only [] at g1
    have t1 : w1.trace = w.trace ++ [Call.get Kind.service clusterAgent.Namespace clusterAgent.Name] := by
      rw [g1]; rfl
    have hs : w1.services = w.services := by rw [g1]; rfl
    have t2 := clientCreate_trace (fun _ _ => rfl) (newAgentService clusterAgent bag) w1
    have c2 := clientCreate_inv (newAgentService clusterAgent bag) w1
    unfold ensureAgentService
    rw [h1]
    simp only [ne_eq, not_true_eq_false, if_false]
    cases hc : clientCreate (newAgentService clusterAgent bag) w1 with
    | mk e w2 =>
      rw [hc] at t2
      simp only [] at t2
      have hsince : w2.since w =
          [Call.get Kind.service clusterAgent.Namespace clusterAgent.Name,
           Call.create (Obj.service (newAgentService clusterAgent bag))] :=
        since_of_trace _ _ _ (by rw [t2, t1, List.append_assoc]; rfl)
      cases e with
      | some e0 => exact ⟨hsince, by intro h; simp at h⟩
      | none =>
        refine ⟨hsince, fun _ => ⟨rfl, ?_⟩⟩
        simp only []
        rw [c2 w2 hc, ← hs]
        rfl
  · intro secret
    unfold newAgentDeployment newAgentService
    by_cases hi : clusterAgent.Spec.Image = "" <;> simp [hi, labelsForClusteragent]

/-- Witness of C21: on `servedWorld` the Service is returned after one read; on
`freshWorld` it is created. -/
theorem ensureAgentService_contract_witness :
    (ensureAgentService sampleAgent sampleBag servedWorld).2.since servedWorld =
        [Call.get Kind.service "appd" "agent"] ∧
      (ensureAgentService sampleAgent sampleBag freshWorld).2.services =
        [newAgentService sampleAgent sampleBag] := by
  have h1 := (ensureAgentService_contract sampleAgent sampleBag servedWorld).1 _
    (newAgentService sampleAgent sampleBag) rfl
  have h2 := ((ensureAgentService_contract sampleAgent sampleBag freshWorld).2.1 _ rfl).2 rfl
  refine ⟨?_, h2.2⟩
  rw [h1.1]
  exact h1.2.1

/-- C22: `ensureSSLConfig`.  With an empty `AgentSSLStoreName` it returns nil and issues
no call.  Otherwise its only call is the read of the ConfigMap `appd-agent-ssl-store`
in the namespace of the desired state: it returns nil when the read returns the
ConfigMap, an error when the read returns NotFound, and an error when the read fails
otherwise.  In every case it issues no write and leaves every stored object as it is. -/
theorem ensureSSLConfig_contract (clusterAgent : Adam) (w : World) :
    (clusterAgent.Spec.AgentSSLStoreName = "" → ensureSSLConfig clusterAgent w = (none, w)) ∧
    (clusterAgent.Spec.AgentSSLStoreName ≠ "" →
      (ensureSSLConfig clusterAgent w).2.since w =
          [Call.get Kind.configMap clusterAgent.Namespace "appd-agent-ssl-store"] ∧
        (∀ (cm : ConfigMap) (w1 : World),
          clientGet clusterAgent.Namespace "appd-agent-ssl-store" w = (Except.ok cm, w1) →
          (ensureSSLConfig clusterAgent w).1 = none) ∧
        (∀ (e : Error) (w1 : World),
          (clientGet clusterAgent.Namespace "appd-agent-ssl-store" w :
            Except Error ConfigMap × World) = (Except.error e, w1) →
          (ensureSSLConfig clusterAgent w).1 =
            some (if e = Error.notFound then
              Error.msg "Custom SSL store is requested, but the expected configMap not found."
            else Error.msg "Unable to validate the expected configMap."))) ∧
    (∀ c ∈ (ensureSSLConfig clusterAgent w).2.since w, c.isWrite = false) ∧
    { (ensureSSLConfig clusterAgent w).2 with trace := w.trace } = w := by
  have g1 := @clientGet_world ConfigMap _ clusterAgent.Namespace AGENT_SSL_CRED_STORE_NAME w
  by_cases hs : clusterAgent.Spec.AgentSSLStoreName = ""
  · have he : ensureSSLConfig clusterAgent w = (none, w) := by
      unfold ensureSSLConfig
      simp [hs]
    refine ⟨fun _ => he, fun h => absurd hs h, ?_, ?_⟩
    · rw [he]
      simp [World.since]
    · rw [he]
  · have hw : (ensureSSLConfig clusterAgent w).2 =
        w.issue (Call.get Kind.configMap clusterAgent.Namespace "appd-agent-ssl-store") := by
      unfold ensureSSLConfig
      simp only [hs, if_false]
      cases h1 : (clientGet clusterAgent.Namespace AGENT_SSL_CRED_STORE_NAME w :
          Except Error ConfigMap × World) with
      | mk r w1 =>
        rw [h1] at g1
        simp only [] at g1
        cases r with
        | ok cm => exact g1
        | error e =>
          simp only []
          split <;> exact g1
    have hsince : (ensureSSLConfig clusterAgent w).2.since w =
        [Call.get Kind.configMap clusterAgent.Namespace "appd-agent-ssl-store"] :=
      since_of_trace _ _ _ (by rw [hw]; rfl)
    refine ⟨fun h => absurd h hs, fun _ => ⟨hsince, ?_, ?_⟩, ?_, ?_⟩
    · intro cm w1 h1
      unfold ensureSSLConfig
      simp only [hs, if_false]
      have h1b : (clientGet clusterAgent.Namespace AGENT_SSL_CRED_STORE_NAME w :
          Except Error ConfigMap × World) = (Except.ok cm, w1) := h1
      rw [h1b]
    · intro e w1 h1
      unfold ensureSSLConfig
      simp only [hs, if_false]
      have h1b : (clientGet clusterAgent.Namespace AGENT_SSL_CRED_STORE_NAME w :
          Except Error ConfigMap × World) = (Except.error e, w1) := h1
      rw [h1b]
      simp only []
      split <;> rfl
    · rw [hsince]
      intro c hc
      simp only [List.mem_singleton] at hc
      rw [hc]
      rfl
    · rw [hw]
      exact issue_restore w _

/-- Witness of C22: without a store name no call is issued; with the store name `store`
the pass fails on `steadyWorld "2"`, where the ConfigMap is missing, and succeeds on
`storeWorld`, where it exists. -/
theorem ensureSSLConfig_contract_witness :
    (ensureSSLConfig sampleAgent (steadyWorld "2")).2.trace = [] ∧
      (ensureSSLConfig storeAgent (steadyWorld "2")).1 =
        some (Error.msg "Custom SSL store is requested, but the expected configMap not found.") ∧
      (ensureSSLConfig storeAgent storeWorld).1 = none := by
  have h0 := (ensureSSLConfig_contract sampleAgent (steadyWorld "2")).1 rfl
  have h1 := ((ensureSSLConfig_contract storeAgent (steadyWorld "2")).2.1 (by decide)).2.2
    Error.notFound _ rfl
  have h2 := ((ensureSSLConfig_contract storeAgent storeWorld).2.1 (by decide)).2.1 _ _ rfl
  exact ⟨by rw [h0]; rfl, h1, h2⟩

/-- C25: the Deployment `newAgentDeployment` builds has one container, whose image
is `appdynamics/cluster-agent:latest` when the desired image is empty and the desired
image otherwise; the custom resource is left with that image in its spec. -/
theorem default_image (clusterAgent : Adam) (secret : Secret) (bag : AppDBag) :
    (∃ c : Container, (newAgentDeployment clusterAgent secret bag).1.Containers = [c] ∧
      c.Image = if clusterAgent.Spec.Image = "" then "appdynamics/cluster-agent:latest"
        else clusterAgent.Spec.Image) ∧
      (newAgentDeployment clusterAgent secret bag).2.Spec.Image =
        if clusterAgent.Spec.Image = "" then "appdynamics/cluster-agent:latest"
        else clusterAgent.Spec.Image := by
  unfold newAgentDeployment
  by_cases hi : clusterAgent.Spec.Image = ""
  · simp only [hi, if_true]
    refine ⟨⟨_, rfl, rfl⟩, ?_⟩
    split <;> rfl
  · simp only [hi, if_false]
    refine ⟨⟨_, rfl, rfl⟩, ?_⟩
    split <;> rfl

end adam

namespace adam

/-- C26: `restartAgent`.  When the list of the workload's pods fails or is empty, it
returns an error after that one call and deletes nothing.  When the list succeeds with
at least one pod, its calls are the list and one `Delete`, of the first pod listed:
when the `Delete` succeeds it returns nil and the stored pods are those that do not
have the key of that pod; when the `Delete` fails it returns an error and the stored
pods are unchanged. -/
theorem restartAgent_contract (clusterAgent : Adam) (w : World) :
    (∀ w1 : World,
      ((∃ e : Error, clientListPods clusterAgent.Namespace (labelsForClusteragent clusterAgent) w =
          (Except.error e, w1)) ∨
        clientListPods clusterAgent.Namespace (labelsForClusteragent clusterAgent) w =
          (Except.ok [], w1)) →
      restartAgent clusterAgent w =
          (some (Error.msg "Unable to retrieve cluster-agent pod."), w1) ∧
        w1.since w =
          [Call.list clusterAgent.Namespace (labelsForClusteragent clusterAgent)] ∧
        w1.pods = w.pods) ∧
    (∀ (pod : Pod) (pods : List Pod) (w1 : World),
      clientListPods clusterAgent.Namespace (labelsForClusteragent clusterAgent) w =
          (Except.ok (pod :: pods), w1) →
      (restartAgent clusterAgent w).2.since w =
          [Call.list clusterAgent.Namespace (labelsForClusteragent clusterAgent),
           Call.delete (Obj.pod pod)] ∧
        ((clientDelete pod w1).1 = none →
          (restartAgent clusterAgent w).1 = none ∧
            (restartAgent clusterAgent w).2.pods =
              w.pods.filter (fun p => !hasKey pod.Namespace pod.Name p)) ∧
        ((clientDelete pod w1).1 ≠ none →
          (restartAgent clusterAgent w).1 =
              some (Error.msg "Unable to delete cluster-agent pod.") ∧
            (restartAgent clusterAgent w).2.pods = w.pods)) := by
  have g1 := clientListPods_world clusterAgent.Namespace (labelsForClusteragent clusterAgent) w
  constructor
  · intro w1 h
    have hw : w1 = w.issue (Call.list clusterAgent.Namespace
        (labelsForClusteragent clusterAgent)) := by
      rcases h with ⟨e, h⟩ | h <;> rw [h] at g1 <;> exact g1
    refine ⟨?_, since_of_trace _ _ _ (by rw [hw]; rfl), by rw [hw]; rfl⟩
    unfold restartAgent
    rcases h with ⟨e, h⟩ | h <;> rw [h]
  · intro pod pods w1 h
    rw [h] at g1
    simp only [] at g1
    have t1 : w1.trace = w.trace ++
        [Call.list clusterAgent.Namespace (labelsForClusteragent clusterAgent)] := by
      rw [g1]; rfl
    have hp : w1.pods = w.pods := by rw [g1]; rfl
    have t2 := clientDelete_trace (fun _ _ => rfl) pod w1
    have hfr := clientDelete_frame pod w1
    have hok := clientDelete_ok pod w1
    unfold restartAgent
    rw [h]
    simp only []
    cases hd : clientDelete pod w1 with
    | mk e w2 =>
      rw [hd] at t2 hfr hok
      simp only [] at t2 hfr hok
      have hsince : w2.since w =
          [Call.list clusterAgent.Namespace (labelsForClusteragent clusterAgent),
           Call.delete (Obj.pod pod)] :=
        since_of_trace _ _ _ (by rw [t2, t1, List.append_assoc]; rfl)
      cases e with
      | none =>
        refine ⟨hsince, fun _ => ⟨rfl, ?_⟩, fun hne => absurd rfl hne⟩
        simp only []
        rw [hok rfl, ← hp]
        rfl
      | some e0 =>
        refine ⟨hsince, fun hn => by simp at hn, fun _ => ⟨rfl, ?_⟩⟩
        simp only []
        unfold clientDelete at hd
        by_cases hfa : w1.faulty = true
        · simp only [hfa, if_true, Prod.mk.injEq] at hd
          rw [← hd.2, ← hp]
          rfl
        · simp only [hfa, Bool.false_eq_true, if_false] at hd
          cases hl : (w1.lookup (ApiObject.ns pod) (ApiObject.name pod) : Option Pod) with
          | none =>
            rw [hl] at hd
            simp only [Prod.mk.injEq] at hd
            rw [← hd.2, ← hp]
            rfl
          | some x => rw [hl] at hd; simp at hd

/-- Witness of C26: on `freshWorld` no pod is listed and nothing is deleted; on
`steadyWorld "2"` the one pod is deleted. -/
theorem restartAgent_contract_witness :
    ((restartAgent sampleAgent freshWorld).1 =
        some (Error.msg "Unable to retrieve cluster-agent pod.") ∧
      (restartAgent sampleAgent freshWorld).2.since freshWorld =
        [Call.list "appd" (labelsForClusteragent sampleAgent)]) ∧
    ((restartAgent sampleAgent (steadyWorld "2")).1 = none ∧
      (restartAgent sampleAgent (steadyWorld "2")).2.pods = []) := by
  have h1 := (restartAgent_contract sampleAgent freshWorld).1 _ (Or.inr rfl)
  have h2 := ((restartAgent_contract sampleAgent (steadyWorld "2")).2 samplePod [] _ rfl).2.1 rfl
  refine ⟨⟨by rw [h1.1], ?_⟩, h2.1, by rw [h2.2]; rfl⟩
  rw [h1.1]
  exact h1.2.1

/-- C28: the bundle `cleanUp` looks up, and deletes when the lookup returns it, is the
ConfigMap `adam-config` of the namespace `appdynamics` when it is called with nil, and
of the namespace of the desired state when it is given one.  Called with nil it leaves
the ConfigMaps of every other namespace in place.  When the read of the desired state
returns NotFound, `Reconcile` ends with `cleanUp(nil)`, whatever the namespace of the
request. -/
theorem cleanUp_namespace (w : World) :
    ((cleanUp none w).since w = [Call.get Kind.configMap "appdynamics" "adam-config"] ∨
      ∃ cm : ConfigMap, cm.Name = "adam-config" ∧ cm.Namespace = "appdynamics" ∧
        (cleanUp none w).since w =
          [Call.get Kind.configMap "appdynamics" "adam-config",
           Call.delete (Obj.configMap cm)]) ∧
    (∀ x ∈ w.configMaps, x.Namespace ≠ "appdynamics" → x ∈ (cleanUp none w).configMaps) ∧
    (∀ clusterAgent : Adam,
      (cleanUp (some clusterAgent) w).since w =
          [Call.get Kind.configMap clusterAgent.Namespace "adam-config"] ∨
        ∃ cm : ConfigMap, cm.Name = "adam-config" ∧ cm.Namespace = clusterAgent.Namespace ∧
          (cleanUp (some clusterAgent) w).since w =
            [Call.get Kind.configMap clusterAgent.Namespace "adam-config",
             Call.delete (Obj.configMap cm)]) ∧
    (∀ (env : Env) (request : Request),
      (clientGet request.Namespace request.Name w : Except Error Adam × World).1 =
          Except.error Error.notFound →
      (Reconcile env request w).2 =
        cleanUp none (w.issue (Call.get Kind.adam request.Namespace request.Name))) := by
  have calls : ∀ ca : Option Adam,
      (cleanUp ca w).since w = [Call.get Kind.configMap (cleanUpNamespace ca) "adam-config"] ∨
        ∃ cm : ConfigMap, cm.Name = "adam-config" ∧ cm.Namespace = cleanUpNamespace ca ∧
          (cleanUp ca w).since w =
            [Call.get Kind.configMap (cleanUpNamespace ca) "adam-config",
             Call.delete (Obj.configMap cm)] := by
    intro ca
    rcases cleanUp_calls ca w with h | ⟨cm, h1, h2, h⟩
    · exact Or.inl (since_of_trace _ _ _ h)
    · exact Or.inr ⟨cm, h1, h2, since_of_trace _ _ _ h⟩
  refine ⟨calls none, ?_, fun a => calls (some a), ?_⟩
  · intro x hx hns
    unfold cleanUp
    simp only []
    have g1 := @clientGet_world ConfigMap _ "appdynamics" "adam-config" w
    cases h1 : (clientGet "appdynamics" "adam-config" w : Except Error ConfigMap × World) with
    | mk r w1 =>
      rw [h1] at g1
      simp only [] at g1
      have hc : w1.configMaps = w.configMaps := by rw [g1]; rfl
      cases r with
      | error e =>
        simp only []
        rw [hc]
        exact hx
      | ok cm =>
        obtain ⟨hl, -⟩ := clientGet_ok _ _ _ _ _ h1
        have hk := key_of_find _ _ _ _ hl
        simp only [ApiObject.ns, ApiObject.name] at hk
        simp only []
        rcases clientDelete_frame cm w1 with hf | hf <;> rw [hf]
        · show x ∈ w1.configMaps
          rw [hc]
          exact hx
        · show x ∈ w1.configMaps.filter _
          rw [hc, List.mem_filter]
          refine ⟨hx, ?_⟩
          simp [hasKey, ApiObject.ns, ApiObject.name, hk.1, hns]
  · intro env request h
    have g1 := @clientGet_world Adam _ request.Namespace request.Name w
    unfold Reconcile
    cases h1 : (clientGet request.Namespace request.Name w : Except Error Adam × World) with
    | mk r w1 =>
      rw [h1] at h g1
      simp only [] at h g1
      subst h
      simp only [if_true]
      rw [g1]
      rfl

/-- Witness of C28 on `strayWorld`: the request is for the namespace `appd`; the bundle
of the namespace `appdynamics` is deleted and the one of `appd` is left. -/
theorem cleanUp_namespace_witness :
    (Reconcile sampleEnv sampleRequest strayWorld).2.configMaps = [sampleBundle "2"] ∧
      (Reconcile sampleEnv sampleRequest strayWorld).2.since strayWorld =
        [Call.get Kind.adam "appd" "agent", Call.get Kind.configMap "appdynamics" "adam-config",
         Call.delete (Obj.configMap
           { Name := "adam-config", Namespace := "appdynamics", Data := [] })] := by
  have h := (cleanUp_namespace strayWorld).2.2.2 sampleEnv sampleRequest rfl
  rw [h]
  exact ⟨by decide, by decide⟩

end adam

/-- The loud calls of a quiet step are none. -/
theorem QuietStep.loud_since {w w1 : World} (h : QuietStep w w1) : loud (w1.since w) = [] := by
  obtain ⟨l, e, hl⟩ := h.trace
  rw [since_of_trace w w1 l e, hl]

namespace adam

/-- With the snapshot stamped with the revision of the secret, a `Restart` verdict of
the classifier comes from one of the seven compared fields. -/
theorem restart_of_stamped (clusterAgent : Adam) (bag : AppDBag) (d patched : Deployment)
    (secret : Secret) (hs : bag.SecretVersion = secret.ResourceVersion)
    (h : hasBreakingChanges clusterAgent bag d secret = some (Restart, patched)) :
    ¬ fieldsAgree clusterAgent bag := by
  have hr : restartChecks clusterAgent bag secret = Restart := by
    unfold hasBreakingChanges at h
    by_cases himg : clusterAgent.Spec.Image = ""
    · simp only [himg, ne_eq, not_true_eq_false, if_false, Option.some.injEq, Prod.mk.injEq] at h
      exact h.1
    · simp only [himg, ne_eq, not_false_eq_true, if_true] at h
      cases hc : d.Containers with
      | nil => rw [hc] at h; simp at h
      | cons c rest =>
        rw [hc] at h
        simp only [] at h
        by_cases hci : c.Image = clusterAgent.Spec.Image
        · simp only [hci, not_true_eq_false, if_false, Option.some.injEq, Prod.mk.injEq] at h
          exact h.1
        · simp only [hci, not_false_eq_true, if_true, Option.some.injEq, Prod.mk.injEq] at h
          exact absurd h.1 (by decide)
  rw [restartChecks_eq] at hr
  have hc : restartCondition clusterAgent bag secret := by
    simp only [Restart, Prod.mk.injEq, decide_eq_true_eq, and_true] at hr
    exact hr
  unfold restartCondition at hc
  unfold fieldsAgree
  tauto

/-- C27: when `ensureConfigMap` finds the bundle and deserializes it, the snapshot it
returns is the deserialized one with `SecretVersion` replaced by the `ResourceVersion`
of the secret, whatever the bundle recorded; so the revision check of
`hasBreakingChanges` on that snapshot and that secret never fires: a `Restart` verdict
comes from one of the seven compared fields. -/
theorem stamp_overwritten (env : Env) (clusterAgent : Adam) (secret : Secret) (create : Bool)
    (w w1 : World) (cm cm0 : ConfigMap) (bag : AppDBag)
    (h : ensureConfigMap env clusterAgent secret create w = (some (Except.ok (cm, bag)), w1))
    (hcm : w.lookup clusterAgent.Namespace "adam-config" = some cm0) :
    (∃ b : AppDBag,
      env.unmarshal (mapGet cm0.Data "adam-config.json") AppDBag.zero = some b ∧
        bag = { b with SecretVersion := secret.ResourceVersion }) ∧
      bag.SecretVersion = secret.ResourceVersion ∧
      ¬ (bag.SecretVersion ≠ secret.ResourceVersion) ∧
      ∀ d patched : Deployment,
        hasBreakingChanges clusterAgent bag d secret = some (Restart, patched) →
        ¬ fieldsAgree clusterAgent bag := by
  obtain ⟨-, -, b, hb, hbag⟩ := ensureConfigMap_read env clusterAgent secret create w w1 cm cm0
    bag h hcm
  have hs : bag.SecretVersion = secret.ResourceVersion := by rw [hbag]
  exact ⟨⟨b, hb, hbag⟩, hs, fun hne => hne hs,
    fun d patched hv => restart_of_stamped clusterAgent bag d patched secret hs hv⟩

/-- Witness of C27 on `steadyWorld "1"`: the bundle records the revision `1`, the
snapshot returned carries the revision `2` of the secret. -/
theorem stamp_overwritten_witness :
    (sampleEnv.unmarshal (mapGet (sampleBundle "1").Data "adam-config.json")
        AppDBag.zero).map AppDBag.SecretVersion = some "1" ∧
      ((ensureConfigMap sampleEnv sampleAgent sampleSecret false
          (steadyWorld "1")).1.bind Except.toOption).map
        (fun r => r.2.SecretVersion) = some "2" := by
  refine ⟨by decide, ?_⟩
  have hd : ((ensureConfigMap sampleEnv sampleAgent sampleSecret false
      (steadyWorld "1")).1.bind Except.toOption).isSome = true := by decide
  cases hu : ensureConfigMap sampleEnv sampleAgent sampleSecret false (steadyWorld "1") with
  | mk r w1 =>
    rw [hu] at hd
    cases r with
    | none => simp at hd
    | some r =>
    cases r with
    | error e => simp [Except.toOption] at hd
    | ok cb =>
      have h := stamp_overwritten sampleEnv sampleAgent sampleSecret false (steadyWorld "1") w1
        cb.1 (sampleBundle "1") cb.2 hu rfl
      simp only [Option.some_bind, Except.toOption, Option.map_some', h.2.1]
      rfl

end adam

namespace adam

/-- A call of a list is among its loud calls when it is not quiet. -/
theorem mem_loud (calls : List Call) (c : Call) (hc : c ∈ calls) (hq : c.quiet = false) :
    c ∈ loud calls := by
  unfold loud
  rw [List.mem_filter]
  exact ⟨hc, by simp [hq]⟩

/-- The provisioning branch up to a failure of `ensureSecret` creates no Deployment. -/
theorem no_create_before_secret (clusterAgent : Adam) (w w2 : World)
    (hq : QuietStep w w2) (dep : Deployment) :
    Call.create (Obj.deployment dep) ∉
      (ensureSecret clusterAgent (cleanUp (some clusterAgent) w2)).2.since w := by
  obtain ⟨l1, t1, hl1⟩ := hq.trace
  obtain ⟨c0, t0, hc0⟩ := cleanUp_loud (some clusterAgent) w2
  obtain ⟨l3, t3, hl3⟩ := (ensureSecret_quiet clusterAgent (cleanUp (some clusterAgent) w2)).trace
  have hs : (ensureSecret clusterAgent (cleanUp (some clusterAgent) w2)).2.since w =
      l1 ++ c0 ++ l3 :=
    since_of_trace _ _ _ (by rw [t3, t0, t1]; simp only [List.append_assoc])
  intro hmem
  have hin := mem_loud _ _ hmem rfl
  rw [hs] at hin
  unfold loud at hin hl1 hl3 hc0
  rw [List.filter_append, List.filter_append, hl1, hl3, List.nil_append, List.append_nil] at hin
  rcases hc0 with h0 | ⟨cm, -, -, h0⟩ <;> rw [h0] at hin <;> simp at hin

/-- C24: errors abort the pass.  In the primary agent's `Reconcile`, once the desired
state is read: on the provisioning path (Deployment not found) a failure of
`ensureSecret`, `ensureConfigMap`, `ensureAgentService` or of the creation of the
Deployment, and on the steady path (Deployment read) a failure of `ensureSecret`,
`ensureConfigMap`, `updateMap`, `restartAgent` or of the update of the Deployment, makes
`Reconcile` return that error with the empty result, in the world the failing step
left: nothing is called after it.  In particular no Deployment is created when the
secret cannot be ensured, and no pod is listed or deleted and no Deployment is
written when the bundle rewrite fails. -/
theorem errors_abort_pass (env : Env) (request : Request) (w w1 w2 : World)
    (clusterAgent : Adam)
    (ha : clientGet request.Namespace request.Name w = (Except.ok clusterAgent, w1)) :
    ((clientGet clusterAgent.Namespace clusterAgent.Name w1 : Except Error Deployment × World) =
        (Except.error Error.notFound, w2) →
      (∀ (e : Error) (w3 : World),
        ensureSecret clusterAgent (cleanUp (some clusterAgent) w2) = (Except.error e, w3) →
        Reconcile env request w = (some (Result.empty, some e), w3) ∧
          ∀ dep : Deployment, Call.create (Obj.deployment dep) ∉ w3.since w) ∧
      (∀ (secret : Secret) (w3 : World),
        ensureSecret clusterAgent (cleanUp (some clusterAgent) w2) = (Except.ok secret, w3) →
        (∀ (e : Error) (w4 : World),
          ensureConfigMap env clusterAgent secret true w3 = (some (Except.error e), w4) →
          Reconcile env request w = (some (Result.empty, some e), w4)) ∧
        (∀ (cm : ConfigMap) (bag : AppDBag) (w4 : World),
          ensureConfigMap env clusterAgent secret true w3 = (some (Except.ok (cm, bag)), w4) →
          (∀ (e : Error) (w5 : World),
            ensureAgentService clusterAgent bag w4 = (Except.error e, w5) →
            Reconcile env request w = (some (Result.empty, some e), w5)) ∧
          (∀ (svc : Service) (w5 : World) (e : Error) (w6 : World),
            ensureAgentService clusterAgent bag w4 = (Except.ok svc, w5) →
            clientCreate (newAgentDeployment clusterAgent secret bag).1 w5 = (some e, w6) →
            Reconcile env request w = (some (Result.empty, some e), w6))))) ∧
    (∀ existingDeployment : Deployment,
      clientGet clusterAgent.Namespace clusterAgent.Name w1 = (Except.ok existingDeployment, w2) →
      (∀ (e : Error) (w3 : World),
        ensureSecret clusterAgent w2 = (Except.error e, w3) →
        Reconcile env request w = (some (Result.empty, some e), w3)) ∧
      (∀ (secret : Secret) (w3 : World),
        ensureSecret clusterAgent w2 = (Except.ok secret, w3) →
        (∀ (e : Error) (w4 : World),
          ensureConfigMap env clusterAgent secret false w3 = (some (Except.error e), w4) →
          Reconcile env request w = (some (Result.empty, some e), w4)) ∧
        (∀ (cm : ConfigMap) (bag : AppDBag) (w4 : World) (verdict : Bool × Bool)
            (patched : Deployment),
          ensureConfigMap env clusterAgent secret false w3 = (some (Except.ok (cm, bag)), w4) →
          hasBreakingChanges clusterAgent bag existingDeployment secret =
            some (verdict, patched) →
          (∀ (e : Error) (cm1 : ConfigMap) (w5 : World),
            updateMap env cm clusterAgent secret false w4 = ((Except.error e, cm1), w5) →
            Reconcile env request w = (some (Result.empty, some e), w5) ∧
              loud (w5.since w) = []) ∧
          (∀ (updatedBag : AppDBag) (cm1 : ConfigMap) (w5 : World) (e : Error) (w6 : World),
            updateMap env cm clusterAgent secret false w4 = ((Except.ok updatedBag, cm1), w5) →
            (verdict.1 = true → restartAgent clusterAgent w5 = (some e, w6) →
              Reconcile env request w = (some (Result.empty, some e), w6)) ∧
            (verdict.1 = false → verdict.2 = true → clientUpdate patched w5 = (some e, w6) →
              Reconcile env request w = (some (Result.empty, some e), w6)))))) := by
  have q1 := @clientGet_quiet Adam _ request.Namespace request.Name w
  rw [ha] at q1
  have q2 := @clientGet_quiet Deployment _ clusterAgent.Namespace clusterAgent.Name w1
  constructor
  · intro hd
    rw [hd] at q2
    have hR : Reconcile env request w = reconcileMissing env clusterAgent w2 := by
      unfold Reconcile
      rw [ha]
      simp only []
      rw [hd]
      simp only [if_true]
    rw [hR]
    refine ⟨?_, ?_⟩
    · intro e w3 h3
      refine ⟨?_, ?_⟩
      · unfold reconcileMissing
        simp only []
        rw [h3]
      · intro dep
        have := no_create_before_secret clusterAgent w w2 (q1.trans q2) dep
        rw [h3] at this
        exact this
    · intro secret w3 h3
      refine ⟨?_, ?_⟩
      · intro e w4 h4
        unfold reconcileMissing
        simp only []
        rw [h3]
        simp only []
        rw [h4]
      · intro cm bag w4 h4
        refine ⟨?_, ?_⟩
        · intro e w5 h5
          unfold reconcileMissing
          simp only []
          rw [h3]
          simp only []
          rw [h4]
          simp only []
          rw [h5]
        · intro svc w5 e w6 h5 h6
          unfold reconcileMissing
          simp only []
          rw [h3]
          simp only []
          rw [h4]
          simp only []
          rw [h5]
          simp only []
          rw [h6]
  · intro d hd
    rw [hd] at q2
    have hR : Reconcile env request w = reconcileExisting env clusterAgent d w2 := by
      unfold Reconcile
      rw [ha]
      simp only []
      rw [hd]
    rw [hR]
    refine ⟨?_, ?_⟩
    · intro e w3 h3
      unfold reconcileExisting
      rw [h3]
    · intro secret w3 h3
      have q3 := ensureSecret_quiet clusterAgent w2
      rw [h3] at q3
      refine ⟨?_, ?_⟩
      · intro e w4 h4
        unfold reconcileExisting
        rw [h3]
        simp only []
        rw [h4]
      · intro cm bag w4 verdict patched h4 hv
        have q4 := ensureConfigMap_quiet env clusterAgent secret false w3
        rw [h4] at q4
        obtain ⟨breaking, upd⟩ := verdict
        refine ⟨?_, ?_⟩
        · intro e cm1 w5 h5
          have q5 := updateMap_quiet env cm clusterAgent secret false w4
          rw [h5] at q5
          refine ⟨?_, ((((q1.trans q2).trans q3).trans q4).trans q5).loud_since⟩
          unfold reconcileExisting
          rw [h3]
          simp only []
          rw [h4]
          simp only []
          rw [hv]
          simp only []
          rw [h5]
        · intro updatedBag cm1 w5 e w6 h5
          refine ⟨?_, ?_⟩
          · intro hb h6
            simp only [] at hb
            subst hb
            unfold reconcileExisting
            rw [h3]
            simp only []
            rw [h4]
            simp only []
            rw [hv]
            simp only []
            rw [h5]
            simp only [if_true]
            rw [h6]
          · intro hb hu h6
            simp only [] at hb hu
            subst hb hu
            unfold reconcileExisting
            rw [h3]
            simp only []
            rw [h4]
            simp only []
            rw [hv]
            simp only []
            rw [h5]
            simp only [Bool.false_eq_true, if_false, if_true]
            rw [h6]

/-- Witness of C24.  On `freshWorldWith [4]` the creation of the secret fails: the pass
returns the error of `ensureSecret` and creates no Deployment.  On `driftWorld [4]` the
rewrite of the bundle fails: the pass returns the error of `updateMap` and no pod is
deleted. -/
theorem errors_abort_pass_witness :
    ((Reconcile sampleEnv sampleRequest (freshWorldWith [4])).1 =
        some (Result.empty, some (Error.msg "Unable to get secret for cluster-agent.")) ∧
      (Reconcile sampleEnv sampleRequest (freshWorldWith [4])).2.deployments = []) ∧
    ((Reconcile sampleEnv sampleRequest (driftWorld [4])).1 =
        some (Result.empty, some (Error.msg "Failed to save configMap adam-config.")) ∧
      (Reconcile sampleEnv sampleRequest (driftWorld [4])).2.pods = [samplePod]) := by
  have h1 := ((errors_abort_pass sampleEnv sampleRequest (freshWorldWith [4]) _ _ sampleAgent
    rfl).1 rfl).1 (Error.msg "Unable to get secret for cluster-agent.") _ rfl
  have h2 := ((((errors_abort_pass sampleEnv sampleRequest (driftWorld [4]) _ _
    (sampleAgentWith { sampleAgent.Spec with AgentSSLCert := "certZ" }) rfl).2
    (sampleDeploymentWith "agent:1.1") rfl).2 sampleSecret _ rfl).2 (sampleBundle "2")
    _ _ Restart (sampleDeploymentWith "agent:1.1") rfl (by decide)).1
    (Error.msg "Failed to save configMap adam-config.") _ _ rfl
  refine ⟨⟨by rw [h1.1], by rw [h1.1]; rfl⟩, by rw [h2.1], by rw [h2.1]; rfl⟩

end adam

/-- A map without a key has no entry to find under it. -/
theorem find_of_not_mapHas (m : List (String × String)) (key : String)
    (h : mapHas m key = false) : m.find? (fun kv => kv.1 = key) = none := by
  induction m with
  | nil => rfl
  | cons kv rest ih =>
    unfold mapHas at h ih
    simp only [List.any_cons, Bool.or_eq_false_iff, decide_eq_false_iff_not] at h
    simp only [List.find?_cons, h.1, decide_False]
    exact ih h.2

namespace clustercollector

/-- A key that was set holds the value it was set to. -/
theorem mapGet_mapSet (m : List (String × String)) (key value : String) :
    mapGet (mapSet m key value) key = value := by
  unfold mapSet mapGet
  by_cases h : mapHas m key = true
  · simp only [h, if_true]
    have hfind : (m.map (fun kv => if kv.1 = key then (key, value) else kv)).find?
        (fun kv => kv.1 = key) = some (key, value) := by
      induction m with
      | nil => simp [mapHas] at h
      | cons kv rest ih =>
        by_cases hk : kv.1 = key
        · simp [hk]
        · have hrest : mapHas rest key = true := by
            unfold mapHas at h ⊢
            simpa [hk] using h
          simp only [List.map_cons, hk, if_false, List.find?_cons, decide_False]
          exact ih hrest
    rw [hfind]
  · have hf : mapHas m key = false := by simpa using h
    simp only [hf, Bool.false_eq_true, if_false]
    rw [List.find?_append, find_of_not_mapHas m key hf]
    simp

/-- The calls of `RestartCollector`: the list of the pods, and a `Delete` of the first
pod when the list succeeds with at least one; it returns nil only after that `Delete`. -/
theorem RestartCollector_calls (c : clusterCollectorController) (w : World) :
    ∃ calls : List Call, (c.RestartCollector w).2.trace = w.trace ++ calls ∧
      ((calls =
          [Call.list c.clusterCollector.Namespace
            (labelsForClusterCollector c.clusterCollector)] ∧
        (c.RestartCollector w).1 ≠ none) ∨
      ∃ (pod : Pod) (pods : List Pod),
        (clientListPods c.clusterCollector.Namespace
          (labelsForClusterCollector c.clusterCollector) w).1 = Except.ok (pod :: pods) ∧
        calls =
          [Call.list c.clusterCollector.Namespace (labelsForClusterCollector c.clusterCollector),
           Call.delete (Obj.pod pod)]) := by
  have g1 := clientListPods_world c.clusterCollector.Namespace
    (labelsForClusterCollector c.clusterCollector) w
  unfold clusterCollectorController.RestartCollector
  cases h : clientListPods c.clusterCollector.Namespace
      (labelsForClusterCollector c.clusterCollector) w with
  | mk r w1 =>
    rw [h] at g1
    simp only [] at g1
    have t1 : w1.trace = w.trace ++
        [Call.list c.clusterCollector.Namespace (labelsForClusterCollector c.clusterCollector)] := by
      rw [g1]; rfl
    cases r with
    | error e => exact ⟨_, t1, Or.inl ⟨rfl, by simp⟩⟩
    | ok l =>
      cases l with
      | nil => exact ⟨_, t1, Or.inl ⟨rfl, by simp⟩⟩
      | cons pod pods =>
        simp only []
        have t2 := clientDelete_trace (fun _ _ => rfl) pod w1
        cases hd : clientDelete pod w1 with
        | mk e w2 =>
          rw [hd] at t2
          simp only [] at t2
          have t3 : w2.trace = w.trace ++
              [Call.list c.clusterCollector.Namespace
                (labelsForClusterCollector c.clusterCollector), Call.delete (Obj.pod pod)] := by
            rw [t2, t1, List.append_assoc]; rfl
          cases e <;> exact ⟨_, t3, Or.inr ⟨pod, pods, rfl, rfl⟩⟩

/-- C23: `clusterCollectorController.Update` on a `Restart` verdict.  The Deployment
the classifier leaves gets the desired spec saved as its annotation `OLD_SPEC`, and
that Deployment is submitted to `Update` first.  When the `Update` fails it is the only
call (no pod is listed or deleted) and its error is returned with requeue false.  When
it succeeds the pods are listed next and the first one listed is deleted: the call
returns requeue true when the restart succeeds, which it does only after one `Delete`
of a pod, and the error of the restart with requeue false otherwise. -/
theorem collector_restart_sequencing (env : Env) (c : clusterCollectorController) (w : World)
    (hb : (env.hasBreakingChanges c.clusterCollector c.deployment).1.1 = true) :
    mapGet (c.annotated env).Annotations OLD_SPEC = env.marshalSpec c.clusterCollector.Spec ∧
      (c.Update env w).1.2.deployment = c.annotated env ∧
      (∀ (e : Error) (w1 : World), clientUpdate (c.annotated env) w = (some e, w1) →
        (c.Update env w).1.1 = (false, some e) ∧
          (c.Update env w).2.since w = [Call.update (Obj.deployment (c.annotated env))]) ∧
      (∀ w1 : World, clientUpdate (c.annotated env) w = (none, w1) →
        (c.Update env w).2 = (c.RestartCollector w1).2 ∧
          (c.Update env w).2.since w =
            Call.update (Obj.deployment (c.annotated env)) :: (c.RestartCollector w1).2.since w1 ∧
          ((c.RestartCollector w1).1 = none →
            (c.Update env w).1.1 = (true, none) ∧
              ∃ pod : Pod, (c.Update env w).2.since w =
                [Call.update (Obj.deployment (c.annotated env)),
                 Call.list c.clusterCollector.Namespace
                   (labelsForClusterCollector c.clusterCollector),
                 Call.delete (Obj.pod pod)]) ∧
          (∀ e : Error, (c.RestartCollector w1).1 = some e →
            (c.Update env w).1.1 = (false, some e))) := by
  have hann : mapGet (c.annotated env).Annotations OLD_SPEC =
      env.marshalSpec c.clusterCollector.Spec := by
    unfold clusterCollectorController.annotated saveOrUpdateCollectorSpecAnnotation
    exact mapGet_mapSet _ _ _
  have tu := clientUpdate_trace (fun _ _ => rfl) (c.annotated env) w
  have hR : ∀ v : World,
      clusterCollectorController.RestartCollector
          { clusterCollector := c.clusterCollector, deployment := c.annotated env } v =
        c.RestartCollector v := fun _ => rfl
  unfold clusterCollectorController.Update
  unfold clusterCollectorController.annotated at tu hann ⊢
  cases hv : env.hasBreakingChanges c.clusterCollector c.deployment with
  | mk verdict patched =>
    obtain ⟨breaking, upd⟩ := verdict
    rw [hv] at hb tu hann
    simp only [] at hb tu hann ⊢
    subst hb
    simp only [if_true]
    have hR2 : ∀ v : World,
        clusterCollectorController.RestartCollector
            { clusterCollector := c.clusterCollector,
              deployment := saveOrUpdateCollectorSpecAnnotation env patched c.clusterCollector } v =
          c.RestartCollector v := fun _ => rfl
    cases hu : clientUpdate
        ( saveOrUpdateCollectorSpecAnnotation env patched c.clusterCollector) w with
    | mk e w1 =>
      rw [hu] at tu
      simp only [] at tu
      cases e with
      | some e0 =>
        refine ⟨hann, rfl, ?_, ?_⟩
        · intro e w2 h
          simp only [Prod.mk.injEq, Option.some.injEq] at h
          obtain ⟨rfl, rfl⟩ := h
          exact ⟨rfl, since_of_trace _ _ _ tu⟩
        · intro w2 h
          simp at h
      | none =>
        simp only []
        rw [hR2 w1]
        obtain ⟨calls, ht, hcalls⟩ := RestartCollector_calls c w1
        cases hr : c.RestartCollector w1 with
        | mk er w2 =>
          rw [hr] at hcalls ht
          simp only [] at hcalls ht
          have hs1 : w2.since w1 = calls := since_of_trace _ _ _ ht
          have hs : w2.since w =
              Call.update (Obj.deployment
                ( saveOrUpdateCollectorSpecAnnotation env patched c.clusterCollector)) :: calls :=
            since_of_trace _ _ _ (by rw [ht, tu, List.append_assoc]; rfl)
          cases er with
          | some e1 =>
            refine ⟨hann, rfl, ?_, ?_⟩
            · intro e w3 h
              simp at h
            · intro w3 h
              simp only [Prod.mk.injEq, true_and] at h
              subst h
              rw [hr]
              refine ⟨rfl, by rw [hs, hs1], ?_, ?_⟩
              · intro hn
                simp at hn
              · intro e he
                simp only [Option.some.injEq] at he
                subst he
                rfl
          | none =>
            refine ⟨hann, rfl, ?_, ?_⟩
            · intro e w3 h
              simp at h
            · intro w3 h
              simp only [Prod.mk.injEq, true_and] at h
              subst h
              rw [hr]
              refine ⟨rfl, by rw [hs, hs1], ?_, ?_⟩
              · intro _
                refine ⟨rfl, ?_⟩
                rcases hcalls with ⟨-, h2⟩ | ⟨pod, pods, -, h1⟩
                · exact absurd rfl h2
                · exact ⟨pod, by rw [hs, h1]⟩
              · intro e he
                simp at he

/-- Witness of C23 with the classifier of `restartEnv`, which always returns `Restart`:
on `podWorld []` the Deployment is updated and the pod deleted, requeue is true; on
`podWorld [0]` the `Update` fails and it is the only call. -/
theorem collector_restart_sequencing_witness :
    ((sampleController.Update restartEnv (podWorld [])).1.1 = (true, none) ∧
      (sampleController.Update restartEnv (podWorld [])).2.pods = []) ∧
    ((sampleController.Update restartEnv (podWorld [0])).1.1 = (false, some Error.api) ∧
      (sampleController.Update restartEnv (podWorld [0])).2.since (podWorld [0]) =
        [Call.update (Obj.deployment (sampleController.annotated restartEnv))]) := by
  have h1 := ((collector_restart_sequencing restartEnv sampleController (podWorld []) rfl).2.2.2
    _ rfl).2.2.1 rfl
  have h2 := (collector_restart_sequencing restartEnv sampleController (podWorld [0]) rfl).2.2.1
    Error.api _ rfl
  exact ⟨⟨h1.1, by decide⟩, h2⟩

end clustercollector

/-- The text of the characters of a string is the string. -/
theorem mk_toList (s : String) : String.mk s.toList = s := by
  cases s
  rfl

namespace clustercollector

/-- Characters without a colon make one segment. -/
theorem splitColonAux_plain (l cur : List Char) (h : ':' ∉ l) :
    splitColonAux l cur = [String.mk (cur.reverse ++ l)] := by
  induction l generalizing cur with
  | nil => simp [splitColonAux]
  | cons ch rest ih =>
    have hch : ch ≠ ':' := fun e => h (by simp [e])
    have hrest : ':' ∉ rest := fun e => h (by simp [e])
    unfold splitColonAux
    simp only [hch, if_false]
    rw [ih (ch :: cur) hrest]
    simp

/-- The first colon ends the first segment. -/
theorem splitColonAux_colon (l1 l2 cur : List Char) (h : ':' ∉ l1) :
    splitColonAux (l1 ++ ':' :: l2) cur =
      String.mk (cur.reverse ++ l1) :: splitColonAux l2 [] := by
  induction l1 generalizing cur with
  | nil => simp [splitColonAux]
  | cons ch rest ih =>
    have hch : ch ≠ ':' := fun e => h (by simp [e])
    have hrest : ':' ∉ rest := fun e => h (by simp [e])
    rw [List.cons_append, splitColonAux]
    simp only [hch, if_false]
    rw [ih (ch :: cur) hrest]
    simp

/-- A list with a colon splits at its first colon. -/
theorem first_colon (l : List Char) (h : ':' ∈ l) :
    ∃ l1 l2 : List Char, l = l1 ++ ':' :: l2 ∧ ':' ∉ l1 := by
  induction l with
  | nil => simp at h
  | cons ch rest ih =>
    by_cases hch : ch = ':'
    · exact ⟨[], rest, by simp [hch], by simp⟩
    · have hrest : ':' ∈ rest := by
        rcases List.mem_cons.mp h with e | e
        · exact absurd e.symm hch
        · exact e
      obtain ⟨l1, l2, e, hn⟩ := ih hrest
      refine ⟨ch :: l1, l2, by rw [e, List.cons_append], ?_⟩
      intro hm
      rcases List.mem_cons.mp hm with e2 | e2
      · exact hch e2.symm
      · exact hn e2

/-- The split always has a first segment. -/
theorem splitColonAux_ne_nil (l cur : List Char) : splitColonAux l cur ≠ [] := by
  induction l generalizing cur with
  | nil => simp [splitColonAux]
  | cons ch rest ih =>
    unfold splitColonAux
    split
    · simp
    · exact ih _

/-- The version of an image whose characters are `l1`, a colon, then `l2`. -/
theorem bundleVersion_colon (image : String) (l1 l2 : List Char) (h1 : ':' ∉ l1)
    (himage : image.toList = l1 ++ ':' :: l2) :
    ∃ rest : List String, splitColon image = String.mk l1 :: rest ∧
      rest = splitColonAux l2 [] ∧
      ∃ (second : String) (more : List String),
        rest = second :: more ∧ bundleVersion image = second := by
  have hs : splitColon image = String.mk l1 :: splitColonAux l2 [] := by
    unfold splitColon
    rw [himage, splitColonAux_colon l1 l2 [] h1]
    simp
  refine ⟨_, hs, rfl, ?_⟩
  cases hr : splitColonAux l2 [] with
  | nil => exact absurd hr (splitColonAux_ne_nil l2 [])
  | cons second more =>
    refine ⟨second, more, rfl, ?_⟩
    unfold bundleVersion
    rw [hs, hr]

/-- C29: the version field of the collector bundles.  It is `latest` when the image
has no colon.  When the image has a colon it is the second segment of the image split
on colons: for `name:tag` the tag, and for an image with a second colon the text
between the first and the second colon, whatever follows.  The text handed to
`createConfigMap` for the cluster-collector, container-monitor and server-monitor
bundles has `version: ` followed by that value as its third line. -/
theorem bundle_version_field :
    (∀ image : String, ':' ∉ image.toList → bundleVersion image = "latest") ∧
    (∀ image : String, ':' ∈ image.toList →
      ∃ (first second : String) (more : List String),
        splitColon image = first :: second :: more ∧ bundleVersion image = second) ∧
    (∀ name tag : String, ':' ∉ name.toList → ':' ∉ tag.toList →
      bundleVersion (name ++ ":" ++ tag) = tag) ∧
    (∀ host port tail : String, ':' ∉ host.toList → ':' ∉ port.toList →
      bundleVersion (host ++ ":" ++ port ++ ":" ++ tail) = port) ∧
    (∀ (env : Env) (clusterCollector : Clustercollector) (w : World),
      ∃ tail : List String,
        ensureClusterCollectorConfig env clusterCollector w =
          env.createConfigMap
            { Name := "cluster-collector-config", Namespace := clusterCollector.Namespace,
              Data := [("clustermon.conf", String.intercalate "\n"
                ("name: Cluster Monitor" :: "type: Collector" ::
                  ("version: " ++ bundleVersion clusterCollector.Spec.Image) :: tail))] }
            w) ∧
    (∀ (env : Env) (clusterCollector : Clustercollector) (w : World)
        (exporterAddr sslEnabled : String) (port : Nat),
      env.validateUrl clusterCollector.Spec.HostCollector.ContainerMetricExporterAddress =
          Except.ok (exporterAddr, port, sslEnabled) →
      (∃ tail : List String,
        ensureContainerMonConfig env clusterCollector w =
          env.createConfigMap
            { Name := "container-collector-config", Namespace := clusterCollector.Namespace,
              Data := [(env.CONTAINER_MON_CONFIG_FILE_NAME, String.intercalate "\n"
                ("name: Container Monitor" :: "type: Collector" ::
                  ("version: " ++ bundleVersion clusterCollector.Spec.Image) :: tail))] }
            w) ∧
      ∃ tail : List String,
        ensureServerMonConfig env clusterCollector w =
          env.createConfigMap
            { Name := "server-collector-config", Namespace := clusterCollector.Namespace,
              Data := [(env.SERVER_MON_CONFIG_FILE_NAME, String.intercalate "\n"
                ("name: Server Monitor" :: "type: Collector" ::
                  ("version: " ++ bundleVersion clusterCollector.Spec.Image) :: tail))] }
            w) := by
  refine ⟨?_, ?_, ?_, ?_, ?_, ?_⟩
  · intro image h
    unfold bundleVersion splitColon
    rw [splitColonAux_plain image.toList [] h]
  · intro image h
    obtain ⟨l1, l2, hsplit, h1⟩ := first_colon image.toList h
    obtain ⟨rest, hs, -, second, more, hsm, hv⟩ := bundleVersion_colon image l1 l2 h1 hsplit
    exact ⟨String.mk l1, second, more, by rw [hs, hsm], hv⟩
  · intro name tag hn ht
    have himage : (name ++ ":" ++ tag).toList = name.toList ++ ':' :: tag.toList := by
      simp [String.toList]
    obtain ⟨rest, -, hrest, second, more, hsm, hv⟩ :=
      bundleVersion_colon (name ++ ":" ++ tag) name.toList tag.toList hn himage
    rw [hv]
    rw [hrest, splitColonAux_plain tag.toList [] ht] at hsm
    simp only [List.reverse_nil, List.nil_append, List.cons.injEq] at hsm
    rw [← hsm.1, mk_toList]
  · intro host port tail hh hp
    have himage : (host ++ ":" ++ port ++ ":" ++ tail).toList =
        host.toList ++ ':' :: (port.toList ++ ':' :: tail.toList) := by
      simp [String.toList]
    obtain ⟨rest, -, hrest, second, more, hsm, hv⟩ :=
      bundleVersion_colon (host ++ ":" ++ port ++ ":" ++ tail) host.toList
        (port.toList ++ ':' :: tail.toList) hh himage
    rw [hv]
    rw [hrest, splitColonAux_colon port.toList tail.toList [] hp] at hsm
    simp only [List.reverse_nil, List.nil_append, List.cons.injEq] at hsm
    rw [← hsm.1, mk_toList]
  · intro env cc w
    apply Exists.intro
    unfold ensureClusterCollectorConfig yamlLines
    simp only [List.map]
    rfl
  · intro env cc w exporterAddr sslEnabled port hval
    constructor
    · apply Exists.intro
      unfold ensureContainerMonConfig yamlLines
      simp only [hval, List.map]
      rfl
    · apply Exists.intro
      unfold ensureServerMonConfig yamlLines
      simp only [hval, List.map]
      rfl

set_option maxRecDepth 20000 in
/-- Witness of C29: an image without a tag, an image `name:tag`, and an image whose
registry host has a port; for the last one, the texts of the three bundles as the
sample environment stores them. -/
theorem bundle_version_field_witness :
    bundleVersion "appdynamics/cluster-collector" = "latest" ∧
      bundleVersion ("appdynamics/cluster-collector" ++ ":" ++ "1.0") = "1.0" ∧
      bundleVersion ("registry" ++ ":" ++ "5000/appd/collector" ++ ":" ++ "1.0") =
        "5000/appd/collector" ∧
      (ensureConfigMap sampleEnv registryCollector steadyWorld).2.configMaps.map
          (fun cm => mapGet cm.Data "clustermon.conf" ++ mapGet cm.Data "containermon.conf" ++
            mapGet cm.Data "servermon.conf") =
        ["name: Cluster Monitor\ntype: Collector\nversion: 5000/appd/collector\nclusterName: cluster1\nnsToMonitor: .*\nnsToExclude: \nclusterMonitoringEnabled: true\nlog-level: info\npath: ./collectors/cluster-collector-linux-amd64\nenabled: true\nexporter-address: 127.0.0.1\nexporter-port: 9100",
         "",
         "name: Container Monitor\ntype: Collector\nversion: 5000/appd/collector\npath: \nenabled: true\nexporter-address: 127.0.0.1\nexporter-port: 8090\nprivileged: false\ndependency: \ninstall-dependency: true\nlog-level: info",
         "name: Server Monitor\ntype: Collector\nversion: 5000/appd/collector\npath: \nenabled: true\nexporter-address: 127.0.0.1\nexporter-port: 8090\nprivileged: false\ndependency: \ninstall-dependency: true\nlog-level: info"] :=
  ⟨bundle_version_field.1 "appdynamics/cluster-collector" (by decide),
   bundle_version_field.2.2.1 "appdynamics/cluster-collector" "1.0" (by decide) (by decide),
   bundle_version_field.2.2.2.1 "registry" "5000/appd/collector" "1.0" (by decide) (by decide),
   by decide⟩

end clustercollector

namespace clustercollector

/-- A pass that found the custom resource and ensured the bundles runs the driver on
both workloads and decides on their four results. -/
theorem Reconcile_of_passes (env : Env) (request : Request) (w w1 w2 : World)
    (cc0 cc : Clustercollector)
    (hget : clientGet request.Namespace request.Name w = (Except.ok cc0, w1))
    (hcfg : ensureConfigMap env cc0 w1 = ((none, cc), w2)) :
    Reconcile env request w =
      (if (clusterPass env cc w2).1.1.2 ≠ none ∨ (hostPass env cc w2).1.1.2 ≠ none then
          (Result.empty, some (Error.msg "cluster-collector error: , host collector error: "))
        else if (clusterPass env cc w2).1.1.1 = true ∨ (hostPass env cc w2).1.1.1 = true then
          (Result.after60, none)
        else (Result.empty, none),
       (hostPass env cc w2).2) := by
  unfold Reconcile
  rw [hget]
  simp only []
  rw [hcfg]
  simp only []
  unfold hostPass clusterPass
  cases h1 : ensureClusterCollectors (clusterController env) (NewClusterCollectorController cc)
      cc w2 with
  | mk r1 w3 =>
    obtain ⟨⟨rq1, e1⟩, c1⟩ := r1
    simp only []
    cases h2 : ensureClusterCollectors env.hostController
        (env.NewHostCollectorController ((clusterController env).Collector c1))
        ((clusterController env).Collector c1) w3 with
    | mk r2 w4 =>
      obtain ⟨⟨rq2, e2⟩, c2⟩ := r2
      simp only []
      split_ifs <;> rfl

/-- The driver asks for no requeue for a workload that `Init` reports as new. -/
theorem no_requeue_when_created {σ : Type} (ctrl : IClusterController σ) (c : σ)
    (clusterCollector : Clustercollector) (w : World)
    (h : (ctrl.Init c w).1.1.1 = true) :
    (ensureClusterCollectors ctrl c clusterCollector w).1.1.1 = false := by
  unfold ensureClusterCollectors
  cases hi : ctrl.Init c w with
  | mk r w1 =>
    obtain ⟨⟨created, err⟩, c1⟩ := r
    rw [hi] at h
    simp only [] at h
    subst h
    simp only []
    cases err with
    | some e => rfl
    | none =>
      simp only [if_true]
      cases hc : ctrl.Create (ctrl.Owned clusterCollector c1) w1 with
      | mk r2 w2 =>
        obtain ⟨e2, c3⟩ := r2
        cases e2 <;> rfl

/-- C30: once the custom resource is read and the bundles are ensured, the collector
`Reconcile` runs the driver on the cluster collector and then on the host collector,
the second in the world the first left whether or not the first failed.  It returns a
non-nil error exactly when one of the two returned an error, and then the result is
empty.  Otherwise it returns `RequeueAfter = 60` seconds exactly when one of the two
asked for a requeue, and the empty result when neither did.  A workload that `Init`
reports as just created never asks for a requeue. -/
theorem collector_aggregation (env : Env) (request : Request) (w w1 w2 : World)
    (cc0 cc : Clustercollector)
    (hget : clientGet request.Namespace request.Name w = (Except.ok cc0, w1))
    (hcfg : ensureConfigMap env cc0 w1 = ((none, cc), w2)) :
    (Reconcile env request w).2 = (hostPass env cc w2).2 ∧
      ((Reconcile env request w).1.2 ≠ none ↔
        ((clusterPass env cc w2).1.1.2 ≠ none ∨ (hostPass env cc w2).1.1.2 ≠ none)) ∧
      ((Reconcile env request w).1.2 ≠ none → (Reconcile env request w).1.1 = Result.empty) ∧
      ((Reconcile env request w).1.2 = none →
        ((Reconcile env request w).1.1 = Result.after60 ↔
          ((clusterPass env cc w2).1.1.1 = true ∨ (hostPass env cc w2).1.1.1 = true)) ∧
        ((Reconcile env request w).1.1 = Result.after60 ∨
          (Reconcile env request w).1.1 = Result.empty)) ∧
      (∀ {σ : Type} (ctrl : IClusterController σ) (c : σ) (clusterCollector : Clustercollector)
          (v : World),
        (ctrl.Init c v).1.1.1 = true →
        (ensureClusterCollectors ctrl c clusterCollector v).1.1.1 = false) := by
  rw [Reconcile_of_passes env request w w1 w2 cc0 cc hget hcfg]
  refine ⟨rfl, ?_, ?_, ?_, fun ctrl c clusterCollector v h =>
    no_requeue_when_created ctrl c clusterCollector v h⟩
  all_goals
    generalize (clusterPass env cc w2).1.1.2 = e1
    generalize (hostPass env cc w2).1.1.2 = e2
    generalize (clusterPass env cc w2).1.1.1 = r1
    generalize (hostPass env cc w2).1.1.1 = r2
    cases e1 <;> cases e2 <;> cases r1 <;> cases r2 <;> simp [Result.after60, Result.empty]

/-- Witness of C30 on the sample environment.  On `steadyWorld` the cluster collector
finds no change and the host collector is created: neither asks for a requeue and the
result is empty.  On `faultyWorld`, where the read of the cluster collector's
Deployment fails, the pass returns an error, and the calls of the host collector come
after the failed one. -/
theorem collector_aggregation_witness :
    ((Reconcile sampleEnv sampleRequest steadyWorld).1 = (Result.empty, none)) ∧
    ((Reconcile sampleEnv sampleRequest faultyWorld).1 =
        (Result.empty, some (Error.msg "cluster-collector error: , host collector error: ")) ∧
      (clusterPass sampleEnv sampleCollector (ensureConfigMap sampleEnv sampleCollector
        (faultyWorld.issue (Call.get Kind.clustercollector "appd" "collector"))).2).1.1.2 =
        some Error.api ∧
      ((Reconcile sampleEnv sampleRequest faultyWorld).2.since faultyWorld).drop 9 =
        [Call.get Kind.deployment "appd" "collector",
         Call.get Kind.deployment "appd" "collector-host",
         Call.create (Obj.deployment sampleHostWorkload)]) := by
  have h1 := collector_aggregation sampleEnv sampleRequest steadyWorld _ _ sampleCollector
    sampleCollector rfl (Prod.ext (by decide) rfl)
  have h2 := collector_aggregation sampleEnv sampleRequest faultyWorld _ _ sampleCollector
    sampleCollector rfl (Prod.ext (by decide) rfl)
  refine ⟨?_, ?_, by decide, by decide⟩
  · have hn : (Reconcile sampleEnv sampleRequest steadyWorld).1.2 = none := by decide
    have hr := (h1.2.2.2.1 hn).2
    have hne : (Reconcile sampleEnv sampleRequest steadyWorld).1.1 ≠ Result.after60 := by decide
    exact Prod.ext (hr.resolve_left hne) hn
  · have he : (Reconcile sampleEnv sampleRequest faultyWorld).1.2 ≠ none :=
      h2.2.1.mpr (Or.inl (by decide))
    exact Prod.ext (h2.2.2.1 he) (by decide)

end clustercollector

namespace clustercollector

/-- The driver on the cluster collector controller when the read of the Deployment
returns it and the verdict is `NoChange`: no requeue is asked for, no error is
returned, and the custom resource and the world are the ones the status refresh
leaves. -/
theorem clusterPass_noChange (env : Env) (cc : Clustercollector) (w w1 : World)
    (dep : Deployment)
    (hdep : clientGet cc.Namespace cc.Name w = (Except.ok dep, w1))
    (hverdict : (env.hasBreakingChanges cc { dep with Owner := some cc.Name }).1 = (false, false)) :
    (clusterPass env cc w).1.1 = (false, none) ∧
      (clusterController env).Collector (clusterPass env cc w).1.2 =
        (env.updateStatus cc w1).1.2 ∧
      (clusterPass env cc w).2 = (env.updateStatus cc w1).2 := by
  cases hv : env.hasBreakingChanges cc { dep with Owner := some cc.Name } with
  | mk v patched =>
    rw [hv] at hverdict
    simp only [] at hverdict
    subst hverdict
    simp only [clusterPass, ensureClusterCollectors, clusterController,
      clusterCollectorController.Init, NewClusterCollectorController]
    have hdep2 : (clientGet cc.Namespace cc.Name w : Except Error Deployment × World) =
        (Except.ok dep, w1) := hdep
    rw [hdep2]
    simp only [clusterCollectorController.Update, hv, Bool.false_eq_true, if_false]
    cases hs : env.updateStatus cc w1 with
    | mk r w2 =>
      obtain ⟨e, cc1⟩ := r
      simp

/-- The driver on the host collector controller of the spec when the lookup of the
workload returns it and the verdict is `NoChange`: a requeue is asked for and no
error is returned. -/
theorem hostFromSpec_noChange
    (updateStatus : Clustercollector → World → (Option Error × Clustercollector) × World)
    (p : HostParts) (cc owner : Clustercollector) (w w1 : World) (workload : p.Workload)
    (hget : p.get cc w = (Except.ok workload, w1))
    (hverdict : (p.hasBreakingChanges cc (p.own owner workload)).1 = (false, false)) :
    (ensureClusterCollectors (hostCollectorFromSpec updateStatus p)
        { clusterCollector := cc, workload := p.zero } owner w).1.1 = (true, none) ∧
      (ensureClusterCollectors (hostCollectorFromSpec updateStatus p)
        { clusterCollector := cc, workload := p.zero } owner w).2 = (updateStatus cc w1).2 := by
  cases hv : p.hasBreakingChanges cc (p.own owner workload) with
  | mk v patched =>
    rw [hv] at hverdict
    simp only [] at hverdict
    subst hverdict
    simp only [ensureClusterCollectors, hostCollectorFromSpec]
    rw [hget]
    simp only [hv, Bool.false_eq_true, if_false]
    cases hs : updateStatus cc w1 with
    | mk r w2 =>
      obtain ⟨e, cc1⟩ := r
      simp

/-- C10: with the host collector controller of the spec, a pass of the collector
`Reconcile` in which the custom resource is read, the bundles are ensured, both
workloads exist and both verdicts are `NoChange` returns no error and requests
re-invocation after 60 seconds.  The cluster collector controller asks for no requeue
on such a pass; the host collector controller does. -/
theorem collector_family_requeues (env : Env) (p : HostParts) (request : Request)
    (w w1 w2 w3 w4 : World) (cc0 cc : Clustercollector) (dep : Deployment)
    (workload : p.Workload)
    (hget : clientGet request.Namespace request.Name w = (Except.ok cc0, w1))
    (hcfg : ensureConfigMap env cc0 w1 = ((none, cc), w2))
    (hdep : clientGet cc.Namespace cc.Name w2 = (Except.ok dep, w3))
    (hverdict : (env.hasBreakingChanges cc { dep with Owner := some cc.Name }).1 = (false, false))
    (hhost : p.get (env.updateStatus cc w3).1.2 (env.updateStatus cc w3).2 =
      (Except.ok workload, w4))
    (hhostVerdict : (p.hasBreakingChanges (env.updateStatus cc w3).1.2
      (p.own (env.updateStatus cc w3).1.2 workload)).1 = (false, false)) :
    (Reconcile (withHostFromSpec env p) request w).1 = (Result.after60, none) ∧
      (Reconcile (withHostFromSpec env p) request w).1.1.RequeueAfter = 60 ∧
      (clusterPass (withHostFromSpec env p) cc w2).1.1 = (false, none) ∧
      (hostPass (withHostFromSpec env p) cc w2).1.1 = (true, none) := by
  have hcfg2 : ensureConfigMap (withHostFromSpec env p) cc0 w1 = ((none, cc), w2) := hcfg
  have hc := clusterPass_noChange (withHostFromSpec env p) cc w2 w3 dep hdep hverdict
  have hh : (hostPass (withHostFromSpec env p) cc w2).1.1 = (true, none) := by
    unfold hostPass
    rw [hc.2.1, hc.2.2]
    exact (hostFromSpec_noChange env.updateStatus p _ _ _ w4 workload hhost hhostVerdict).1
  have hR := Reconcile_of_passes (withHostFromSpec env p) request w w1 w2 cc0 cc hget hcfg2
  have hres : (Reconcile (withHostFromSpec env p) request w).1 = (Result.after60, none) := by
    rw [hR, hc.1, hh]
    simp
  exact ⟨hres, by rw [hres]; rfl, hc.1, hh⟩

/-- Witness of C10 on `familyWorld`, where both workloads of the sample collector
exist, with the sample parts of the host collector. -/
theorem collector_family_requeues_witness :
    (Reconcile (withHostFromSpec sampleEnv sampleHostParts) sampleRequest familyWorld).1 =
        (Result.after60, none) ∧
      (Reconcile (withHostFromSpec sampleEnv sampleHostParts) sampleRequest
        familyWorld).1.1.RequeueAfter = 60 :=
  have h := collector_family_requeues sampleEnv sampleHostParts sampleRequest familyWorld _ _ _ _
    sampleCollector sampleCollector sampleCollectorDeployment sampleHostWorkload rfl
    (Prod.ext (by decide) rfl) rfl (by decide) rfl (by decide)
  ⟨h.1, h.2.1⟩

end clustercollector

namespace adam

/-- A stored bundle whose text is the document `null` makes `ensureConfigMap` panic at
the stamp of line 444: nothing is returned, and the read of the bundle is its only call. -/
theorem ensureConfigMap_null (env : Env) (clusterAgent : Adam) (secret : Secret)
    (create : Bool) (w : World) (cm : ConfigMap)
    (hf : w.faults = [])
    (hcm : w.lookup clusterAgent.Namespace "adam-config" = some cm)
    (hu : env.unmarshal (mapGet cm.Data "adam-config.json") AppDBag.zero = none)
    (hn : env.nullDocument (mapGet cm.Data "adam-config.json") = true) :
    ensureConfigMap env clusterAgent secret create w =
      (none, w.issue (Call.get Kind.configMap clusterAgent.Namespace "adam-config")) := by
  unfold ensureConfigMap
  rw [clientGet_found clusterAgent.Namespace "adam-config" w cm hf hcm]
  simp only [readBag, hu, hn, if_true]
  rfl

/-- On `nullWorld` the pass panics after its four reads and writes nothing. -/
theorem Reconcile_null :
    (Reconcile sampleEnv sampleRequest nullWorld).1 = none ∧
      (Reconcile sampleEnv sampleRequest nullWorld).2.trace.map Call.isWrite =
        [false, false, false, false] := by
  decide

end adam
